import Mathlib

/-!
# The sale-event broadcast service of `modules/Sale` and the services around it

A shallow embedding of `SSEService` (the registry of connected event-stream
clients), of the channels its clients own, and of the three methods
`RegisterClient`, `UnregisterClient` and `BroadcastSaleEvent`, together with the
two handlers that use the service: `salesEventsHandler`, which opens a stream and
relays the queue of its client, and `createSaleHandler`, which broadcasts the event
of a new sale.  The second half embeds the services that work on the database:
the sale service (`CreateSale`, `UpdateSale`, `GetCompanyIDFromSale`), the
notification service (`CreateNotification`), the product service with its three
writing handlers, and `ChangePassword` with its handler.

Modelling decisions.

* Go's `uint`/`int` identifiers are natural numbers and integers: the event service does
  no arithmetic on them, it only compares them and prints them.
* `map[uint]V` is an association list with distinct keys (`AList`).  A nil inner
  map and an empty inner map behave alike in every statement of sse.go (lookup
  misses, `len` is 0, `range` does nothing), so both are the empty list.
* A `chan []byte` is a heap object: the state carries the list of all channels
  ever made and an `SSEClient` holds the index of its channel.  That keeps the
  queue of a registration alive after the registry has dropped or replaced it,
  as it is for a goroutine that still holds the old `*SSEClient`.
* `*SSEClient` values are never mutated after `RegisterClient` built them, so the
  registry stores the record itself; two handles are the same pointer exactly
  when they carry the same channel.
* A run-time panic (send on a closed channel, close of a closed or nil channel)
  is the error result of `Except`.
* `RegisterClient` and `UnregisterClient` hold the write lock and
  `BroadcastSaleEvent` the read lock; a call is one state transition.  The
  statements below are about calls made one after another, with the receives of
  the stream pumps in between; two broadcasts that overlap in time are not
  modelled.
* The loop of `BroadcastSaleEvent` ranges over a Go map, whose iteration order is
  not fixed; the model takes the order of the association list, and
  `sendAll_perm` shows that the outcome is the same for every order.
* Text is a `String`: the texts that reach the service come out of JSON decoding
  and the database and are valid UTF-8.
* What `fmt.Printf` writes to standard output is not part of the state.
* A handler starts where it reads the `gin.Context`; what the middleware stored
  there is an input.  An accepted stream is a small machine (`Conn`, `connStep`):
  its loop and the goroutine that waits for the close notification take steps
  chosen from outside, as the Go scheduler and `select` choose them, and the
  result of each `Write` is an input too.  The transport is the list of the calls
  of `Write`.
* The database layer behind `createSaleHandler` is a record of functions
  (`Services`), one for each service call, so that a statement about the handler
  holds whatever the database returns.
* Where a statement is about what is stored, the database is a value (`DB`): the
  rows of each table, and a list of coming faults, which lets the database fail any
  statement with any message.  A service method takes the database and returns it
  with its result; a handler is one sequence of such calls, so two requests that
  overlap in time are not modelled.  `createSaleHandlerDB` is `createSaleHandler`
  on that database (`createSaleHandlerDB_eq`).
* The services are initialised (`GetUserService() != nil`), as main.go does before
  it serves a request.
* A path parameter or query parameter that the handler parses is the result of the
  parse (`strconv.ParseUint`, `strconv.Atoi`), like the body is the result of
  `ShouldBindJSON`.
* Go's `int` is 64 bits wide; where the code computes with it the result is wrapped
  (`wrapInt`).  The arithmetic of `float64` and `bcrypt` are parameters.
-/

namespace Sale

/-! ## Roles (modules/User/models.go) -/

/-- Role of a user: `type UserRole string`. -/
abbrev UserRole := String

/-- Constant `User.SuperAdmin`. -/
def SuperAdmin : UserRole := "super_admin"

/-- Constant `User.User`. -/
def User : UserRole := "user"

/-! ## Channels -/

/-- Bytes of one message: a `[]byte`, kept as the text it was built from. -/
abbrev Frame := String

/-- Heap object behind a `chan []byte`: the buffered messages (oldest first), the
capacity given to `make`, and whether `close` has been called. -/
structure Chan where
  buf : List Frame
  cap : Nat
  closed : Bool
deriving DecidableEq, Repr

/-- Run-time panics of the channel operations. -/
inductive Panic where
  | sendOnClosed
  | closeOfClosed
  | closeOfNil
deriving DecidableEq, Repr

/-- Result of `make(chan []byte, n)`. -/
def makeChan (n : Nat) : Chan :=
  { buf := [], cap := n, closed := false }

/-- Non-blocking send `select { case ch <- m: default: }` on the channel at index `a`.
Sending on a closed channel panics; a channel with room takes the message at the
tail of its buffer; a full channel (and a reference to no channel, Go's nil
channel) is never ready, so the `default` arm runs and nothing changes. -/
def trySend (heap : List Chan) (a : Nat) (m : Frame) : Except Panic (List Chan) :=
  match heap[a]? with
  | none => .ok heap
  | some ch =>
    if ch.closed then .error .sendOnClosed
    else if ch.buf.length < ch.cap then .ok (heap.set a { ch with buf := ch.buf ++ [m] })
    else .ok heap

/-- Builtin `close(ch)` on the channel at index `a`. -/
def closeChan (heap : List Chan) (a : Nat) : Except Panic (List Chan) :=
  match heap[a]? with
  | none => .error .closeOfNil
  | some ch =>
    if ch.closed then .error .closeOfClosed
    else .ok (heap.set a { ch with closed := true })

/-- Receive `<-ch` on the channel at index `a`, when it can proceed: the oldest
buffered message if there is one; the zero value (no bytes) from a closed and
drained channel; `none` when the receive would block. -/
def chanRecv (heap : List Chan) (a : Nat) : Option (Frame × List Chan) :=
  match heap[a]? with
  | none => none
  | some ch =>
    match ch.buf with
    | m :: rest => some (m, heap.set a { ch with buf := rest })
    | [] => if ch.closed then some ("", heap) else none

/-! ## Sale events and their JSON encoding (sse.go, lines 84-92 and 108-119) -/

/-- A `float64` as `encoding/json` treats it: NaN and the two infinities are
rejected with an `UnsupportedValueError`; a finite value is written as its
shortest decimal text.  The service does no arithmetic on the price, so a finite
value is carried as that text. -/
inductive Float64 where
  | finite (text : String)
  | nan
  | inf (negative : Bool)
deriving DecidableEq, Repr

/-- Struct `SaleEvent`; the field `Type` is `Type_` here, the word being reserved. -/
structure SaleEvent where
  Type_ : String
  SaleID : Nat
  ProductName : String
  Quantity : Int
  TotalPrice : Float64
  Currency : String
  SellerName : String
  BranchName : String
  CreatedAt : String
deriving DecidableEq, Repr

/-- Lower-case hexadecimal digit. -/
def hexDigit (n : Nat) : Char :=
  if n < 10 then Char.ofNat (48 + n) else Char.ofNat (87 + n)

/-- The backslash character. -/
def backslash : String := String.mk [Char.ofNat 92]

/-- The double-quote character. -/
def dquote : String := String.mk [Char.ofNat 34]

/-- Escape `\u00XX` of a character below U+0100. -/
def escapeU00 (n : Nat) : String :=
  backslash ++ "u00" ++ String.mk [hexDigit (n / 16), hexDigit (n % 16)]

/-- How `encoding/json` (Go 1.22 and later, HTML escaping on, as `json.Marshal`
has it) writes one character inside a string. -/
def jsonEscapeChar (c : Char) : String :=
  let n := c.toNat
  if n = 34 ∨ n = 92 then backslash ++ String.mk [c]
  else if n = 8 then backslash ++ "b"
  else if n = 12 then backslash ++ "f"
  else if n = 10 then backslash ++ "n"
  else if n = 13 then backslash ++ "r"
  else if n = 9 then backslash ++ "t"
  else if n < 32 ∨ n = 60 ∨ n = 62 ∨ n = 38 then escapeU00 n
  else if n = 8232 then backslash ++ "u2028"
  else if n = 8233 then backslash ++ "u2029"
  else String.mk [c]

/-- JSON text of a Go string. -/
def jsonString (s : String) : String :=
  dquote ++ String.join (s.data.map jsonEscapeChar) ++ dquote

/-- One `"key":` of a JSON object. -/
def jsonKey (k : String) : String :=
  dquote ++ k ++ dquote ++ ":"

/-- Call `json.Marshal(saleEvent)`: the fields in declaration order under their
`json` tags, `branchName` left out when empty (`omitempty`); the only value of a
`SaleEvent` the encoder rejects is a non-finite `TotalPrice`. -/
def jsonMarshal (e : SaleEvent) : Except String String :=
  match e.TotalPrice with
  | .finite price =>
    .ok ("\x7b" ++ jsonKey "type" ++ jsonString e.Type_
      ++ "," ++ jsonKey "saleId" ++ toString e.SaleID
      ++ "," ++ jsonKey "productName" ++ jsonString e.ProductName
      ++ "," ++ jsonKey "quantity" ++ toString e.Quantity
      ++ "," ++ jsonKey "totalPrice" ++ price
      ++ "," ++ jsonKey "currency" ++ jsonString e.Currency
      ++ "," ++ jsonKey "sellerName" ++ jsonString e.SellerName
      ++ (if e.BranchName = "" then "" else "," ++ jsonKey "branchName" ++ jsonString e.BranchName)
      ++ "," ++ jsonKey "createdAt" ++ jsonString e.CreatedAt
      ++ "\x7d")
  | .nan => .error "json: unsupported value: NaN"
  | .inf false => .error "json: unsupported value: +Inf"
  | .inf true => .error "json: unsupported value: -Inf"

/-- The message `fmt.Sprintf("data: %s\n\n", string(eventData))`. -/
def sseMessage (eventData : String) : Frame :=
  "data: " ++ eventData ++ "\n\n"

/-- The frame of an event: the message `BroadcastSaleEvent` builds for it, when the
event can be encoded. -/
def frameOf (e : SaleEvent) : Option Frame :=
  match jsonMarshal e with
  | .ok eventData => some (sseMessage eventData)
  | .error _ => none

/-! ## The registry -/

/-- Struct `SSEClient`; `Channel` is the index of the client's channel. -/
structure SSEClient where
  UserID : Nat
  CompanyID : Nat
  Role : UserRole
  Channel : Nat
deriving DecidableEq, Repr

/-- An inner map `map[uint]*SSEClient`: the partition of one company. -/
abbrev Partition := AList (fun _ : Nat => SSEClient)

/-- State of the service: the field `clients` of `SSEService`
(companyID -> userID -> client) and the channels made so far. -/
structure State where
  clients : AList (fun _ : Nat => Partition)
  heap : List Chan
deriving DecidableEq

/-- The registry `GetSSEService` creates: no partition, no channel. -/
def State.init : State :=
  { clients := ∅, heap := [] }

/-- Registration stored for a (company, user) pair: `s.clients[companyID][userID]`. -/
def State.client? (s : State) (companyID userID : Nat) : Option SSEClient :=
  match s.clients.lookup companyID with
  | none => none
  | some companyClients => companyClients.lookup userID

/-- Messages waiting in the channel at index `a` (none for a reference to no channel). -/
def State.queue (s : State) (a : Nat) : List Frame :=
  match s.heap[a]? with
  | none => []
  | some ch => ch.buf

/-- Method `RegisterClient` (sse.go, lines 39-56): make the partition if the
company has none, build the client around a new channel of capacity 10, store it
under the user id, return it. -/
def RegisterClient (s : State) (userID companyID : Nat) (role : UserRole) : SSEClient × State :=
  let clients :=
    match s.clients.lookup companyID with
    | none => s.clients.insert companyID ∅
    | some _ => s.clients
  let client : SSEClient :=
    { UserID := userID, CompanyID := companyID, Role := role, Channel := s.heap.length }
  let heap := s.heap ++ [makeChan 10]
  let companyClients :=
    match clients.lookup companyID with
    | none => ∅
    | some p => p
  (client, { clients := clients.replace companyID (companyClients.insert userID client), heap := heap })

/-- Method `UnregisterClient` (sse.go, lines 59-72): when the company has a
partition, close and delete the user's client if it is there, then delete the
partition if it has become (or was) empty. -/
def UnregisterClient (s : State) (userID companyID : Nat) : Except Panic State :=
  match s.clients.lookup companyID with
  | none => .ok s
  | some companyClients =>
    let removed : Except Panic (Partition × List Chan) :=
      match companyClients.lookup userID with
      | some client =>
        match closeChan s.heap client.Channel with
        | .error p => .error p
        | .ok heap => .ok (companyClients.erase userID, heap)
      | none => .ok (companyClients, s.heap)
    match removed with
    | .error p => .error p
    | .ok (companyClients, heap) =>
      if companyClients.entries.length = 0 then
        .ok { clients := s.clients.erase companyID, heap := heap }
      else
        .ok { clients := s.clients.replace companyID companyClients, heap := heap }

/-- The loop of `BroadcastSaleEvent` (sse.go, lines 95-105) over the entries of a
partition: a non-blocking send of the message to every client whose role is
`super_admin`. -/
def sendAll (msg : Frame) : List (Sigma fun _ : Nat => SSEClient) → List Chan → Except Panic (List Chan)
  | [], heap => .ok heap
  | ⟨_, client⟩ :: rest, heap =>
    if client.Role = SuperAdmin then
      match trySend heap client.Channel msg with
      | .error p => .error p
      | .ok heap1 => sendAll msg rest heap1
    else sendAll msg rest heap

/-- Method `BroadcastSaleEvent` (sse.go, lines 75-106): nothing without a partition
for the company; nothing when the event cannot be encoded; otherwise the loop
`sendAll` with the message built from the encoding. -/
def BroadcastSaleEvent (s : State) (companyID : Nat) (saleEvent : SaleEvent) : Except Panic State :=
  match s.clients.lookup companyID with
  | none => .ok s
  | some companyClients =>
    match jsonMarshal saleEvent with
    | .error _ => .ok s
    | .ok eventData =>
      match sendAll (sseMessage eventData) companyClients.entries s.heap with
      | .error p => .error p
      | .ok heap => .ok { s with heap := heap }

/-- The arm `case message := <-client.Channel` of the streaming loop of
`salesEventsHandler` (router.go, lines 337-346) with a write that succeeds: the
received message is appended to what the connection has written.  When the
receive would block nothing happens. -/
def pumpDequeue (s : State) (client : SSEClient) (written : List Frame) : State × List Frame :=
  match chanRecv s.heap client.Channel with
  | none => (s, written)
  | some (message, heap) => ({ s with heap := heap }, written ++ [message])

/-! ## Runs of the service -/

/-- One atomic action on the service: a call of one of its three methods, or a
stream pump holding the handle `client` taking its next message. -/
inductive Op where
  | register (userID companyID : Nat) (role : UserRole)
  | unregister (userID companyID : Nat)
  | broadcast (companyID : Nat) (saleEvent : SaleEvent)
  | dequeue (client : SSEClient)
deriving DecidableEq, Repr

/-- Effect of one action on the state. -/
def step (s : State) : Op → Except Panic State
  | .register userID companyID role => .ok (RegisterClient s userID companyID role).2
  | .unregister userID companyID => UnregisterClient s userID companyID
  | .broadcast companyID saleEvent => BroadcastSaleEvent s companyID saleEvent
  | .dequeue client => .ok (pumpDequeue s client []).1

/-- Effect of a sequence of actions, stopping at the first panic. -/
def run (s : State) : List Op → Except Panic State
  | [] => .ok s
  | op :: ops =>
    match step s op with
    | .error p => .error p
    | .ok s1 => run s1 ops

/-- A state the service can be in: some sequence of actions leads to it from the
registry `GetSSEService` creates. -/
def Reachable (s : State) : Prop :=
  ∃ ops : List Op, run State.init ops = .ok s

/-- A sequence of actions as the pump holding `client` sees it: the state it
leads to and the frames that pump has written, `written` being what it had
written before.  A `dequeue` of that very handle is a step of this pump. -/
def runPump (client : SSEClient) (s : State) (written : List Frame) :
    List Op → Except Panic (State × List Frame)
  | [] => .ok (s, written)
  | op :: ops =>
    if op = .dequeue client then
      runPump client (pumpDequeue s client written).1 (pumpDequeue s client written).2 ops
    else
      match step s op with
      | .error p => .error p
      | .ok s1 => runPump client s1 written ops

/-- The frames broadcast to company `T` by a sequence of actions, in order. -/
def framesTo (T : Nat) : List Op → List Frame
  | [] => []
  | .broadcast companyID saleEvent :: ops =>
    if companyID = T then
      match frameOf saleEvent with
      | some m => m :: framesTo T ops
      | none => framesTo T ops
    else framesTo T ops
  | _ :: ops => framesTo T ops

/-- A call on one fixed (company, user) pair: `some role` is `RegisterClient` with
that role, `none` is `UnregisterClient`. -/
abbrev PairCall := Option UserRole

/-- A sequence of calls on the pair (company `T`, user `c`): the state it leads to
and the handles the `RegisterClient` calls returned, oldest first, `handles`
being those returned before. -/
def runPair (c T : Nat) (s : State) (handles : List SSEClient) :
    List PairCall → Except Panic (State × List SSEClient)
  | [] => .ok (s, handles)
  | some role :: calls =>
    runPair c T (RegisterClient s c T role).2 (handles ++ [(RegisterClient s c T role).1]) calls
  | none :: calls =>
    match UnregisterClient s c T with
    | .error p => .error p
    | .ok s1 => runPair c T s1 handles calls

/-- Number of registrations the registry stores for the pair (company `T`, user `c`). -/
def State.countPair (s : State) (T c : Nat) : Nat :=
  ((s.clients.entries.filter (fun p => p.1 = T)).map
    (fun p => (p.2.entries.filter (fun x => x.1 = c)).length)).sum

/-- Channels the loop of `BroadcastSaleEvent` sends to: those of the clients of the
partition whose role is `super_admin`, in iteration order. -/
def targets (l : List (Sigma fun _ : Nat => SSEClient)) : List Nat :=
  (l.filter (fun x => x.2.Role = SuperAdmin)).map (fun x => x.2.Channel)

/-- A channel after a non-blocking send that does not panic. -/
def Chan.push (ch : Chan) (m : Frame) : Chan :=
  if ch.buf.length < ch.cap then { ch with buf := ch.buf ++ [m] } else ch

/-- Representation invariant of the service: no partition is empty; every
registered client owns a channel that exists and is open; no two registrations
share a channel; every channel has capacity 10 and holds no more than that. -/
structure Inv (s : State) : Prop where
  nonempty : ∀ T p, s.clients.lookup T = some p → p.entries ≠ []
  isOpen : ∀ T c cl, s.client? T c = some cl →
    ∃ ch, s.heap[cl.Channel]? = some ch ∧ ch.closed = false
  inj : ∀ T c cl T1 c1 cl1, s.client? T c = some cl → s.client? T1 c1 = some cl1 →
    cl.Channel = cl1.Channel → T = T1 ∧ c = c1
  bounded : ∀ (a : Nat) (ch : Chan), s.heap[a]? = some ch → ch.cap = 10 ∧ ch.buf.length ≤ 10

/-! ## Concrete events and runs used as test inputs -/

/-- The sale event of the end-to-end scenario: sale 42, quantity 3, 150.00 USD. -/
def saleEvent42 : SaleEvent :=
  { Type_ := "new_sale", SaleID := 42, ProductName := "", Quantity := 3,
    TotalPrice := .finite "150", Currency := "USD", SellerName := "", BranchName := "",
    CreatedAt := "" }

/-- The same event with a total price that is not a number. -/
def saleEventNaN : SaleEvent :=
  { saleEvent42 with TotalPrice := .nan }

/-- The state a sequence of actions leads to from the initial registry (the initial
registry itself if the sequence panics). -/
def stateAfter (ops : List Op) : State :=
  match run State.init ops with
  | .ok s => s
  | .error _ => State.init

/-- Company 7 with one `super_admin` client, user 1. -/
def oneAdmin : State :=
  stateAfter [.register 1 7 SuperAdmin]

/-- The actions that fill the queue of user 1 and then connect user 2, both
`super_admin` clients of company 7. -/
def fullQueueOps : List Op :=
  .register 1 7 SuperAdmin :: (List.replicate 10 (.broadcast 7 saleEvent42) ++
    [.register 2 7 SuperAdmin])

/-- Company 7 with user 1, whose queue holds 10 messages, and user 2, whose queue
is empty. -/
def fullQueue : State :=
  stateAfter fullQueueOps

/-- Company 7 with one client of role `user`, user 3. -/
def oneUser : State :=
  stateAfter [.register 3 7 User]

/-! ## The JSON object of a sale event, member by member -/

/-- The members of the JSON object that `json.Marshal` writes for a `SaleEvent`, as
pairs of key and encoded value, in the order of the struct fields; `price` is the
text of the finite total price.  The `json` tag of `BranchName` carries
`omitempty`. -/
def jsonFields (e : SaleEvent) (price : String) : List (String × String) :=
  [("type", jsonString e.Type_), ("saleId", toString e.SaleID),
    ("productName", jsonString e.ProductName), ("quantity", toString e.Quantity),
    ("totalPrice", price), ("currency", jsonString e.Currency),
    ("sellerName", jsonString e.SellerName)]
  ++ (if e.BranchName = "" then [] else [("branchName", jsonString e.BranchName)])
  ++ [("createdAt", jsonString e.CreatedAt)]

/-- One member `"key":value` of a JSON object. -/
def jsonMember (kv : String × String) : String :=
  jsonKey kv.1 ++ kv.2

/-- The members of a JSON object, separated by commas. -/
def jsonMembers : List (String × String) → String
  | [] => ""
  | [kv] => jsonMember kv
  | kv :: rest => jsonMember kv ++ "," ++ jsonMembers rest

/-- Text of the JSON object with the given members. -/
def jsonObject (fields : List (String × String)) : String :=
  "\x7b" ++ jsonMembers fields ++ "\x7d"

/-! ## The event-stream endpoint `salesEventsHandler` (router.go, lines 268-352) -/

/-- A value stored in the `gin.Context` under a key, as far as the type assertions of
the handlers tell values apart: a `uint`, a `*uint` (nil or not), a `UserRole`, or a
value of any other type. -/
inductive Any where
  | uint (n : Nat)
  | uintPtr (p : Option Nat)
  | role (r : UserRole)
  | other
deriving DecidableEq, Repr

/-- The keys of the `gin.Context` that the handlers of this package read with
`c.Get`; `none` is a key that is not set. -/
structure Context where
  user_id : Option Any
  company_id : Option Any
  role : Option Any
deriving DecidableEq, Repr

/-- An answer `c.JSON(status, gin.H{"error": message})`. -/
structure ErrorResponse where
  status : Nat
  message : String
deriving DecidableEq, Repr

/-- One call of `Write` on `c.Writer`: the bytes passed, and whether the call
returned without error. -/
structure WriteCall where
  data : Frame
  ok : Bool
deriving DecidableEq, Repr

/-- The first message of a stream, `"data: {\"type\":\"connected\"}\n\n"`
(router.go, line 326). -/
def handshake : Frame :=
  "data: \x7b" ++ dquote ++ "type" ++ dquote ++ ":" ++ dquote ++ "connected" ++ dquote ++ "\x7d\n\n"

/-- The response headers of an accepted stream (router.go, lines 316-319). -/
def sseHeaders : List (String × String) :=
  [("Content-Type", "text/event-stream"), ("Cache-Control", "no-cache"),
    ("Connection", "keep-alive"), ("X-Accel-Buffering", "no")]

/-- One accepted run of `salesEventsHandler`, from line 323 on: the identity it
registered, the handle `RegisterClient` returned, the calls of `Write` it has made
so far, and where its two goroutines stand.  `notify` says that the one value
`CloseNotify` delivers is waiting in the channel, `peerGone` that the peer has
closed the connection, `helper` that the goroutine of lines 331-334 is still
waiting for that value, `running` that the loop of lines 337-351 has not returned. -/
structure Conn where
  userID : Nat
  companyID : Nat
  client : SSEClient
  headers : List (String × String)
  writes : List WriteCall
  notify : Bool
  peerGone : Bool
  helper : Bool
  running : Bool
deriving DecidableEq, Repr

/-- How a run of `salesEventsHandler` goes on after its checks: it has answered and
returned, or it has registered and is streaming. -/
inductive Outcome where
  | rejected (resp : ErrorResponse)
  | streaming (conn : Conn)
deriving DecidableEq, Repr

/-- Function `salesEventsHandler` up to the start of its loop (router.go, lines
269-334): the checks of user id, company id and role, each answering and returning
on failure; then the headers, `RegisterClient`, and the handshake message, whose
write result the code discards (`handshakeOk`). -/
def salesEventsHandler (s : State) (ctx : Context) (handshakeOk : Bool) : State × Outcome :=
  match ctx.user_id with
  | none => (s, .rejected ⟨401, "user information not found"⟩)
  | some (.uint userIDUint) =>
    match ctx.company_id with
    | none => (s, .rejected ⟨401, "company information not found"⟩)
    | some (.uintPtr (some companyID)) =>
      match ctx.role with
      | none => (s, .rejected ⟨401, "role information not found"⟩)
      | some (.role userRole) =>
        if userRole ≠ SuperAdmin then
          (s, .rejected ⟨403, "only super admins can subscribe to sale events"⟩)
        else
          ((RegisterClient s userIDUint companyID userRole).2,
            .streaming
              { userID := userIDUint, companyID := companyID,
                client := (RegisterClient s userIDUint companyID userRole).1,
                headers := sseHeaders,
                writes := [⟨handshake, handshakeOk⟩],
                notify := false, peerGone := false, helper := true, running := true })
      | some _ => (s, .rejected ⟨401, "invalid role information"⟩)
    | some _ => (s, .rejected ⟨401, "invalid company information"⟩)
  | some _ => (s, .rejected ⟨401, "invalid user information"⟩)

/-- What can happen next on an accepted connection.  `peerClose`: the peer closes the
connection and the server puts the one value into the channel of `CloseNotify`.
`helper`: the goroutine of lines 331-334 receives that value.  `message writeOk`:
the loop takes the arm `case message := <-client.Channel`, and the `Write` of the
message succeeds or fails.  `notify`: the loop takes the arm `case <-notify`. -/
inductive ConnEvent where
  | peerClose
  | helper
  | message (writeOk : Bool)
  | notify
deriving DecidableEq, Repr

/-- One step of an accepted connection (router.go, lines 329-351).  An event that is
not enabled (a receive that would block, a goroutine that has finished) changes
nothing.  The receive of line 339 takes whatever `<-client.Channel` yields, the
zero value of a closed channel included: the code does not look at the second
result of the receive. -/
def connStep (s : State) (conn : Conn) : ConnEvent → Except Panic (State × Conn)
  | .peerClose =>
    if conn.peerGone then .ok (s, conn)
    else .ok (s, { conn with peerGone := true, notify := true })
  | .helper =>
    if conn.helper ∧ conn.notify then
      match UnregisterClient s conn.userID conn.companyID with
      | .error p => .error p
      | .ok s1 => .ok (s1, { conn with helper := false, notify := false })
    else .ok (s, conn)
  | .message writeOk =>
    if conn.running then
      match chanRecv s.heap conn.client.Channel with
      | none => .ok (s, conn)
      | some (message, heap) =>
        if writeOk then
          .ok ({ s with heap := heap },
            { conn with writes := conn.writes ++ [⟨message, true⟩] })
        else
          match UnregisterClient { s with heap := heap } conn.userID conn.companyID with
          | .error p => .error p
          | .ok s1 =>
            .ok (s1, { conn with writes := conn.writes ++ [⟨message, false⟩], running := false })
    else .ok (s, conn)
  | .notify =>
    if conn.running ∧ conn.notify then
      match UnregisterClient s conn.userID conn.companyID with
      | .error p => .error p
      | .ok s1 => .ok (s1, { conn with notify := false, running := false })
    else .ok (s, conn)

/-- An action seen from one accepted connection: a step of the connection itself, or
an action of another party on the service (a call of one of its methods, a receive
of another pump). -/
inductive Action where
  | own (ev : ConnEvent)
  | other (op : Op)
deriving DecidableEq, Repr

/-- A sequence of actions, as it changes the service and one connection, stopping at
the first panic. -/
def actRun (s : State) (conn : Conn) : List Action → Except Panic (State × Conn)
  | [] => .ok (s, conn)
  | .own ev :: acts =>
    match connStep s conn ev with
    | .error p => .error p
    | .ok (s1, conn1) => actRun s1 conn1 acts
  | .other op :: acts =>
    match step s op with
    | .error p => .error p
    | .ok s1 => actRun s1 conn acts

/-! ## The handler `createSaleHandler` (router.go, lines 117-192) -/

/-- Struct `UserResponse` (models.go). -/
structure UserResponse where
  ID : Nat
  Name : String
deriving DecidableEq, Repr

/-- Struct `BranchResponse` (models.go). -/
structure BranchResponse where
  ID : Nat
  Name : String
deriving DecidableEq, Repr

/-- Struct `Sale` (models.go), named `SaleRecord` here because `Sale` is the name of
the package, with `ID` and `CreatedAt` of the embedded `gorm.Model`.  `CreatedAt`
is the time as its text in the layout `2006-01-02T15:04:05Z07:00`, the only way the
code here looks at it; `ProductAttributes` is the JSON text of the map.  The fields `UpdatedAt`, `DeletedAt`, `SyncStatus` and `Product`, which the
modelled code neither reads nor sets, are left out. -/
structure SaleRecord where
  ID : Nat
  CreatedAt : String
  ProductID : Nat
  ProductName : String
  ProductAttributes : String
  Quantity : Int
  UnitPrice : Float64
  ExtraCosts : Float64
  TotalPrice : Float64
  Currency : String
  SellerID : Nat
  PaymentStatus : String
  BuyerName : Option String
  BuyerContact : Option String
  BuyerLocation : Option String
  Seller : Option UserResponse
  Branch : Option BranchResponse
deriving DecidableEq, Repr

/-- Struct `CreateSaleRequest` (models.go). -/
structure CreateSaleRequest where
  ProductID : Nat
  ProductName : String
  ProductAttributes : String
  Quantity : Int
  UnitPrice : Float64
  ExtraCosts : Float64
  TotalPrice : Float64
  Currency : String
  SellerID : Nat
  PaymentStatus : String
  BuyerName : Option String
  BuyerContact : Option String
  BuyerLocation : Option String
deriving DecidableEq, Repr

/-- Struct `UserModel` (modules/User/models.go): the identity, the role, the branch
and the computed names. -/
structure UserModel where
  ID : Nat
  Name : String
  Username : String
  Password : String
  Role : UserRole
  BranchID : Option Nat
  Branch : String
  Company : String
  CompanyID : Option Nat
deriving DecidableEq, Repr

/-- The service calls `createSaleHandler` makes into the database layer, each as
the function of its arguments that the database state of the moment makes it:
`GetSaleService().CreateSale`, `GetSaleService().GetCompanyIDFromSale` (its result
is a `*uint` and an error) and `User.GetUserService().GetUserByID`. -/
structure Services where
  CreateSale : CreateSaleRequest → Except String SaleRecord
  GetCompanyIDFromSale : SaleRecord → Except String (Option Nat)
  GetUserByID : Nat → Except String UserModel

/-- Body of an answer `c.JSON`: an error object or the sale. -/
inductive ResponseBody where
  | error (message : String)
  | sale (sale : SaleRecord)
deriving DecidableEq, Repr

/-- An answer `c.JSON(status, body)`. -/
structure Response where
  status : Nat
  body : ResponseBody
deriving DecidableEq, Repr

/-- The event `createSaleHandler` builds for a sale (router.go, lines 163-187):
seller name and branch name from the seller when one was found, the branch name of
the sale instead when the sale carries a branch with a name. -/
def saleEventOf (sale : SaleRecord) (seller : Option UserModel) : SaleEvent :=
  let sellerName := match seller with
    | some u => u.Name
    | none => ""
  let branchName := match seller with
    | some u => u.Branch
    | none => ""
  let branchName := match sale.Branch with
    | some b => if b.Name ≠ "" then b.Name else branchName
    | none => branchName
  { Type_ := "new_sale", SaleID := sale.ID, ProductName := sale.ProductName,
    Quantity := sale.Quantity, TotalPrice := sale.TotalPrice, Currency := sale.Currency,
    SellerName := sellerName, BranchName := branchName, CreatedAt := sale.CreatedAt }

/-- Function `createSaleHandler` (router.go, lines 117-192).  `bind` is the result of
`c.ShouldBindJSON(&req)`.  The notification of lines 146-157 is left out: its
results are discarded and it touches neither the registry nor the answer.  A panic
of `BroadcastSaleEvent` would leave the handler before its answer. -/
def createSaleHandler (svc : Services) (s : State) (bind : Except String CreateSaleRequest)
    (ctx : Context) : Except Panic (State × Response) :=
  match bind with
  | .error err => .ok (s, ⟨400, .error err⟩)
  | .ok req =>
    match ctx.user_id with
    | none => .ok (s, ⟨401, .error "user information not found"⟩)
    | some (.uint sellerID) =>
      match svc.CreateSale { req with SellerID := sellerID } with
      | .error err => .ok (s, ⟨400, .error err⟩)
      | .ok sale =>
        match svc.GetCompanyIDFromSale sale with
        | .ok (some companyID) =>
          let seller := match svc.GetUserByID sellerID with
            | .ok u => some u
            | .error _ => none
          match BroadcastSaleEvent s companyID (saleEventOf sale seller) with
          | .error p => .error p
          | .ok s1 => .ok (s1, ⟨201, .sale sale⟩)
        | _ => .ok (s, ⟨201, .sale sale⟩)
    | some _ => .ok (s, ⟨401, .error "invalid user information"⟩)

/-! ## Inputs of the handlers used as test inputs -/

/-- The context of an authenticated user with a company. -/
def contextOf (userID companyID : Nat) (role : UserRole) : Context :=
  { user_id := some (.uint userID), company_id := some (.uintPtr (some companyID)),
    role := some (.role role) }

/-- The connection that `salesEventsHandler` opens for an accepted request (the
connection of a handler that rejects is one that never ran). -/
def connOf (r : State × Outcome) : Conn :=
  match r.2 with
  | .streaming conn => conn
  | .rejected _ =>
    { userID := 0, companyID := 0, client := ⟨0, 0, "", 0⟩, headers := [], writes := [],
      notify := false, peerGone := false, helper := false, running := false }

/-- The state and the connection a sequence of actions leads to (the starting ones
if the sequence panics). -/
def actAfter (s : State) (conn : Conn) (acts : List Action) : State × Conn :=
  match actRun s conn acts with
  | .ok r => r
  | .error _ => (s, conn)

/-- The frame of the event of sale 42, byte for byte. -/
def frame42 : Frame :=
  "data: \x7b\"type\":\"new_sale\",\"saleId\":42,\"productName\":\"\",\"quantity\":3,\"totalPrice\":150,\"currency\":\"USD\",\"sellerName\":\"\",\"createdAt\":\"\"\x7d\n\n"

/-- The frame of the event of sale 43, byte for byte. -/
def frame43 : Frame :=
  "data: \x7b\"type\":\"new_sale\",\"saleId\":43,\"productName\":\"\",\"quantity\":3,\"totalPrice\":150,\"currency\":\"USD\",\"sellerName\":\"\",\"createdAt\":\"\"\x7d\n\n"

/-- The event of a second sale, sale 43. -/
def saleEvent43 : SaleEvent :=
  { saleEvent42 with SaleID := 43 }

/-- The end-to-end scenario up to the first broadcast: users 1 (A) and 2 (B) register
as `super_admin` and user 3 (C) with role `user` under company 7, then the event of
sale 42 is broadcast to company 7. -/
def scenarioOps : List Op :=
  [.register 1 7 SuperAdmin, .register 2 7 SuperAdmin, .register 3 7 User,
    .broadcast 7 saleEvent42]

/-- The end-to-end scenario to its end: A unregisters and a second event is
broadcast to company 7. -/
def scenarioOps2 : List Op :=
  scenarioOps ++ [.unregister 1 7, .broadcast 7 saleEvent43]

/-- A sale as `CreateSale` returns it. -/
def sale42 : SaleRecord :=
  { ID := 42, CreatedAt := "2024-01-01T00:00:00Z", ProductID := 5, ProductName := "Pen",
    ProductAttributes := "\x7b\x7d", Quantity := 3, UnitPrice := .finite "50",
    ExtraCosts := .finite "0", TotalPrice := .finite "150", Currency := "USD", SellerID := 1,
    PaymentStatus := "credit", BuyerName := none, BuyerContact := none, BuyerLocation := none,
    Seller := none, Branch := none }

/-- A request to create that sale; the seller id of the body is not the caller's. -/
def saleRequest : CreateSaleRequest :=
  { ProductID := 5, ProductName := "Pen", ProductAttributes := "\x7b\x7d", Quantity := 3,
    UnitPrice := .finite "50", ExtraCosts := .finite "0", TotalPrice := .finite "150",
    Currency := "USD", SellerID := 99, PaymentStatus := "credit", BuyerName := none,
    BuyerContact := none, BuyerLocation := none }

/-- Services whose database stores the sale and resolves the seller to company 7. -/
def servicesResolving : Services :=
  { CreateSale := fun _ => .ok sale42,
    GetCompanyIDFromSale := fun _ => .ok (some 7),
    GetUserByID := fun _ => .error "user not found" }

/-- Services whose database stores the sale and cannot resolve the seller. -/
def servicesUnresolved : Services :=
  { CreateSale := fun _ => .ok sale42,
    GetCompanyIDFromSale := fun _ => .error "seller has no branch",
    GetUserByID := fun _ => .error "user not found" }

/-- The run of `salesEventsHandler` for user 1 of company 7, a `super_admin`, in the
initial registry. -/
def firstConn : State × Outcome :=
  salesEventsHandler State.init (contextOf 1 7 SuperAdmin) true

/-- A second run of `salesEventsHandler` for the same user, while the first
connection is still open. -/
def secondConn : State × Outcome :=
  salesEventsHandler firstConn.1 (contextOf 1 7 SuperAdmin) true

/-- The first connection after its peer has closed it and the goroutine of lines
331-334 has received the notification and unregistered. -/
def afterHelper : State × Conn :=
  actAfter firstConn.1 (connOf firstConn) [.own .peerClose, .own .helper]

/-- The first connection and the service after the second connection has
registered and the peer of the first has closed it, the loop of the first taking
the notification. -/
def afterFirstGone : State × Conn :=
  actAfter secondConn.1 (connOf firstConn) [.own .peerClose, .own .notify]

/-! ## The database behind the services (gorm) -/

/-- An error of a gorm statement: `gorm.ErrRecordNotFound`, or another error with
its message. -/
inductive GormError where
  | ErrRecordNotFound
  | other (msg : String)
deriving DecidableEq, Repr

/-- Method `Error()` of the error of a statement. -/
def GormError.Error : GormError → String
  | .ErrRecordNotFound => "record not found"
  | .other msg => msg

/-- Struct `Branch` (modules/User/models.go): id, company and name. -/
structure Branch where
  ID : Nat
  CompanyID : Nat
  Name : String
deriving DecidableEq, Repr

/-- Struct `Company` (modules/Company/models.go): id and name. -/
structure Company where
  ID : Nat
  Name : String
deriving DecidableEq, Repr

/-- Struct `Product` (modules/Product/models.go), with the `ID` of the embedded
`gorm.Model`; `Attributes` is the JSON text of the map.  `Quantity` is a Go `int`. -/
structure Product where
  ID : Nat
  Name : String
  Price : Float64
  Currency : String
  Quantity : Int
  ImageURI : Option String
  Attributes : String
  CompanyID : Nat
deriving DecidableEq, Repr

/-- Struct `NotificationPreferences` (modules/User/models.go). -/
structure NotificationPreferences where
  ID : Nat
  UserID : Nat
  SalesNotifications : Bool
  InventoryAlerts : Bool
  UserActivity : Bool
  SystemUpdates : Bool
  EmailNotifications : Bool
  PushNotifications : Bool
deriving DecidableEq, Repr

/-- Type `NotificationType` (modules/Notification/models.go), a string. -/
abbrev NotificationType := String

/-- Constant `NotificationTypeSale`. -/
def NotificationTypeSale : NotificationType := "sale"

/-- Constant `NotificationTypeInventory`. -/
def NotificationTypeInventory : NotificationType := "inventory"

/-- Constant `NotificationTypeUser`. -/
def NotificationTypeUser : NotificationType := "user"

/-- Constant `NotificationTypeSystem`. -/
def NotificationTypeSystem : NotificationType := "system"

/-- Struct `Notification` (modules/Notification/models.go), with the `ID` of the
embedded `gorm.Model`. -/
structure Notification where
  ID : Nat
  UserID : Nat
  Type_ : NotificationType
  Title : String
  Message : String
  Read : Bool
  RelatedID : Option Nat
deriving DecidableEq, Repr

/-- The database: the rows of each table that are not soft-deleted, in the order of
their primary keys; the last value of the id sequence of the tables the modelled
code inserts into; and `faults`, which tells for each of the coming statements
whether the database fails it (`some` message) or carries it out (`none`; so it
does with every statement once the list is used up). -/
structure DB where
  users : List UserModel
  branches : List Branch
  companies : List Company
  products : List Product
  sales : List SaleRecord
  preferences : List NotificationPreferences
  notifications : List Notification
  saleSeq : Nat
  preferencesSeq : Nat
  notificationSeq : Nat
  faults : List (Option String)
deriving DecidableEq, Repr

/-- The database takes the next statement: the fault it answers with, if any. -/
def DB.fault (db : DB) : Option String × DB :=
  match db.faults with
  | [] => (none, db)
  | f :: rest => (f, { db with faults := rest })

/-- Two states of the database that differ at most in the coming faults: the same
rows in every table and the same sequences. -/
def DB.sameTables (db1 db : DB) : Prop :=
  { db1 with faults := [] } = { db with faults := [] }

/-- Statement `db.First(&x, cond)` (also `db.Where(cond).First(&x)`) on the rows of
a table: the first row, in the order of the primary key, that meets the condition;
`ErrRecordNotFound` when there is none. -/
def DB.First {R : Type} (db : DB) (rows : List R) (cond : R → Bool) : Except GormError R × DB :=
  match db.fault with
  | (some msg, db1) => (.error (.other msg), db1)
  | (none, db1) =>
    match rows.find? cond with
    | none => (.error .ErrRecordNotFound, db1)
    | some row => (.ok row, db1)

/-- A statement that writes (`db.Create`, `db.Save`, `db.Delete`): the database
fails it and nothing is written, or it carries out `write`. -/
def DB.Exec (db : DB) (write : DB → DB) : Option GormError × DB :=
  match db.fault with
  | (some msg, db1) => (some (.other msg), db1)
  | (none, db1) => (none, write db1)

/-- The rows of a table after `db.Save(&x)`: the row with the primary key of `x` is
replaced by `x`; a table without such a row gets `x` as a new row. -/
def saveRow {R : Type} (key : R → Nat) (x : R) (rows : List R) : List R :=
  if rows.any (fun r => key r = key x) then rows.map (fun r => if key r = key x then x else r)
  else rows ++ [x]

/-- A row of `user_models` as a statement reads it into a fresh struct: the fields
tagged `gorm:"-"` (`Branch`, `Company`, `CompanyID`) are not columns and keep their
zero values. -/
def UserModel.columns (u : UserModel) : UserModel :=
  { u with Branch := "", Company := "", CompanyID := none }

/-- A row of `sales` as a statement reads it into a fresh struct: `Seller` and
`Branch`, tagged `gorm:"-"`, are nil. -/
def SaleRecord.columns (sale : SaleRecord) : SaleRecord :=
  { sale with Seller := none, Branch := none }

/-- Go's `int` on the 64-bit platforms the service is built for: the result of an
integer operation, wrapped around into the range of `int`. -/
def wrapInt (x : Int) : Int :=
  (x + 9223372036854775808) % 18446744073709551616 - 9223372036854775808

/-! ## The user service (modules/User/services.go) -/

/-- Method `populateBranchAndCompany` (lines 772-786): the branch name, the company
id and the company name of a user with a branch, as far as the two lookups
succeed. -/
def populateBranchAndCompany (db : DB) (user : UserModel) : UserModel × DB :=
  match user.BranchID with
  | none => (user, db)
  | some branchID =>
    match db.First db.branches (fun b => b.ID = branchID) with
    | (.error _, db1) => (user, db1)
    | (.ok branch, db1) =>
      match db1.First db1.companies (fun c => c.ID = branch.CompanyID) with
      | (.error _, db2) =>
        ({ user with Branch := branch.Name, CompanyID := some branch.CompanyID }, db2)
      | (.ok company, db2) =>
        ({ user with Branch := branch.Name, CompanyID := some branch.CompanyID,
                     Company := company.Name }, db2)

/-- Method `GetUserByID` (lines 54-64). -/
def GetUserByID (db : DB) (id : Nat) : Except String UserModel × DB :=
  match db.First (db.users.map UserModel.columns) (fun u => u.ID = id) with
  | (.error .ErrRecordNotFound, db1) => (.error "user not found", db1)
  | (.error err, db1) => (.error err.Error, db1)
  | (.ok user, db1) =>
    (.ok (populateBranchAndCompany db1 user).1, (populateBranchAndCompany db1 user).2)

/-- Method `GetCompanyIDFromBranch` (lines 788-794); the result is a `*uint`, never
nil when there is no error. -/
def GetCompanyIDFromBranch (db : DB) (branchID : Nat) : Except String (Option Nat) × DB :=
  match db.First db.branches (fun b => b.ID = branchID) with
  | (.error err, db1) => (.error err.Error, db1)
  | (.ok branch, db1) => (.ok (some branch.CompanyID), db1)

/-- The preferences `GetNotificationPreferences` creates for a user who has none
(lines 804-812), before the database gives them an id. -/
def defaultPreferences (userID : Nat) : NotificationPreferences :=
  { ID := 0, UserID := userID, SalesNotifications := true, InventoryAlerts := true,
    UserActivity := false, SystemUpdates := true, EmailNotifications := false,
    PushNotifications := true }

/-- Method `GetNotificationPreferences` (lines 798-826): the stored preferences of
the user; when there are none, default preferences are inserted and returned. -/
def GetNotificationPreferences (db : DB) (userID : Nat) :
    Except String NotificationPreferences × DB :=
  match db.First db.preferences (fun p => p.UserID = userID) with
  | (.error .ErrRecordNotFound, db1) =>
    match db1.Exec (fun d =>
        { d with preferences := d.preferences ++
                   [{ defaultPreferences userID with ID := d.preferencesSeq + 1 }],
                 preferencesSeq := d.preferencesSeq + 1 }) with
    | (some err, db2) => (.error err.Error, db2)
    | (none, db2) => (.ok { defaultPreferences userID with ID := db1.preferencesSeq + 1 }, db2)
  | (.error err, db1) => (.error err.Error, db1)
  | (.ok prefs, db1) => (.ok prefs, db1)

/-- The two functions of `golang.org/x/crypto/bcrypt` the user service calls:
`CompareHashAndPassword(hash, password)`, here true when it returns no error, and
`GenerateFromPassword(password, DefaultCost)`, which draws a salt and can fail. -/
structure Bcrypt where
  CompareHashAndPassword : String → String → Bool
  GenerateFromPassword : String → Except String String

/-- Struct `ChangePasswordRequest` (modules/User/models.go). -/
structure ChangePasswordRequest where
  OldPassword : String
  NewPassword : String
deriving DecidableEq, Repr

/-- Function `hashPassword` (lines 761-768). -/
def hashPassword (bc : Bcrypt) (password : String) : Except String String :=
  match bc.GenerateFromPassword password with
  | .error err => .error err
  | .ok hashedBytes => .ok hashedBytes

/-- Method `ChangePassword` (lines 236-273); the result is the error, `none` for
nil.  `len(req.NewPassword)` counts bytes. -/
def ChangePassword (bc : Bcrypt) (db : DB) (id : Nat) (req : ChangePasswordRequest) :
    Option String × DB :=
  match db.First (db.users.map UserModel.columns) (fun u => u.ID = id) with
  | (.error .ErrRecordNotFound, db1) => (some "user not found", db1)
  | (.error err, db1) => (some err.Error, db1)
  | (.ok user, db1) =>
    if bc.CompareHashAndPassword user.Password req.OldPassword = false then
      (some "current password is incorrect", db1)
    else if req.OldPassword = req.NewPassword then
      (some "new password must be different from current password", db1)
    else if req.NewPassword.utf8ByteSize < 6 then
      (some "new password must be at least 6 characters long", db1)
    else
      match hashPassword bc req.NewPassword with
      | .error err => (some ("failed to hash password: " ++ err), db1)
      | .ok hashedPassword =>
        match db1.Exec (fun d =>
            { d with users := saveRow UserModel.ID { user with Password := hashedPassword }
                                d.users }) with
        | (some err, db2) => (some err.Error, db2)
        | (none, db2) => (none, db2)

/-- Body of an answer `c.JSON`: `gin.H{"error": ...}`, `gin.H{"message": ...}`, or
a value. -/
inductive JSONBody (α : Type) where
  | error (message : String)
  | message (message : String)
  | value (v : α)
deriving DecidableEq, Repr

/-- An answer `c.JSON(status, body)`. -/
structure JSONResponse (α : Type) where
  status : Nat
  body : JSONBody α
deriving DecidableEq, Repr

/-- Function `changePasswordHandler` (modules/User/router.go, lines 147-194).  `id`
is the result of `strconv.ParseUint(c.Param("id"), 10, 32)`, `none` for an error;
`bind` is the result of `c.ShouldBindJSON(&req)`. -/
def changePasswordHandler (bc : Bcrypt) (db : DB) (id : Option Nat) (ctx : Context)
    (bind : Except String ChangePasswordRequest) : DB × JSONResponse Unit :=
  match id with
  | none => (db, ⟨400, .error "invalid user id"⟩)
  | some id =>
    match ctx.user_id with
    | none => (db, ⟨401, .error "user information not found"⟩)
    | some (.uint userIDUint) =>
      match GetUserByID db userIDUint with
      | (.error _, db1) => (db1, ⟨401, .error "user not found"⟩)
      | (.ok user, db1) =>
        if user.Role ≠ SuperAdmin ∧ id ≠ userIDUint then
          (db1, ⟨403, .error "you can only change your own password"⟩)
        else
          match bind with
          | .error err => (db1, ⟨400, .error err⟩)
          | .ok req =>
            match ChangePassword bc db1 id req with
            | (some err, db2) => (db2, ⟨400, .error err⟩)
            | (none, db2) => (db2, ⟨200, .message "password changed successfully"⟩)
    | some _ => (db, ⟨401, .error "invalid user information"⟩)
/-! ## A database and requests used as test inputs -/

/-- A small database: company 7 with its main branch 1 and company 9 with branch 2;
user 1, a `super_admin`, and user 2, with role `user`, both of branch 1; user 3, with
role `user`, who has no branch; product 5 of company 7 and product 6 of company 9;
the preferences of user 1, with sale notifications switched off. -/
def shopDB : DB :=
  { users :=
      [{ ID := 1, Name := "Ada", Username := "ada", Password := "hash:secret1",
         Role := SuperAdmin, BranchID := some 1, Branch := "", Company := "", CompanyID := none },
       { ID := 2, Name := "Bob", Username := "bob", Password := "hash:secret2",
         Role := User, BranchID := some 1, Branch := "", Company := "", CompanyID := none },
       { ID := 3, Name := "Cy", Username := "cy", Password := "hash:secret3",
         Role := User, BranchID := none, Branch := "", Company := "", CompanyID := none }],
    branches := [⟨1, 7, "Main"⟩, ⟨2, 9, "North"⟩],
    companies := [⟨7, "Acme"⟩, ⟨9, "Bolt"⟩],
    products :=
      [{ ID := 5, Name := "Pen", Price := .finite "50", Currency := "USD", Quantity := 10,
         ImageURI := none, Attributes := "\x7b\x7d", CompanyID := 7 },
       { ID := 6, Name := "Ink", Price := .finite "20", Currency := "USD", Quantity := 4,
         ImageURI := none, Attributes := "\x7b\x7d", CompanyID := 9 }],
    sales := [],
    preferences :=
      [{ ID := 1, UserID := 1, SalesNotifications := false, InventoryAlerts := true,
         UserActivity := false, SystemUpdates := true, EmailNotifications := false,
         PushNotifications := true }],
    notifications := [],
    saleSeq := 41, preferencesSeq := 1, notificationSeq := 0,
    faults := [] }

/-- A stand-in for bcrypt in test inputs: the hash of a password is the password
after the text `hash:`. -/
def testBcrypt : Bcrypt :=
  { CompareHashAndPassword := fun hash password => hash = "hash:" ++ password,
    GenerateFromPassword := fun password => .ok ("hash:" ++ password) }

/-- A request to change the password `secret1` into `secret9`. -/
def passwordRequest : ChangePasswordRequest :=
  { OldPassword := "secret1", NewPassword := "secret9" }

/-! ## The notification service (modules/Notification/services.go) -/

/-- Struct `CreateNotificationRequest` (modules/Notification/models.go). -/
structure CreateNotificationRequest where
  UserID : Nat
  Type_ : NotificationType
  Title : String
  Message : String
  RelatedID : Option Nat
deriving DecidableEq, Repr

/-- Method `CreateNotification` (lines 33-81), with the user service initialised.
The preferences of the recipient are read, a second time when the first read
fails; the `switch` picks the flag of the type of the request, and no flag for any
other type; a notification that is not filtered is inserted and returned.  The
result `.ok none` is the pair `(nil, nil)`. -/
def CreateNotification (db : DB) (req : CreateNotificationRequest) :
    Except String (Option Notification) × DB :=
  let read :=
    match GetNotificationPreferences db req.UserID with
    | (.error _, db1) => GetNotificationPreferences db1 req.UserID
    | (.ok prefs, db1) => (.ok prefs, db1)
  match read with
  | (.error err, db1) => (.error ("failed to get notification preferences: " ++ err), db1)
  | (.ok prefs, db1) =>
    let shouldNotify :=
      if req.Type_ = NotificationTypeSale then prefs.SalesNotifications
      else if req.Type_ = NotificationTypeInventory then prefs.InventoryAlerts
      else if req.Type_ = NotificationTypeUser then prefs.UserActivity
      else if req.Type_ = NotificationTypeSystem then prefs.SystemUpdates
      else false
    if shouldNotify = false then (.ok none, db1)
    else
      match db1.Exec (fun d =>
          { d with notifications := d.notifications ++
                     [{ ID := d.notificationSeq + 1, UserID := req.UserID, Type_ := req.Type_,
                        Title := req.Title, Message := req.Message, Read := false,
                        RelatedID := req.RelatedID }],
                   notificationSeq := d.notificationSeq + 1 }) with
      | (some err, db2) => (.error err.Error, db2)
      | (none, db2) =>
        (.ok (some { ID := db1.notificationSeq + 1, UserID := req.UserID, Type_ := req.Type_,
                     Title := req.Title, Message := req.Message, Read := false,
                     RelatedID := req.RelatedID }), db2)

/-- A state of the database without its preferences and coming faults: what
`GetNotificationPreferences` cannot change. -/
def DB.withoutPreferences (db : DB) : DB :=
  { db with preferences := [], preferencesSeq := 0, faults := [] }

/-- A state of the database without its notifications, preferences and coming
faults: what `CreateNotification` cannot change. -/
def DB.withoutNotifications (db : DB) : DB :=
  { db with preferences := [], preferencesSeq := 0, notifications := [], notificationSeq := 0,
            faults := [] }

/-- A notification about user activity for user 2, who has no stored preferences. -/
def activityRequest : CreateNotificationRequest :=
  { UserID := 2, Type_ := NotificationTypeUser, Title := "Login", Message := "New login",
    RelatedID := none }

/-- A notification about the inventory for user 1, who has stored preferences. -/
def stockRequest : CreateNotificationRequest :=
  { UserID := 1, Type_ := NotificationTypeInventory, Title := "Stock Added",
    Message := "Added 10 units of Pen to inventory", RelatedID := some 5 }

/-! ## The product service and its handlers (modules/Product) -/

/-- Struct `UpdateProductRequest` (modules/Product/models.go); `Attributes` is the
JSON text of the map, `none` for a nil map. -/
structure UpdateProductRequest where
  Name : Option String
  Price : Option Float64
  Currency : Option String
  CompanyID : Option Nat
  Quantity : Option Int
  ImageURI : Option String
  Attributes : Option String
deriving DecidableEq, Repr

/-- Method `GetProductByID` (services.go, lines 27-36). -/
def GetProductByID (db : DB) (id : Nat) : Except String Product × DB :=
  match db.First db.products (fun p => p.ID = id) with
  | (.error .ErrRecordNotFound, db1) => (.error "product not found", db1)
  | (.error err, db1) => (.error err.Error, db1)
  | (.ok product, db1) => (.ok product, db1)

/-- The assignments of `UpdateProduct` (services.go, lines 94-114): every field the
request carries replaces that of the product. -/
def UpdateProductRequest.apply (req : UpdateProductRequest) (product : Product) : Product :=
  let product := match req.Name with
    | some v => { product with Name := v }
    | none => product
  let product := match req.Price with
    | some v => { product with Price := v }
    | none => product
  let product := match req.Currency with
    | some v => { product with Currency := v }
    | none => product
  let product := match req.CompanyID with
    | some v => { product with CompanyID := v }
    | none => product
  let product := match req.Quantity with
    | some v => { product with Quantity := v }
    | none => product
  let product := match req.ImageURI with
    | some v => { product with ImageURI := some v }
    | none => product
  match req.Attributes with
  | some v => { product with Attributes := v }
  | none => product

/-- Method `UpdateProduct` (services.go, lines 85-121). -/
def UpdateProduct (db : DB) (id : Nat) (req : UpdateProductRequest) : Except String Product × DB :=
  match db.First db.products (fun p => p.ID = id) with
  | (.error .ErrRecordNotFound, db1) => (.error "product not found", db1)
  | (.error err, db1) => (.error err.Error, db1)
  | (.ok product, db1) =>
    match db1.Exec (fun d =>
        { d with products := saveRow Product.ID (req.apply product) d.products }) with
    | (some err, db2) => (.error err.Error, db2)
    | (none, db2) => (.ok (req.apply product), db2)

/-- Method `DeleteProduct` (services.go, lines 123-135); the result is the error.
`db.Delete` on a model with `gorm.Model` marks the row as deleted, and no later
statement sees it. -/
def DeleteProduct (db : DB) (id : Nat) : Option String × DB :=
  match db.First db.products (fun p => p.ID = id) with
  | (.error .ErrRecordNotFound, db1) => (some "product not found", db1)
  | (.error err, db1) => (some err.Error, db1)
  | (.ok product, db1) =>
    match db1.Exec (fun d =>
        { d with products := d.products.filter (fun p => p.ID ≠ product.ID) }) with
    | (some err, db2) => (some err.Error, db2)
    | (none, db2) => (none, db2)

/-- Method `ReduceProductQuantity` (services.go, lines 137-156); the result is the
error.  `product.Quantity -= quantity` is a subtraction of Go `int`s. -/
def ReduceProductQuantity (db : DB) (id : Nat) (quantity : Int) : Option String × DB :=
  match db.First db.products (fun p => p.ID = id) with
  | (.error .ErrRecordNotFound, db1) => (some "product not found", db1)
  | (.error err, db1) => (some err.Error, db1)
  | (.ok product, db1) =>
    if product.Quantity < quantity then (some "insufficient quantity", db1)
    else
      let reduced : Product := { product with Quantity := wrapInt (product.Quantity - quantity) }
      match db1.Exec (fun d => { d with products := saveRow Product.ID reduced d.products }) with
      | (some err, db2) => (some err.Error, db2)
      | (none, db2) => (none, db2)

/-- The check of the three product handlers that the product belongs to the company
of the caller (router.go, lines 145-162, 210-224, 249-263): made only when the
context carries a `*uint` under `company_id` that is not nil; it answers 404 when
the product cannot be read and 403 when it belongs to another company. -/
def verifyProductCompany (α : Type) (db : DB) (id : Nat) (ctx : Context) :
    Option (JSONResponse α) × DB :=
  match ctx.company_id with
  | some (.uintPtr (some companyID)) =>
    match GetProductByID db id with
    | (.error _, db1) => (some ⟨404, .error "product not found"⟩, db1)
    | (.ok product, db1) =>
      if product.CompanyID ≠ companyID then (some ⟨403, .error "access denied"⟩, db1)
      else (none, db1)
  | _ => (none, db)

/-- Function `updateProductHandler` (router.go, lines 131-199).  `id` is the result
of `strconv.ParseUint(c.Param("id"), 10, 32)`, `none` for an error; `bind` is the
result of `c.ShouldBindJSON(&req)`.  The `CompanyID` of the request is set to nil
inside the branch of the company check. -/
def updateProductHandler (db : DB) (id : Option Nat) (bind : Except String UpdateProductRequest)
    (ctx : Context) : DB × JSONResponse Product :=
  match id with
  | none => (db, ⟨400, .error "invalid product id"⟩)
  | some id =>
    match bind with
    | .error err => (db, ⟨400, .error err⟩)
    | .ok req =>
      match verifyProductCompany Product db id ctx with
      | (some resp, db1) => (db1, resp)
      | (none, db1) =>
        let req : UpdateProductRequest :=
          match ctx.company_id with
          | some (.uintPtr (some _)) => { req with CompanyID := none }
          | _ => req
        let oldQuantity : Int :=
          match (GetProductByID db1 id).1 with
          | .ok oldProduct => oldProduct.Quantity
          | .error _ => 0
        match UpdateProduct (GetProductByID db1 id).2 id req with
        | (.error err, db3) => (db3, ⟨400, .error err⟩)
        | (.ok product, db3) =>
          let notified : DB :=
            match req.Quantity with
            | some quantity =>
              if quantity > oldQuantity then
                match ctx.user_id with
                | some (.uint userIDUint) =>
                  (CreateNotification db3
                    { UserID := userIDUint, Type_ := NotificationTypeInventory,
                      Title := "Stock Reordered",
                      Message := "Reordered " ++ toString (wrapInt (quantity - oldQuantity))
                        ++ " units of " ++ product.Name ++ ". New total: "
                        ++ toString product.Quantity ++ " units",
                      RelatedID := some product.ID }).2
                | _ => db3
              else db3
            | none => db3
          (notified, ⟨200, .value product⟩)

/-- Function `deleteProductHandler` (router.go, lines 201-232). -/
def deleteProductHandler (db : DB) (id : Option Nat) (ctx : Context) : DB × JSONResponse Unit :=
  match id with
  | none => (db, ⟨400, .error "invalid product id"⟩)
  | some id =>
    match verifyProductCompany Unit db id ctx with
    | (some resp, db1) => (db1, resp)
    | (none, db1) =>
      match DeleteProduct db1 id with
      | (some err, db2) => (db2, ⟨404, .error err⟩)
      | (none, db2) => (db2, ⟨200, .message "product deleted successfully"⟩)

/-- Function `reduceProductQuantityHandler` (router.go, lines 234-272).  `quantity` is
the result of `strconv.Atoi(c.Query("quantity"))`, `none` for an error.  The
product of the answer is nil when it cannot be read after the reduction. -/
def reduceProductQuantityHandler (db : DB) (id : Option Nat) (quantity : Option Int)
    (ctx : Context) : DB × JSONResponse (Option Product) :=
  match id with
  | none => (db, ⟨400, .error "invalid product id"⟩)
  | some id =>
    match quantity with
    | none => (db, ⟨400, .error "invalid quantity"⟩)
    | some quantity =>
      if quantity ≤ 0 then (db, ⟨400, .error "invalid quantity"⟩)
      else
        match verifyProductCompany (Option Product) db id ctx with
        | (some resp, db1) => (db1, resp)
        | (none, db1) =>
          match ReduceProductQuantity db1 id quantity with
          | (some err, db2) => (db2, ⟨400, .error err⟩)
          | (none, db2) =>
            match GetProductByID db2 id with
            | (.error _, db3) => (db3, ⟨200, .value none⟩)
            | (.ok product, db3) => (db3, ⟨200, .value (some product)⟩)

/-- The context the middleware stores for an authenticated user whose company it
could not determine (a user without a branch, a branch that cannot be read): the
value under `company_id` is a nil `*uint` (modules/User/middleware.go, lines
88-103). -/
def contextNoCompany (userID : Nat) (role : UserRole) : Context :=
  { user_id := some (.uint userID), company_id := some (.uintPtr none),
    role := some (.role role) }

/-- A request that moves a product to company 7 and sets its quantity to 1. -/
def moveRequest : UpdateProductRequest :=
  { Name := none, Price := none, Currency := none, CompanyID := some 7, Quantity := some 1,
    ImageURI := none, Attributes := none }

/-! ## The sale service on the database (modules/Sale/services.go) -/

/-- The arithmetic of `float64` the sale service and its handlers use: the IEEE-754
product and sum, the conversion `float64(n)` of an `int`, and the text `fmt` writes
for the verb `%.2f`.  A `Float64` carries a finite value as its text, so these are
parameters, and a statement about the code holds whatever they compute. -/
structure Float64Ops where
  mul : Float64 → Float64 → Float64
  add : Float64 → Float64 → Float64
  ofInt : Int → Float64
  format2f : Float64 → String

/-- Struct `UpdateSaleRequest` (modules/Sale/models.go); `ProductAttributes` is the
JSON text of the map, `none` for a nil map. -/
structure UpdateSaleRequest where
  ProductID : Option Nat
  ProductName : Option String
  ProductAttributes : Option String
  Quantity : Option Int
  UnitPrice : Option Float64
  ExtraCosts : Option Float64
  TotalPrice : Option Float64
  Currency : Option String
  SellerID : Option Nat
  PaymentStatus : Option String
  BuyerName : Option String
  BuyerContact : Option String
  BuyerLocation : Option String
deriving DecidableEq, Repr

/-- The assignments of `UpdateSale` (services.go, lines 138-191), in their order.  An
assignment `if req.F != nil { sale.F = *req.F }` gives the field the value of the
request, or else the value it had.  The total (lines 156-173) is the one of the
request, or else, when the request carries a unit price, a quantity or extra costs,
it is computed anew from the three values the sale has by then. -/
def UpdateSaleRequest.apply (ops : Float64Ops) (req : UpdateSaleRequest) (sale : SaleRecord) :
    SaleRecord :=
  let sale : SaleRecord :=
    { sale with
      ProductID := req.ProductID.getD sale.ProductID,
      ProductName := req.ProductName.getD sale.ProductName,
      ProductAttributes := req.ProductAttributes.getD sale.ProductAttributes,
      Quantity := req.Quantity.getD sale.Quantity,
      UnitPrice := req.UnitPrice.getD sale.UnitPrice,
      ExtraCosts := req.ExtraCosts.getD sale.ExtraCosts }
  let sale : SaleRecord :=
    match req.TotalPrice with
    | some totalPrice => { sale with TotalPrice := totalPrice }
    | none =>
      if req.UnitPrice ≠ none ∨ req.Quantity ≠ none ∨ req.ExtraCosts ≠ none then
        let unitPrice := req.UnitPrice.getD sale.UnitPrice
        let quantity := req.Quantity.getD sale.Quantity
        let extraCosts := req.ExtraCosts.getD sale.ExtraCosts
        { sale with TotalPrice := ops.add (ops.mul unitPrice (ops.ofInt quantity)) extraCosts }
      else sale
  { sale with
    Currency := req.Currency.getD sale.Currency,
    SellerID := req.SellerID.getD sale.SellerID,
    PaymentStatus := req.PaymentStatus.getD sale.PaymentStatus,
    BuyerName := req.BuyerName.orElse (fun _ => sale.BuyerName),
    BuyerContact := req.BuyerContact.orElse (fun _ => sale.BuyerContact),
    BuyerLocation := req.BuyerLocation.orElse (fun _ => sale.BuyerLocation) }

/-- Method `UpdateSale` (services.go, lines 129-198). -/
def UpdateSale (ops : Float64Ops) (db : DB) (id : Nat) (req : UpdateSaleRequest) :
    Except String SaleRecord × DB :=
  match db.First (db.sales.map SaleRecord.columns) (fun s => s.ID = id) with
  | (.error .ErrRecordNotFound, db1) => (.error "sale not found", db1)
  | (.error err, db1) => (.error err.Error, db1)
  | (.ok sale, db1) =>
    match db1.Exec (fun d =>
        { d with sales := saveRow SaleRecord.ID (req.apply ops sale) d.sales }) with
    | (some err, db2) => (.error err.Error, db2)
    | (none, db2) => (.ok (req.apply ops sale), db2)

/-- Method `populateSeller` (services.go, lines 215-237). -/
def populateSeller (db : DB) (sale : SaleRecord) : SaleRecord × DB :=
  if sale.SellerID = 0 then (sale, db)
  else
    match GetUserByID db sale.SellerID with
    | (.error _, db1) => (sale, db1)
    | (.ok user, db1) =>
      match user.BranchID with
      | none => ({ sale with Seller := some ⟨user.ID, user.Name⟩ }, db1)
      | some branchID =>
        match db1.First db1.branches (fun b => b.ID = branchID) with
        | (.error _, db2) => ({ sale with Seller := some ⟨user.ID, user.Name⟩ }, db2)
        | (.ok branch, db2) =>
          ({ sale with Seller := some ⟨user.ID, user.Name⟩,
                       Branch := some ⟨branch.ID, branch.Name⟩ }, db2)

/-- The sale `CreateSale` builds from a request (services.go, lines 97-118), before
the database gives it an id and a creation time; a nil map of attributes, whose
JSON text is `null`, becomes the empty map. -/
def CreateSaleRequest.sale (req : CreateSaleRequest) : SaleRecord :=
  { ID := 0, CreatedAt := "", ProductID := req.ProductID, ProductName := req.ProductName,
    ProductAttributes := if req.ProductAttributes = "null" then "\x7b\x7d"
                         else req.ProductAttributes,
    Quantity := req.Quantity, UnitPrice := req.UnitPrice, ExtraCosts := req.ExtraCosts,
    TotalPrice := req.TotalPrice, Currency := req.Currency, SellerID := req.SellerID,
    PaymentStatus := req.PaymentStatus, BuyerName := req.BuyerName,
    BuyerContact := req.BuyerContact, BuyerLocation := req.BuyerLocation,
    Seller := none, Branch := none }

/-- Method `CreateSale` (services.go, lines 94-127).  `now` is the time `db.Create`
reads for `CreatedAt`, in the layout the handler prints it in. -/
def CreateSale (db : DB) (now : String) (req : CreateSaleRequest) : Except String SaleRecord × DB :=
  match db.Exec (fun d =>
      { d with sales := d.sales ++ [{ req.sale with ID := d.saleSeq + 1, CreatedAt := now }],
               saleSeq := d.saleSeq + 1 }) with
  | (some err, db1) => (.error err.Error, db1)
  | (none, db1) =>
    (.ok (populateSeller db1 { req.sale with ID := db.saleSeq + 1, CreatedAt := now }).1,
      (populateSeller db1 { req.sale with ID := db.saleSeq + 1, CreatedAt := now }).2)

/-- Method `GetCompanyIDFromSale` (services.go, lines 240-260); the result is a
`*uint` and an error. -/
def GetCompanyIDFromSale (db : DB) (sale : SaleRecord) : Except String (Option Nat) × DB :=
  if sale.SellerID = 0 then (.error "sale has no seller", db)
  else
    match GetUserByID db sale.SellerID with
    | (.error err, db1) => (.error err, db1)
    | (.ok user, db1) =>
      match user.BranchID with
      | none => (.error "seller has no branch", db1)
      | some branchID =>
        match GetCompanyIDFromBranch db1 branchID with
        | (.error err, db2) => (.error err, db2)
        | (.ok companyID, db2) => (.ok companyID, db2)

/-- The request of the notification `createSaleHandler` creates for a sale
(router.go, lines 150-156); the message is
`fmt.Sprintf("Recorded sale of %d units of %s for %s %.2f", ...)`. -/
def saleNotification (ops : Float64Ops) (sellerID : Nat) (sale : SaleRecord) :
    CreateNotificationRequest :=
  { UserID := sellerID, Type_ := NotificationTypeSale, Title := "Sale Recorded",
    Message := "Recorded sale of " ++ toString sale.Quantity ++ " units of "
      ++ sale.ProductName ++ " for " ++ sale.Currency ++ " " ++ ops.format2f sale.TotalPrice,
    RelatedID := some sale.ID }

/-- What a run of `createSaleHandler` leaves behind: the database, the registry of
the event streams, the calls of `BroadcastSaleEvent` it has made, and its answer. -/
structure CreateSaleResult where
  db : DB
  registry : State
  broadcasts : List (Nat × SaleEvent)
  response : Response

/-- Function `createSaleHandler` (router.go, lines 117-192) on the database: the
sale is stored by `CreateSale`, the notification of lines 146-157 is created (its
results are discarded), the company is looked up with `GetCompanyIDFromSale` and
the seller with `GetUserByID`, and the event is broadcast.  `bind` is the result of
`c.ShouldBindJSON(&req)`.  The handler `createSaleHandler` above is this function
with the service calls as a record of functions (`servicesOn`). -/
def createSaleHandlerDB (ops : Float64Ops) (db : DB) (now : String) (s : State)
    (bind : Except String CreateSaleRequest) (ctx : Context) : Except Panic CreateSaleResult :=
  match bind with
  | .error err => .ok ⟨db, s, [], ⟨400, .error err⟩⟩
  | .ok req =>
    match ctx.user_id with
    | none => .ok ⟨db, s, [], ⟨401, .error "user information not found"⟩⟩
    | some (.uint sellerID) =>
      match CreateSale db now { req with SellerID := sellerID } with
      | (.error err, db1) => .ok ⟨db1, s, [], ⟨400, .error err⟩⟩
      | (.ok sale, db1) =>
        match GetCompanyIDFromSale
            (CreateNotification db1 (saleNotification ops sellerID sale)).2 sale with
        | (.ok (some companyID), db3) =>
          let seller : Option UserModel :=
            match (GetUserByID db3 sellerID).1 with
            | .ok u => some u
            | .error _ => none
          match BroadcastSaleEvent s companyID (saleEventOf sale seller) with
          | .error p => .error p
          | .ok s1 =>
            .ok ⟨(GetUserByID db3 sellerID).2, s1, [(companyID, saleEventOf sale seller)],
              ⟨201, .sale sale⟩⟩
        | (_, db3) => .ok ⟨db3, s, [], ⟨201, .sale sale⟩⟩
    | some _ => .ok ⟨db, s, [], ⟨401, .error "invalid user information"⟩⟩

/-- The service calls of `createSaleHandler` as the database answers them in a run
that starts in the state `db` with the request `req` (the seller id set): the sale
is created in `db`, the company is looked up after the notification, and the seller
after the company. -/
def servicesOn (ops : Float64Ops) (db : DB) (now : String) (req : CreateSaleRequest) : Services :=
  { CreateSale := fun r => (CreateSale db now r).1,
    GetCompanyIDFromSale := fun sale =>
      (GetCompanyIDFromSale
        (CreateNotification (CreateSale db now req).2
          (saleNotification ops req.SellerID sale)).2 sale).1,
    GetUserByID := fun id =>
      match (CreateSale db now req).1 with
      | .ok sale =>
        (GetUserByID
          (GetCompanyIDFromSale
            (CreateNotification (CreateSale db now req).2
              (saleNotification ops req.SellerID sale)).2 sale).2 id).1
      | .error err => .error err }

/-- A stand-in for the arithmetic of `float64` in test inputs: the whole number a
text of decimal digits stands for. -/
def wholeNumber (x : Float64) : Nat :=
  match x with
  | .finite text => text.data.foldl (fun n c => 10 * n + (c.toNat - 48)) 0
  | _ => 0

/-- A stand-in for the arithmetic of `float64` in test inputs, exact on the whole
numbers that are not negative, written in decimal digits. -/
def wholeOps : Float64Ops :=
  { mul := fun a b => .finite (toString (wholeNumber a * wholeNumber b)),
    add := fun a b => .finite (toString (wholeNumber a + wholeNumber b)),
    ofInt := fun n => .finite (toString n),
    format2f := fun x => toString (wholeNumber x) ++ ".00" }

/-- The database of the test inputs with sale 42 stored: 3 pens at 50, total 150,
sold by user 1. -/
def salesDB : DB :=
  { shopDB with sales := [sale42], saleSeq := 42 }

/-- A request that sets the quantity of a sale to 4. -/
def quantityRequest : UpdateSaleRequest :=
  { ProductID := none, ProductName := none, ProductAttributes := none, Quantity := some 4,
    UnitPrice := none, ExtraCosts := none, TotalPrice := none, Currency := none,
    SellerID := none, PaymentStatus := none, BuyerName := none, BuyerContact := none,
    BuyerLocation := none }

/-- The time of the test inputs. -/
def testNow : String := "2024-01-01T00:00:00Z"

/-- The sale that `createSaleHandler` stores and returns for `saleRequest` sent by
user 2 in the database `shopDB`. -/
def sale42Bob : SaleRecord :=
  { sale42 with SellerID := 2, Seller := some ⟨2, "Bob"⟩, Branch := some ⟨1, "Main"⟩ }
/-- The database `shopDB` after `CreateSale` has stored the sale of `saleRequest`
for user 2. -/
def shopDBAfterSale : DB :=
  { shopDB with sales := [{ sale42 with SellerID := 2 }], saleSeq := 42 }

/-- The event `createSaleHandler` broadcasts for that sale. -/
def saleEvent42Bob : SaleEvent :=
  { Type_ := "new_sale", SaleID := 42, ProductName := "Pen", Quantity := 3,
    TotalPrice := .finite "150", Currency := "USD", SellerName := "Bob", BranchName := "Main",
    CreatedAt := "2024-01-01T00:00:00Z" }

/-! ## The middleware that fills the context (modules/User/middleware.go) -/

/-- Function `AuthMiddleware` from line 65 on, after the token has been validated.
`userID` is the result of `strconv.ParseUint(claims.UserID, 10, 32)`, `none` for an
error.  The user is read; the company is that of the branch of the user when the
user has a branch and `GetCompanyIDFromBranch` returns it, and a nil `*uint`
otherwise; and the context is filled.  The result `none` is a request answered 401
and aborted. -/
def AuthMiddleware (db : DB) (userID : Option Nat) : Option Context × DB :=
  match userID with
  | none => (none, db)
  | some userID =>
    match GetUserByID db userID with
    | (.error _, db1) => (none, db1)
    | (.ok user, db1) =>
      match user.BranchID with
      | none =>
        (some { user_id := some (.uint user.ID), company_id := some (.uintPtr none),
                role := some (.role user.Role) }, db1)
      | some branchID =>
        match GetCompanyIDFromBranch db1 branchID with
        | (.ok (some companyID), db2) =>
          (some { user_id := some (.uint user.ID),
                  company_id := some (.uintPtr (some companyID)),
                  role := some (.role user.Role) }, db2)
        | (_, db2) =>
          (some { user_id := some (.uint user.ID), company_id := some (.uintPtr none),
                  role := some (.role user.Role) }, db2)

/-! ## Lemmas on association lists -/

section MapLemmas
variable {V : Type}

theorem dlookup_kreplace (a a' : Nat) (b : V) (l : List (Sigma fun _ : Nat => V)) :
    List.dlookup a' (List.kreplace a b l) =
      if a' = a then (List.dlookup a l).map (fun _ => b) else List.dlookup a' l := by
  induction l with
  | nil => simp [List.kreplace]
  | cons x l ih =>
    obtain ⟨k, v⟩ := x
    by_cases hk : a = k
    · subst hk
      have : List.kreplace a b (⟨a, v⟩ :: l) = ⟨a, b⟩ :: l := by
        simp [List.kreplace, List.lookmap_cons_some]
      rw [this]
      by_cases h : a' = a
      · subst h; simp
      · simp [h, List.dlookup_cons_ne]
    · have : List.kreplace a b (⟨k, v⟩ :: l) = ⟨k, v⟩ :: List.kreplace a b l := by
        simp [List.kreplace, List.lookmap_cons_none, hk]
      rw [this]
      by_cases h : a' = k
      · subst h
        have h2 : a' ≠ a := fun e => hk e.symm
        simp [h2]
      · have e1 : ∀ (w : V) (t : List (Sigma fun _ : Nat => V)),
            List.dlookup a' (⟨k, w⟩ :: t) = List.dlookup a' t :=
          fun w t => List.dlookup_cons_ne t ⟨k, w⟩ h
        rw [e1, ih]
        by_cases h3 : a' = a
        · subst h3
          have e2 := List.dlookup_cons_ne l (⟨k, v⟩ : Sigma fun _ : Nat => V) hk
          simp [e2]
        · simp [h3, e1]

theorem lookup_replace (m : AList (fun _ : Nat => V)) (a a' : Nat) (b : V) :
    (m.replace a b).lookup a' = if a' = a then (m.lookup a).map (fun _ => b) else m.lookup a' := by
  simp only [AList.lookup, AList.replace]
  exact dlookup_kreplace a a' b m.entries

theorem replace_of_lookup (m : AList (fun _ : Nat => V)) (a : Nat) (b : V)
    (h : m.lookup a = some b) : m.replace a b = m := by
  apply AList.ext
  simp only [AList.replace]
  exact List.kreplace_self m.nodupKeys (AList.mem_lookup_iff.mp h)

theorem erase_of_lookup_none (m : AList (fun _ : Nat => V)) (a : Nat)
    (h : m.lookup a = none) : m.erase a = m := by
  apply AList.ext
  simp only [AList.erase]
  exact List.kerase_of_not_mem_keys (AList.lookup_eq_none.mp h)

theorem entries_ne_nil_of_lookup (m : AList (fun _ : Nat => V)) (a : Nat) (b : V)
    (h : m.lookup a = some b) : m.entries ≠ [] := by
  intro e
  have := AList.mem_lookup_iff.mp h
  rw [e] at this
  simp at this

theorem exists_lookup_of_entries_ne_nil (m : AList (fun _ : Nat => V)) (h : m.entries ≠ []) :
    ∃ a b, m.lookup a = some b := by
  cases hm : m.entries with
  | nil => exact absurd hm h
  | cons x l =>
    refine ⟨x.1, x.2, AList.mem_lookup_iff.mpr ?_⟩
    rw [hm]; simp

end MapLemmas

/-! ## What the three methods do to the registry and to the channels -/

theorem client?_of_lookup (s : State) (T c : Nat) (p : Partition)
    (h : s.clients.lookup T = some p) : s.client? T c = p.lookup c := by
  simp [State.client?, h]

theorem client?_of_lookup_none (s : State) (T c : Nat)
    (h : s.clients.lookup T = none) : s.client? T c = none := by
  simp [State.client?, h]

theorem lookup_of_client? (s : State) (T c : Nat) (cl : SSEClient)
    (h : s.client? T c = some cl) :
    ∃ p, s.clients.lookup T = some p ∧ p.lookup c = some cl := by
  unfold State.client? at h
  cases hp : s.clients.lookup T with
  | none => simp [hp] at h
  | some p => exact ⟨p, rfl, by simpa [hp] using h⟩

theorem RegisterClient_fst (s : State) (u c : Nat) (r : UserRole) :
    (RegisterClient s u c r).1 = ⟨u, c, r, s.heap.length⟩ := rfl

theorem RegisterClient_heap (s : State) (u c : Nat) (r : UserRole) :
    (RegisterClient s u c r).2.heap = s.heap ++ [makeChan 10] := rfl

theorem RegisterClient_lookup (s : State) (u c : Nat) (r : UserRole) (T : Nat) :
    (RegisterClient s u c r).2.clients.lookup T =
      if T = c then some (((s.clients.lookup c).getD ∅).insert u ⟨u, c, r, s.heap.length⟩)
      else s.clients.lookup T := by
  unfold RegisterClient
  cases h : s.clients.lookup c with
  | none =>
    by_cases hT : T = c
    · subst hT
      simp [lookup_replace, AList.lookup_insert]
    · simp [lookup_replace, hT, AList.lookup_insert_ne hT]
  | some p =>
    by_cases hT : T = c
    · subst hT
      simp [lookup_replace, h]
    · simp [lookup_replace, hT]

theorem RegisterClient_client? (s : State) (u c : Nat) (r : UserRole) (T c1 : Nat) :
    (RegisterClient s u c r).2.client? T c1 =
      if T = c ∧ c1 = u then some ⟨u, c, r, s.heap.length⟩ else s.client? T c1 := by
  unfold State.client?
  rw [RegisterClient_lookup]
  by_cases hT : T = c
  · subst hT
    by_cases hc : c1 = u
    · subst hc
      simp [AList.lookup_insert]
    · simp only [if_true, hc, and_false, if_false]
      rw [AList.lookup_insert_ne hc]
      cases h : s.clients.lookup T with
      | none => simp
      | some p => simp
  · simp [hT]

theorem closeChan_ok (heap : List Chan) (a : Nat) (ch : Chan)
    (h : heap[a]? = some ch) (ho : ch.closed = false) :
    closeChan heap a = .ok (heap.set a { ch with closed := true }) := by
  simp [closeChan, h, ho]

theorem UnregisterClient_no_partition (s : State) (u c : Nat)
    (h : s.clients.lookup c = none) : UnregisterClient s u c = .ok s := by
  simp [UnregisterClient, h]

theorem UnregisterClient_absent (s : State) (u c : Nat)
    (hne : ∀ p, s.clients.lookup c = some p → p.entries ≠ [])
    (h : s.client? c u = none) : UnregisterClient s u c = .ok s := by
  cases hp : s.clients.lookup c with
  | none => exact UnregisterClient_no_partition s u c hp
  | some p =>
    have hl : p.lookup u = none := by rw [← client?_of_lookup s c u p hp]; exact h
    have hne1 : p.entries ≠ [] := hne p hp
    have hrep : s.clients.replace c p = s.clients := replace_of_lookup _ _ _ hp
    simp [UnregisterClient, hp, hl, hne1, hrep]

theorem UnregisterClient_present (s : State) (u c : Nat) (p : Partition) (cl : SSEClient)
    (ch : Chan) (hp : s.clients.lookup c = some p) (hl : p.lookup u = some cl)
    (hc : s.heap[cl.Channel]? = some ch) (ho : ch.closed = false) :
    UnregisterClient s u c = .ok
      { clients := if (p.erase u).entries = [] then s.clients.erase c
                   else s.clients.replace c (p.erase u),
        heap := s.heap.set cl.Channel { ch with closed := true } } := by
  by_cases he : (p.erase u).entries = []
  · simp [UnregisterClient, hp, hl, closeChan_ok _ _ _ hc ho, he]
  · simp [UnregisterClient, hp, hl, closeChan_ok _ _ _ hc ho, he]

theorem UnregisterClient_present_client? (s : State) (u c : Nat) (p : Partition)
    (hp : s.clients.lookup c = some p) (heap : List Chan) (T c1 : Nat) :
    State.client? { clients := if (p.erase u).entries = [] then s.clients.erase c
                               else s.clients.replace c (p.erase u),
                    heap := heap } T c1 =
      if T = c ∧ c1 = u then none else s.client? T c1 := by
  by_cases hT : T = c
  · subst hT
    rw [client?_of_lookup s T c1 p hp]
    by_cases he : (p.erase u).entries = []
    · have hnone : ∀ k, (p.erase u).lookup k = none := by
        intro k
        rw [AList.lookup_eq_none, AList.mem_keys, AList.keys, he]
        simp [List.keys]
      simp only [he, if_true, true_and]
      rw [client?_of_lookup_none _ _ _ (by simp [AList.lookup_erase])]
      by_cases hc : c1 = u
      · simp [hc]
      · rw [if_neg hc, ← AList.lookup_erase_ne hc, hnone]
    · simp only [he, if_false, true_and]
      rw [client?_of_lookup _ T c1 (p.erase u) (by simp [lookup_replace, hp])]
      by_cases hc : c1 = u
      · subst hc; simp [AList.lookup_erase]
      · rw [if_neg hc, AList.lookup_erase_ne hc]
  · have hl : ∀ q : AList (fun _ : Nat => Partition),
        (q = s.clients.erase c ∨ q = s.clients.replace c (p.erase u)) →
        q.lookup T = s.clients.lookup T := by
      intro q hq
      rcases hq with rfl | rfl
      · exact AList.lookup_erase_ne hT
      · simp [lookup_replace, hT]
    unfold State.client?
    simp only [hT, false_and, if_false]
    by_cases he : (p.erase u).entries = []
    · simp only [he, if_true]; rw [hl _ (Or.inl rfl)]
    · simp only [he, if_false]; rw [hl _ (Or.inr rfl)]

theorem set_same (heap : List Chan) (a : Nat) (ch : Chan) (h : heap[a]? = some ch) :
    heap.set a ch = heap := by
  apply List.ext_getElem?
  intro i
  rw [List.getElem?_set]
  by_cases hi : a = i
  · subst hi
    simp only [if_true]
    have hlt : a < heap.length := by
      by_contra hge
      rw [List.getElem?_eq_none (Nat.le_of_not_lt hge)] at h
      exact absurd h (by simp)
    simp [hlt, h]
  · simp [hi]

theorem getElem?_set_chan (heap : List Chan) (a i : Nat) (ch ch1 : Chan)
    (h : heap[a]? = some ch) :
    (heap.set a ch1)[i]? = if i = a then some ch1 else heap[i]? := by
  rw [List.getElem?_set]
  have hlt : a < heap.length := by
    by_contra hge
    rw [List.getElem?_eq_none (Nat.le_of_not_lt hge)] at h
    exact absurd h (by simp)
  by_cases hi : a = i
  · subst hi; simp [hlt]
  · have hi2 : ¬ i = a := fun e => hi e.symm
    simp [hi, hi2]

theorem trySend_ok (heap : List Chan) (a : Nat) (m : Frame) (ch : Chan)
    (h : heap[a]? = some ch) (ho : ch.closed = false) :
    trySend heap a m = .ok (heap.set a (ch.push m)) := by
  unfold trySend Chan.push
  by_cases hfull : ch.buf.length < ch.cap
  · simp [h, ho, hfull]
  · simp [h, ho, hfull, set_same heap a ch h]

theorem targets_cons (x : Sigma fun _ : Nat => SSEClient)
    (l : List (Sigma fun _ : Nat => SSEClient)) :
    targets (x :: l) =
      if x.2.Role = SuperAdmin then x.2.Channel :: targets l else targets l := by
  unfold targets
  by_cases h : x.2.Role = SuperAdmin
  · simp [List.filter_cons, h]
  · simp [List.filter_cons, h]

theorem sendAll_spec (msg : Frame) (l : List (Sigma fun _ : Nat => SSEClient)) :
    ∀ heap : List Chan,
      (∀ a ∈ targets l, ∃ ch, heap[a]? = some ch ∧ ch.closed = false) →
      (targets l).Nodup →
      ∃ heap1, sendAll msg l heap = .ok heap1 ∧
        ∀ a, heap1[a]? =
          if a ∈ targets l then (heap[a]?).map (fun ch => ch.push msg) else heap[a]? := by
  induction l with
  | nil =>
    intro heap _ _
    exact ⟨heap, rfl, fun a => by simp [targets]⟩
  | cons x l ih =>
    intro heap hopen hnd
    obtain ⟨k, client⟩ := x
    rw [targets_cons] at hopen hnd
    by_cases hr : client.Role = SuperAdmin
    · simp only [hr, if_true] at hopen hnd
      obtain ⟨ch, hch, ho⟩ := hopen client.Channel (List.mem_cons_self _ _)
      have hnot : client.Channel ∉ targets l := (List.nodup_cons.mp hnd).1
      have hnd1 : (targets l).Nodup := (List.nodup_cons.mp hnd).2
      have hsend := trySend_ok heap client.Channel msg ch hch ho
      have hget : ∀ i, (heap.set client.Channel (ch.push msg))[i]? =
          if i = client.Channel then some (ch.push msg) else heap[i]? :=
        fun i => getElem?_set_chan heap client.Channel i ch (ch.push msg) hch
      have hopen1 : ∀ a ∈ targets l, ∃ c1,
          (heap.set client.Channel (ch.push msg))[a]? = some c1 ∧ c1.closed = false := by
        intro a ha
        have hne : a ≠ client.Channel := fun e => hnot (e ▸ ha)
        rw [hget, if_neg hne]
        exact hopen a (List.mem_cons_of_mem _ ha)
      obtain ⟨heap1, hrun, hspec⟩ := ih _ hopen1 hnd1
      refine ⟨heap1, ?_, ?_⟩
      · simp only [sendAll, hr, if_true, hsend]
        exact hrun
      · intro a
        rw [hspec a, hget a, targets_cons]
        simp only [hr, if_true, List.mem_cons]
        by_cases ha : a = client.Channel
        · subst ha
          simp [hnot, hch]
        · simp [ha]
    · simp only [hr, if_false] at hopen hnd
      obtain ⟨heap1, hrun, hspec⟩ := ih heap hopen hnd
      refine ⟨heap1, ?_, ?_⟩
      · simp only [sendAll, hr, if_false]
        exact hrun
      · intro a
        rw [hspec a, targets_cons]
        simp [hr]

theorem sendAll_no_target (msg : Frame) (l : List (Sigma fun _ : Nat => SSEClient))
    (heap : List Chan) (h : ∀ x ∈ l, x.2.Role ≠ SuperAdmin) :
    sendAll msg l heap = .ok heap := by
  induction l with
  | nil => rfl
  | cons x l ih =>
    obtain ⟨k, client⟩ := x
    have hr : client.Role ≠ SuperAdmin := h ⟨k, client⟩ (List.mem_cons_self _ _)
    simp only [sendAll, hr, if_false]
    exact ih (fun y hy => h y (List.mem_cons_of_mem _ hy))

theorem mem_targets (p : Partition) (a : Nat) :
    a ∈ targets p.entries ↔
      ∃ c cl, p.lookup c = some cl ∧ cl.Role = SuperAdmin ∧ cl.Channel = a := by
  unfold targets
  simp only [List.mem_map, List.mem_filter, decide_eq_true_eq]
  constructor
  · rintro ⟨x, ⟨hx, hr⟩, rfl⟩
    exact ⟨x.1, x.2, AList.mem_lookup_iff.mpr hx, hr, rfl⟩
  · rintro ⟨c, cl, hl, hr, rfl⟩
    exact ⟨⟨c, cl⟩, ⟨AList.mem_lookup_iff.mp hl, hr⟩, rfl⟩

/-! ## The order of iteration does not matter -/

theorem trySend_error (heap : List Chan) (a : Nat) (m : Frame) (p : Panic)
    (h : trySend heap a m = .error p) : p = .sendOnClosed := by
  unfold trySend at h
  cases hch : heap[a]? with
  | none => simp [hch] at h
  | some ch =>
    simp only [hch] at h
    by_cases hc : ch.closed = true
    · simp only [hc, if_true] at h
      exact (Except.error.inj h).symm
    · by_cases hl : ch.buf.length < ch.cap
      · simp [hc, hl] at h
      · simp [hc, hl] at h

theorem trySend_getElem?_ne (heap heap1 : List Chan) (a b : Nat) (m : Frame)
    (h : trySend heap a m = .ok heap1) (hab : b ≠ a) : heap1[b]? = heap[b]? := by
  unfold trySend at h
  cases hch : heap[a]? with
  | none =>
    simp only [hch] at h
    rw [← Except.ok.inj h]
  | some ch =>
    simp only [hch] at h
    by_cases hc : ch.closed = true
    · simp [hc] at h
    · by_cases hl : ch.buf.length < ch.cap
      · simp only [hc, hl, if_true] at h
        rw [← Except.ok.inj h, getElem?_set_chan heap a b ch _ hch, if_neg hab]
      · simp only [hc, hl, if_false] at h
        rw [← Except.ok.inj h]

/-- What a non-blocking send does, channel by channel. -/
theorem trySend_cases (heap : List Chan) (a : Nat) (m : Frame) :
    (∃ ch, heap[a]? = some ch ∧ ch.closed = true ∧ trySend heap a m = .error .sendOnClosed) ∨
    (heap[a]? = none ∧ trySend heap a m = .ok heap) ∨
    (∃ ch, heap[a]? = some ch ∧ ch.closed = false ∧
      trySend heap a m = .ok (heap.set a (ch.push m))) := by
  cases hch : heap[a]? with
  | none =>
    right; left
    exact ⟨rfl, by simp [trySend, hch]⟩
  | some ch =>
    by_cases hc : ch.closed = true
    · left
      exact ⟨ch, rfl, hc, by simp [trySend, hch, hc]⟩
    · right; right
      have hc1 : ch.closed = false := by simpa using hc
      exact ⟨ch, rfl, hc1, trySend_ok heap a m ch hch hc1⟩

theorem trySend_comm (heap : List Chan) (a b : Nat) (m : Frame) :
    (match trySend heap a m with
      | .error p => (Except.error p : Except Panic (List Chan))
      | .ok heap1 => trySend heap1 b m) =
    (match trySend heap b m with
      | .error p => (Except.error p : Except Panic (List Chan))
      | .ok heap1 => trySend heap1 a m) := by
  by_cases hab : a = b
  · subst hab; rfl
  · have hba : b ≠ a := fun e => hab e.symm
    rcases trySend_cases heap a m with ⟨cha, ha, hca, hsa⟩ | ⟨ha, hsa⟩ | ⟨cha, ha, hca, hsa⟩
    · rw [hsa]
      rcases trySend_cases heap b m with ⟨chb, hb, hcb, hsb⟩ | ⟨hb, hsb⟩ | ⟨chb, hb, hcb, hsb⟩
      · rw [hsb]
      · rw [hsb]; simp only; rw [hsa]
      · rw [hsb]
        simp only
        have : (heap.set b (chb.push m))[a]? = some cha := by
          rw [getElem?_set_chan heap b a chb _ hb, if_neg hab]; exact ha
        simp [trySend, this, hca]
    · rw [hsa]
      simp only
      rcases trySend_cases heap b m with ⟨chb, hb, hcb, hsb⟩ | ⟨hb, hsb⟩ | ⟨chb, hb, hcb, hsb⟩
      · rw [hsb]
      · rw [hsb]; simp only; rw [hsa]
      · rw [hsb]
        simp only
        have : (heap.set b (chb.push m))[a]? = none := by
          rw [getElem?_set_chan heap b a chb _ hb, if_neg hab]; exact ha
        simp [trySend, this]
    · rw [hsa]
      simp only
      have hb1 : (heap.set a (cha.push m))[b]? = heap[b]? := by
        rw [getElem?_set_chan heap a b cha _ ha, if_neg hba]
      rcases trySend_cases heap b m with ⟨chb, hb, hcb, hsb⟩ | ⟨hb, hsb⟩ | ⟨chb, hb, hcb, hsb⟩
      · rw [hsb]
        simp [trySend, hb1, hb, hcb]
      · rw [hsb]
        simp only
        rw [hsa]
        simp [trySend, hb1, hb]
      · rw [hsb]
        simp only
        have ha1 : (heap.set b (chb.push m))[a]? = some cha := by
          rw [getElem?_set_chan heap b a chb _ hb, if_neg hab]; exact ha
        rw [trySend_ok _ b m chb (hb1.trans hb) hcb, trySend_ok _ a m cha ha1 hca,
          List.set_comm _ _ _ hab]

/-- The loop of `BroadcastSaleEvent` gives the same result, channels and panic alike,
whatever the order in which the clients of the partition are visited. -/
theorem sendAll_perm (msg : Frame) {l1 l2 : List (Sigma fun _ : Nat => SSEClient)}
    (h : l1.Perm l2) : ∀ heap : List Chan, sendAll msg l1 heap = sendAll msg l2 heap := by
  induction h with
  | nil => intro heap; rfl
  | cons x _ ih =>
    intro heap
    obtain ⟨k, client⟩ := x
    simp only [sendAll]
    by_cases hr : client.Role = SuperAdmin
    · simp only [hr, if_true]
      cases trySend heap client.Channel msg with
      | error p => rfl
      | ok heap1 => exact ih heap1
    · simp only [hr, if_false]
      exact ih heap
  | swap x y l =>
    intro heap
    obtain ⟨kx, cx⟩ := x
    obtain ⟨ky, cy⟩ := y
    simp only [sendAll]
    by_cases hx : cx.Role = SuperAdmin
    · by_cases hy : cy.Role = SuperAdmin
      · simp only [hx, hy, if_true]
        have hcomm := trySend_comm heap cy.Channel cx.Channel msg
        cases h1 : trySend heap cy.Channel msg with
        | error p =>
          rw [h1] at hcomm
          have hp := trySend_error _ _ _ _ h1
          subst hp
          cases h2 : trySend heap cx.Channel msg with
          | error q => rw [trySend_error _ _ _ _ h2]
          | ok heap2 =>
            rw [h2] at hcomm
            dsimp only at hcomm ⊢
            rw [← hcomm]
        | ok heap1 =>
          rw [h1] at hcomm
          cases h2 : trySend heap cx.Channel msg with
          | error q =>
            rw [h2] at hcomm
            dsimp only at hcomm ⊢
            rw [hcomm]
          | ok heap2 =>
            rw [h2] at hcomm
            dsimp only at hcomm ⊢
            rw [hcomm]
      · simp only [hx, hy, if_true, if_false]
    · by_cases hy : cy.Role = SuperAdmin
      · simp only [hx, hy, if_true, if_false]
      · simp only [hx, hy, if_false]
  | trans _ _ ih1 ih2 =>
    intro heap
    rw [ih1 heap, ih2 heap]

/-! ## The invariant and what it gives for a broadcast -/

theorem Inv.targets_open {s : State} (hinv : Inv s) (T : Nat) (p : Partition)
    (hp : s.clients.lookup T = some p) :
    ∀ a ∈ targets p.entries, ∃ ch, s.heap[a]? = some ch ∧ ch.closed = false := by
  intro a ha
  obtain ⟨c, cl, hl, _, rfl⟩ := (mem_targets p a).mp ha
  exact hinv.isOpen T c cl (by rw [client?_of_lookup s T c p hp]; exact hl)

theorem Inv.targets_nodup {s : State} (hinv : Inv s) (T : Nat) (p : Partition)
    (hp : s.clients.lookup T = some p) : (targets p.entries).Nodup := by
  unfold targets
  apply List.Nodup.map_on
  · intro x hx y hy hxy
    have hx1 := (List.mem_filter.mp hx).1
    have hy1 := (List.mem_filter.mp hy).1
    obtain ⟨kx, vx⟩ := x
    obtain ⟨ky, vy⟩ := y
    have lx : p.lookup kx = some vx := AList.mem_lookup_iff.mpr hx1
    have ly : p.lookup ky = some vy := AList.mem_lookup_iff.mpr hy1
    have cx : s.client? T kx = some vx := by rw [client?_of_lookup s T kx p hp]; exact lx
    have cy : s.client? T ky = some vy := by rw [client?_of_lookup s T ky p hp]; exact ly
    have hk : kx = ky := (hinv.inj T kx vx T ky vy cx cy hxy).2
    subst hk
    have hv : vx = vy := by
      have := lx.symm.trans ly
      exact Option.some.inj this
    subst hv
    rfl
  · exact List.Nodup.filter _ p.nodupKeys.nodup

theorem BroadcastSaleEvent_clients (s s1 : State) (T : Nat) (e : SaleEvent)
    (h : BroadcastSaleEvent s T e = .ok s1) : s1.clients = s.clients := by
  unfold BroadcastSaleEvent at h
  cases hp : s.clients.lookup T with
  | none =>
    simp only [hp] at h
    cases h; rfl
  | some p =>
    simp only [hp] at h
    cases hm : jsonMarshal e with
    | error err =>
      simp only [hm] at h
      cases h; rfl
    | ok data =>
      simp only [hm] at h
      cases hs : sendAll (sseMessage data) p.entries s.heap with
      | error q => simp [hs] at h
      | ok heap =>
        simp only [hs] at h
        cases h; rfl

theorem BroadcastSaleEvent_no_partition (s : State) (T : Nat) (e : SaleEvent)
    (h : s.clients.lookup T = none) : BroadcastSaleEvent s T e = .ok s := by
  simp [BroadcastSaleEvent, h]

theorem BroadcastSaleEvent_unencodable (s : State) (T : Nat) (e : SaleEvent)
    (h : frameOf e = none) : BroadcastSaleEvent s T e = .ok s := by
  unfold frameOf at h
  unfold BroadcastSaleEvent
  cases hp : s.clients.lookup T with
  | none => rfl
  | some p =>
    cases hm : jsonMarshal e with
    | error err => rfl
    | ok data => simp [hm] at h

theorem frameOf_eq_some (e : SaleEvent) (m : Frame) (h : frameOf e = some m) :
    ∃ data, jsonMarshal e = .ok data ∧ m = sseMessage data := by
  unfold frameOf at h
  cases hm : jsonMarshal e with
  | error err => simp [hm] at h
  | ok data =>
    simp only [hm] at h
    exact ⟨data, rfl, (Option.some.inj h).symm⟩

theorem Inv.broadcast_spec {s : State} (hinv : Inv s) (T : Nat) (e : SaleEvent)
    (p : Partition) (m : Frame) (hp : s.clients.lookup T = some p) (hm : frameOf e = some m) :
    ∃ heap1, BroadcastSaleEvent s T e = .ok { s with heap := heap1 } ∧
      ∀ a, heap1[a]? =
        if a ∈ targets p.entries then (s.heap[a]?).map (fun ch => ch.push m)
        else s.heap[a]? := by
  obtain ⟨data, hdata, rfl⟩ := frameOf_eq_some e m hm
  obtain ⟨heap1, hrun, hspec⟩ := sendAll_spec (sseMessage data) p.entries s.heap
    (hinv.targets_open T p hp) (hinv.targets_nodup T p hp)
  refine ⟨heap1, ?_, hspec⟩
  simp [BroadcastSaleEvent, hp, hdata, hrun]

/-- Under the invariant a broadcast never panics, keeps the registry, and changes
the channels as described: with `m` the frame of the event, exactly the channels
of the `super_admin` clients of the company are pushed to. -/
theorem Inv.broadcast {s : State} (hinv : Inv s) (T : Nat) (e : SaleEvent) :
    ∃ s1, BroadcastSaleEvent s T e = .ok s1 ∧ s1.clients = s.clients ∧
      (frameOf e = none → s1 = s) ∧
      ∀ m, frameOf e = some m → ∀ a,
        ((∃ c cl, s.client? T c = some cl ∧ cl.Role = SuperAdmin ∧ cl.Channel = a) →
          s1.heap[a]? = (s.heap[a]?).map (fun ch => ch.push m)) ∧
        ((¬ ∃ c cl, s.client? T c = some cl ∧ cl.Role = SuperAdmin ∧ cl.Channel = a) →
          s1.heap[a]? = s.heap[a]?) := by
  cases hm : frameOf e with
  | none =>
    exact ⟨s, BroadcastSaleEvent_unencodable s T e hm, rfl, fun _ => rfl,
      fun m h => absurd h (by simp)⟩
  | some m =>
    cases hp : s.clients.lookup T with
    | none =>
      refine ⟨s, BroadcastSaleEvent_no_partition s T e hp, rfl, fun h => absurd h (by simp),
        fun m1 _ a => ⟨?_, fun _ => rfl⟩⟩
      rintro ⟨c, cl, h, _⟩
      rw [client?_of_lookup_none s T c hp] at h
      exact absurd h (by simp)
    | some p =>
      obtain ⟨heap1, hrun, hspec⟩ := hinv.broadcast_spec T e p m hp hm
      refine ⟨_, hrun, rfl, fun h => absurd h (by simp), fun m1 hm1 a => ?_⟩
      have hmm : m1 = m := (Option.some.inj hm1).symm
      subst hmm
      have hiff : (∃ c cl, s.client? T c = some cl ∧ cl.Role = SuperAdmin ∧ cl.Channel = a) ↔
          a ∈ targets p.entries := by
        rw [mem_targets]
        constructor
        · rintro ⟨c, cl, h, hr, ha⟩
          exact ⟨c, cl, by rw [← client?_of_lookup s T c p hp]; exact h, hr, ha⟩
        · rintro ⟨c, cl, h, hr, ha⟩
          exact ⟨c, cl, by rw [client?_of_lookup s T c p hp]; exact h, hr, ha⟩
      rw [hiff]
      constructor
      · intro h
        show heap1[a]? = _
        rw [hspec a, if_pos h]
      · intro h
        show heap1[a]? = _
        rw [hspec a, if_neg h]

/-! ## The invariant holds in every reachable state -/

theorem Inv.init : Inv State.init where
  nonempty := by
    intro T p h
    simp [State.init] at h
  isOpen := by
    intro T c cl h
    simp [State.init, State.client?] at h
  inj := by
    intro T c cl T1 c1 cl1 h
    simp [State.init, State.client?] at h
  bounded := by
    intro a ch h
    simp [State.init] at h

theorem getElem?_lt_length (heap : List Chan) (a : Nat) (ch : Chan)
    (h : heap[a]? = some ch) : a < heap.length := by
  by_contra hge
  rw [List.getElem?_eq_none (Nat.le_of_not_lt hge)] at h
  exact absurd h (by simp)

theorem getElem?_snoc (heap : List Chan) (x : Chan) (a : Nat) :
    (heap ++ [x])[a]? =
      if a < heap.length then heap[a]? else if a = heap.length then some x else none := by
  by_cases h : a < heap.length
  · rw [if_pos h, List.getElem?_append_left h]
  · rw [if_neg h, List.getElem?_append_right (Nat.le_of_not_lt h)]
    by_cases h2 : a = heap.length
    · subst h2; simp
    · rw [if_neg h2]
      have : 0 < a - heap.length := by omega
      obtain ⟨k, hk⟩ : ∃ k, a - heap.length = k + 1 := ⟨a - heap.length - 1, by omega⟩
      rw [hk]; rfl

theorem Inv.register {s : State} (hinv : Inv s) (u c : Nat) (r : UserRole) :
    Inv (RegisterClient s u c r).2 where
  nonempty := by
    intro T p h
    rw [RegisterClient_lookup] at h
    by_cases hT : T = c
    · rw [if_pos hT] at h
      have hp := Option.some.inj h
      subst hp
      exact entries_ne_nil_of_lookup _ u _ (AList.lookup_insert _)
    · rw [if_neg hT] at h
      exact hinv.nonempty T p h
  isOpen := by
    intro T c1 cl h
    rw [RegisterClient_client?] at h
    rw [RegisterClient_heap, getElem?_snoc]
    by_cases hk : T = c ∧ c1 = u
    · rw [if_pos hk] at h
      have hcl := Option.some.inj h
      subst hcl
      exact ⟨makeChan 10, by simp, rfl⟩
    · rw [if_neg hk] at h
      obtain ⟨ch, hch, ho⟩ := hinv.isOpen T c1 cl h
      exact ⟨ch, by rw [if_pos (getElem?_lt_length _ _ _ hch)]; exact hch, ho⟩
  inj := by
    intro T c1 cl T1 c2 cl1 h h1 hc
    rw [RegisterClient_client?] at h h1
    by_cases hk : T = c ∧ c1 = u
    · by_cases hk1 : T1 = c ∧ c2 = u
      · exact ⟨hk.1.trans hk1.1.symm, hk.2.trans hk1.2.symm⟩
      · rw [if_pos hk] at h
        rw [if_neg hk1] at h1
        have hcl := Option.some.inj h
        subst hcl
        obtain ⟨ch, hch, _⟩ := hinv.isOpen T1 c2 cl1 h1
        have := getElem?_lt_length _ _ _ hch
        simp only at hc
        omega
    · rw [if_neg hk] at h
      by_cases hk1 : T1 = c ∧ c2 = u
      · rw [if_pos hk1] at h1
        have hcl := Option.some.inj h1
        subst hcl
        obtain ⟨ch, hch, _⟩ := hinv.isOpen T c1 cl h
        have := getElem?_lt_length _ _ _ hch
        simp only at hc
        omega
      · rw [if_neg hk1] at h1
        exact hinv.inj T c1 cl T1 c2 cl1 h h1 hc
  bounded := by
    intro a ch h
    rw [RegisterClient_heap, getElem?_snoc] at h
    by_cases ha : a < s.heap.length
    · rw [if_pos ha] at h
      exact hinv.bounded a ch h
    · rw [if_neg ha] at h
      by_cases ha2 : a = s.heap.length
      · rw [if_pos ha2] at h
        have := Option.some.inj h
        subst this
        simp [makeChan]
      · rw [if_neg ha2] at h
        exact absurd h (by simp)

/-- Replacing the channels by channels with the same open/closed status and
capacity, still within capacity, keeps the invariant. -/
theorem Inv.of_heap {s : State} (hinv : Inv s) (heap1 : List Chan)
    (h : ∀ a : Nat, heap1[a]? = s.heap[a]? ∨
      ∃ ch ch1, s.heap[a]? = some ch ∧ heap1[a]? = some ch1 ∧
        ch1.closed = ch.closed ∧ ch1.cap = ch.cap ∧ ch1.buf.length ≤ ch1.cap) :
    Inv { s with heap := heap1 } where
  nonempty := hinv.nonempty
  isOpen := by
    intro T c cl hcl
    obtain ⟨ch, hch, ho⟩ := hinv.isOpen T c cl hcl
    rcases h cl.Channel with he | ⟨ch0, ch1, h0, h1, hc, _, _⟩
    · exact ⟨ch, he.trans hch, ho⟩
    · have : ch0 = ch := Option.some.inj (h0.symm.trans hch)
      subst this
      exact ⟨ch1, h1, hc.trans ho⟩
  inj := hinv.inj
  bounded := by
    intro a ch1 hch1
    rcases h a with he | ⟨ch0, ch2, h0, h1, _, hcap, hlen⟩
    · exact hinv.bounded a ch1 (he.symm.trans hch1)
    · have : ch2 = ch1 := Option.some.inj (h1.symm.trans hch1)
      subst this
      have hb := hinv.bounded a ch0 h0
      exact ⟨hcap.trans hb.1, by rw [← hb.1, ← hcap]; exact hlen⟩

/-- Under the invariant `UnregisterClient` never panics; it drops the pair from the
registry, leaves every other pair as it was, and closes the channel of the
dropped client and no other. -/
theorem Inv.unregister_spec {s : State} (hinv : Inv s) (u c : Nat) :
    ∃ s1, UnregisterClient s u c = .ok s1 ∧
      (∀ T c1, s1.client? T c1 = if T = c ∧ c1 = u then none else s.client? T c1) ∧
      (s.client? c u = none → s1 = s) ∧
      (∀ cl, s.client? c u = some cl → ∃ ch, s.heap[cl.Channel]? = some ch ∧
        ch.closed = false ∧ s1.heap = s.heap.set cl.Channel { ch with closed := true }) ∧
      (∀ T, s1.clients.lookup T = none ↔
        (s.clients.lookup T = none ∨
          (T = c ∧ ∀ c1, c1 ≠ u → s.client? c c1 = none))) := by
  cases hcl : s.client? c u with
  | none =>
    refine ⟨s, UnregisterClient_absent s u c (hinv.nonempty c) hcl, ?_, fun _ => rfl,
      fun cl h => absurd h (by simp), ?_⟩
    · intro T c1
      by_cases hk : T = c ∧ c1 = u
      · rw [if_pos hk, hk.1, hk.2]; exact hcl
      · rw [if_neg hk]
    · intro T
      constructor
      · exact fun h => Or.inl h
      · rintro (h | ⟨rfl, h⟩)
        · exact h
        · cases hp : s.clients.lookup T with
          | none => rfl
          | some p =>
            exfalso
            obtain ⟨a, b, hab⟩ := exists_lookup_of_entries_ne_nil p (hinv.nonempty T p hp)
            have hau : a ≠ u := by
              rintro rfl
              rw [client?_of_lookup s T a p hp, hab] at hcl
              exact absurd hcl (by simp)
            have := h a hau
            rw [client?_of_lookup s T a p hp, hab] at this
            exact absurd this (by simp)
  | some cl =>
    obtain ⟨p, hp, hl⟩ := lookup_of_client? s c u cl hcl
    obtain ⟨ch, hch, ho⟩ := hinv.isOpen c u cl hcl
    refine ⟨_, UnregisterClient_present s u c p cl ch hp hl hch ho, ?_, fun h => absurd h (by simp),
      ?_, ?_⟩
    · intro T c1
      exact UnregisterClient_present_client? s u c p hp _ T c1
    · intro cl1 h1
      have : cl1 = cl := (Option.some.inj h1).symm
      subst this
      exact ⟨ch, hch, ho, rfl⟩
    · intro T
      by_cases hT : T = c
      · subst hT
        by_cases he : (p.erase u).entries = []
        · simp only [he, if_true, AList.lookup_erase, true_iff]
          right
          refine ⟨trivial, fun c1 hc1 => ?_⟩
          rw [client?_of_lookup s T c1 p hp, ← AList.lookup_erase_ne hc1,
            AList.lookup_eq_none, AList.mem_keys, AList.keys, he]
          simp [List.keys]
        · simp only [he, if_false, lookup_replace, if_true, hp, Option.map_some', true_and]
          constructor
          · intro h; exact absurd h (by simp)
          · rintro (h | h)
            · exact absurd h (by simp)
            · exfalso
              obtain ⟨a, b, hab⟩ := exists_lookup_of_entries_ne_nil (p.erase u) he
              have hau : a ≠ u := by
                rintro rfl
                rw [AList.lookup_erase] at hab
                exact absurd hab (by simp)
              have := h a hau
              rw [client?_of_lookup s T a p hp, ← AList.lookup_erase_ne hau, hab] at this
              exact absurd this (by simp)
      · have hl1 : ∀ q : AList (fun _ : Nat => Partition),
            (q = s.clients.erase c ∨ q = s.clients.replace c (p.erase u)) →
            q.lookup T = s.clients.lookup T := by
          intro q hq
          rcases hq with rfl | rfl
          · exact AList.lookup_erase_ne hT
          · simp [lookup_replace, hT]
        have : (if (p.erase u).entries = [] then s.clients.erase c
            else s.clients.replace c (p.erase u)).lookup T = s.clients.lookup T := by
          by_cases he : (p.erase u).entries = []
          · simp only [he, if_true]; exact hl1 _ (Or.inl rfl)
          · simp only [he, if_false]; exact hl1 _ (Or.inr rfl)
        simp only [this, hT, false_and, or_false]

theorem Inv.unregister {s s1 : State} (hinv : Inv s) (u c : Nat)
    (h : UnregisterClient s u c = .ok s1) : Inv s1 := by
  obtain ⟨s2, hrun, hcl, hnone, hsome, hpart⟩ := hinv.unregister_spec u c
  have : s2 = s1 := by
    rw [hrun] at h
    exact Except.ok.inj h
  subst this
  cases hc : s.client? c u with
  | none => rw [hnone hc]; exact hinv
  | some cl =>
    obtain ⟨ch, hch, ho, hheap⟩ := hsome cl hc
    have hget : ∀ i, s2.heap[i]? =
        if i = cl.Channel then some { ch with closed := true } else s.heap[i]? := by
      intro i
      rw [hheap]
      exact getElem?_set_chan s.heap cl.Channel i ch _ hch
    have hold : ∀ T c1 cl1, s2.client? T c1 = some cl1 →
        s.client? T c1 = some cl1 ∧ ¬ (T = c ∧ c1 = u) := by
      intro T c1 cl1 h1
      rw [hcl] at h1
      by_cases hk : T = c ∧ c1 = u
      · rw [if_pos hk] at h1; exact absurd h1 (by simp)
      · rw [if_neg hk] at h1; exact ⟨h1, hk⟩
    refine ⟨?_, ?_, ?_, ?_⟩
    · intro T p hp
      intro he
      have hex : ∀ k, s2.client? T k = none := by
        intro k
        rw [client?_of_lookup s2 T k p hp, AList.lookup_eq_none, AList.mem_keys, AList.keys, he]
        simp [List.keys]
      have hne : s2.clients.lookup T ≠ none := by rw [hp]; simp
      have hnot := mt (hpart T).mpr hne
      rw [not_or] at hnot
      obtain ⟨hs, hrest⟩ := hnot
      cases hq : s.clients.lookup T with
      | none => exact hs hq
      | some q =>
        obtain ⟨a, b, hab⟩ := exists_lookup_of_entries_ne_nil q (hinv.nonempty T q hq)
        have hsa : s.client? T a = some b := by rw [client?_of_lookup s T a q hq]; exact hab
        have h2 := hex a
        rw [hcl] at h2
        by_cases hk : T = c ∧ a = u
        · obtain ⟨rfl, rfl⟩ := hk
          apply hrest
          refine ⟨rfl, fun c1 hc1 => ?_⟩
          have h3 := hex c1
          rw [hcl, if_neg (fun hh => hc1 hh.2)] at h3
          exact h3
        · rw [if_neg hk, hsa] at h2
          exact absurd h2 (by simp)
    · intro T c1 cl1 h1
      obtain ⟨h2, hk⟩ := hold T c1 cl1 h1
      obtain ⟨ch1, hch1, ho1⟩ := hinv.isOpen T c1 cl1 h2
      have hne : cl1.Channel ≠ cl.Channel := by
        intro e
        have := hinv.inj T c1 cl1 c u cl h2 hc e
        exact hk this
      exact ⟨ch1, by rw [hget, if_neg hne]; exact hch1, ho1⟩
    · intro T c1 cl1 T1 c2 cl2 h1 h2 e
      exact hinv.inj T c1 cl1 T1 c2 cl2 (hold T c1 cl1 h1).1 (hold T1 c2 cl2 h2).1 e
    · intro a ch1 h1
      rw [hget] at h1
      by_cases ha : a = cl.Channel
      · rw [if_pos ha] at h1
        have := Option.some.inj h1
        subst this
        exact hinv.bounded cl.Channel ch hch
      · rw [if_neg ha] at h1
        exact hinv.bounded a ch1 h1

theorem Chan.push_closed (ch : Chan) (m : Frame) : (ch.push m).closed = ch.closed := by
  unfold Chan.push
  by_cases h : ch.buf.length < ch.cap
  · simp [h]
  · simp [h]

theorem Chan.push_cap (ch : Chan) (m : Frame) : (ch.push m).cap = ch.cap := by
  unfold Chan.push
  by_cases h : ch.buf.length < ch.cap
  · simp [h]
  · simp [h]

theorem Chan.push_length_le (ch : Chan) (m : Frame) (h : ch.buf.length ≤ ch.cap) :
    (ch.push m).buf.length ≤ (ch.push m).cap := by
  unfold Chan.push
  by_cases h1 : ch.buf.length < ch.cap
  · simp [h1]; omega
  · simp [h1]; exact h

theorem Inv.broadcast_inv {s s1 : State} (hinv : Inv s) (T : Nat) (e : SaleEvent)
    (h : BroadcastSaleEvent s T e = .ok s1) : Inv s1 := by
  obtain ⟨s2, hrun, hclients, hnone, hsome⟩ := hinv.broadcast T e
  have : s2 = s1 := by
    rw [hrun] at h
    exact Except.ok.inj h
  subst this
  cases hm : frameOf e with
  | none => rw [hnone hm]; exact hinv
  | some m =>
    have hs2 : s2 = { s with heap := s2.heap } := by
      cases s2
      simp only at hclients
      subst hclients
      rfl
    rw [hs2]
    apply hinv.of_heap
    intro a
    by_cases hk : ∃ c cl, s.client? T c = some cl ∧ cl.Role = SuperAdmin ∧ cl.Channel = a
    · have h1 := (hsome m hm a).1 hk
      cases hch : s.heap[a]? with
      | none => left; rw [h1, hch]; rfl
      | some ch =>
        right
        have hb := hinv.bounded a ch hch
        refine ⟨ch, ch.push m, rfl, by rw [h1, hch]; rfl, Chan.push_closed ch m,
          Chan.push_cap ch m, Chan.push_length_le ch m (by rw [hb.1]; exact hb.2)⟩
    · left
      exact (hsome m hm a).2 hk

theorem chanRecv_spec (heap heap1 : List Chan) (a : Nat) (m : Frame)
    (h : chanRecv heap a = some (m, heap1)) :
    ∃ ch, heap[a]? = some ch ∧
      ((ch.buf = m :: (ch.buf.drop 1) ∧ heap1 = heap.set a { ch with buf := ch.buf.drop 1 }) ∨
        (ch.buf = [] ∧ ch.closed = true ∧ m = "" ∧ heap1 = heap)) := by
  unfold chanRecv at h
  cases hch : heap[a]? with
  | none => simp [hch] at h
  | some ch =>
    refine ⟨ch, rfl, ?_⟩
    simp only [hch] at h
    cases hb : ch.buf with
    | nil =>
      right
      simp only [hb] at h
      by_cases hc : ch.closed = true
      · simp only [hc, if_true, Option.some.injEq, Prod.mk.injEq] at h
        exact ⟨rfl, hc, h.1.symm, h.2.symm⟩
      · simp [hc] at h
    | cons x rest =>
      left
      simp only [hb, Option.some.injEq, Prod.mk.injEq] at h
      obtain ⟨rfl, rfl⟩ := h
      exact ⟨rfl, rfl⟩

theorem Inv.dequeue {s : State} (hinv : Inv s) (client : SSEClient) (w : List Frame) :
    Inv (pumpDequeue s client w).1 := by
  unfold pumpDequeue
  cases hr : chanRecv s.heap client.Channel with
  | none => exact hinv
  | some r =>
    obtain ⟨m, heap1⟩ := r
    obtain ⟨ch, hch, hcase⟩ := chanRecv_spec _ _ _ _ hr
    show Inv { s with heap := heap1 }
    apply hinv.of_heap
    intro a
    rcases hcase with ⟨hbuf, rfl⟩ | ⟨_, _, _, rfl⟩
    · rw [getElem?_set_chan s.heap client.Channel a ch _ hch]
      by_cases ha : a = client.Channel
      · subst ha
        right
        have hb := hinv.bounded _ ch hch
        refine ⟨ch, { ch with buf := ch.buf.drop 1 }, hch, by rw [if_pos rfl], rfl, rfl, ?_⟩
        simp only [List.length_drop]
        omega
      · left; rw [if_neg ha]
    · left; rfl

theorem Inv.step_inv {s s1 : State} (hinv : Inv s) (op : Op) (h : step s op = .ok s1) : Inv s1 := by
  cases op with
  | register u c r =>
    have : (RegisterClient s u c r).2 = s1 := Except.ok.inj h
    rw [← this]; exact hinv.register u c r
  | unregister u c => exact hinv.unregister u c h
  | broadcast c e => exact hinv.broadcast_inv c e h
  | dequeue client =>
    have : (pumpDequeue s client []).1 = s1 := Except.ok.inj h
    rw [← this]; exact hinv.dequeue client []

/-- No action panics in a state that satisfies the invariant. -/
theorem Inv.step_ok {s : State} (hinv : Inv s) (op : Op) : ∃ s1, step s op = .ok s1 := by
  cases op with
  | register u c r => exact ⟨_, rfl⟩
  | unregister u c =>
    obtain ⟨s1, h, _⟩ := hinv.unregister_spec u c
    exact ⟨s1, h⟩
  | broadcast c e =>
    obtain ⟨s1, h, _⟩ := hinv.broadcast c e
    exact ⟨s1, h⟩
  | dequeue client => exact ⟨_, rfl⟩

theorem Inv.run_ok {s : State} (hinv : Inv s) (ops : List Op) :
    ∃ s1, run s ops = .ok s1 ∧ Inv s1 := by
  induction ops generalizing s with
  | nil => exact ⟨s, rfl, hinv⟩
  | cons op ops ih =>
    obtain ⟨s1, h1⟩ := hinv.step_ok op
    obtain ⟨s2, h2, hinv2⟩ := ih (hinv.step_inv op h1)
    exact ⟨s2, by simp only [Sale.run, h1]; exact h2, hinv2⟩

theorem Reachable.inv {s : State} (h : Reachable s) : Inv s := by
  obtain ⟨ops, hops⟩ := h
  obtain ⟨s1, h1, hinv⟩ := Inv.init.run_ok ops
  have : s1 = s := by
    rw [h1] at hops
    exact Except.ok.inj hops
  rw [← this]; exact hinv

theorem run_append (s : State) (ops ops1 : List Op) :
    run s (ops ++ ops1) =
      match run s ops with
      | .error p => .error p
      | .ok s1 => run s1 ops1 := by
  induction ops generalizing s with
  | nil => rfl
  | cons op ops ih =>
    simp only [List.cons_append, Sale.run]
    cases step s op with
    | error p => rfl
    | ok s1 => exact ih s1

theorem Reachable.after {s s1 : State} (h : Reachable s) (op : Op)
    (h1 : step s op = .ok s1) : Reachable s1 := by
  obtain ⟨ops, hops⟩ := h
  refine ⟨ops ++ [op], ?_⟩
  rw [run_append, hops]
  simp only [Sale.run, h1]

/-! ## Queues -/

theorem queue_congr (s s1 : State) (a : Nat) (h : s1.heap[a]? = s.heap[a]?) :
    s1.queue a = s.queue a := by
  unfold State.queue
  rw [h]

theorem queue_of_push (s s1 : State) (a : Nat) (m : Frame) (ch : Chan)
    (h : s1.heap[a]? = (s.heap[a]?).map (fun ch => ch.push m))
    (hch : s.heap[a]? = some ch) (hcap : ch.cap = 10) :
    s1.queue a = if (s.queue a).length < 10 then s.queue a ++ [m] else s.queue a := by
  unfold State.queue
  rw [h, hch]
  simp only [Option.map_some', Chan.push, hcap]
  by_cases hl : ch.buf.length < 10
  · simp [hl]
  · simp [hl]

theorem frameOf_finite (e : SaleEvent) (price : String) (h : e.TotalPrice = .finite price) :
    ∃ m, frameOf e = some m := by
  unfold frameOf jsonMarshal
  rw [h]
  exact ⟨_, rfl⟩

theorem frameOf_not_finite (e : SaleEvent) (h : ∀ price, e.TotalPrice ≠ .finite price) :
    frameOf e = none := by
  unfold frameOf jsonMarshal
  cases hp : e.TotalPrice with
  | finite price => exact absurd hp (h price)
  | nan => rfl
  | inf neg => cases neg <;> rfl

/-! ## Claims on `BroadcastSaleEvent` -/

/-- C1, as stated, fails: company 7 has the `super_admin` client 1 with an empty
queue, and the broadcast of an event whose total price is NaN returns with the state
unchanged, so that client gets no new message. -/
theorem C1_counterexample :
    run State.init [.register 1 7 SuperAdmin] = .ok oneAdmin ∧
    oneAdmin.client? 7 1 = some ⟨1, 7, SuperAdmin, 0⟩ ∧
    (oneAdmin.queue 0).length < 10 ∧
    BroadcastSaleEvent oneAdmin 7 saleEventNaN = .ok oneAdmin ∧
    ¬ ∃ s1 m, BroadcastSaleEvent oneAdmin 7 saleEventNaN = .ok s1 ∧
        s1.queue 0 = oneAdmin.queue 0 ++ [m] := by
  refine ⟨rfl, by decide, by decide, rfl, ?_⟩
  rintro ⟨s1, m, h, hq⟩
  have h1 : BroadcastSaleEvent oneAdmin 7 saleEventNaN = .ok oneAdmin := rfl
  rw [h1] at h
  have := Except.ok.inj h
  subst this
  have h0 : oneAdmin.queue 0 = [] := by decide
  rw [h0] at hq
  simp at hq

/-- C1, amended: in every reachable state of the registry, for every company `T`
and every event `e` that can be encoded, `m` being its frame, `BroadcastSaleEvent`
returns normally and keeps the registry; every `super_admin` client registered
under `T` whose queue held fewer than 10 messages has exactly one new message, `m`,
at the tail of its queue; and no client whose role is not `super_admin`, under any
company, has its queue changed. -/
theorem C1_broadcast_delivers (s : State) (hs : Reachable s) (T : Nat) (e : SaleEvent)
    (m : Frame) (hm : frameOf e = some m) :
    ∃ s1, BroadcastSaleEvent s T e = .ok s1 ∧ s1.clients = s.clients ∧
      (∀ c cl, s.client? T c = some cl → cl.Role = SuperAdmin →
        (s.queue cl.Channel).length < 10 →
        s1.queue cl.Channel = s.queue cl.Channel ++ [m]) ∧
      (∀ T1 c cl, s.client? T1 c = some cl → cl.Role ≠ SuperAdmin →
        s1.queue cl.Channel = s.queue cl.Channel) := by
  have hinv := hs.inv
  obtain ⟨s1, hrun, hclients, _, hsome⟩ := hinv.broadcast T e
  refine ⟨s1, hrun, hclients, ?_, ?_⟩
  · intro c cl hcl hr hlen
    have hk : ∃ c cl1, s.client? T c = some cl1 ∧ cl1.Role = SuperAdmin ∧
        cl1.Channel = cl.Channel := ⟨c, cl, hcl, hr, rfl⟩
    have h1 := (hsome m hm cl.Channel).1 hk
    obtain ⟨ch, hch, _⟩ := hinv.isOpen T c cl hcl
    rw [queue_of_push s s1 cl.Channel m ch h1 hch (hinv.bounded _ ch hch).1, if_pos hlen]
  · intro T1 c cl hcl hr
    apply queue_congr
    apply (hsome m hm cl.Channel).2
    rintro ⟨c0, cl0, hcl0, hr0, hch⟩
    obtain ⟨rfl, rfl⟩ := hinv.inj T c0 cl0 T1 c cl hcl0 hcl hch
    have : cl0 = cl := Option.some.inj (hcl0.symm.trans hcl)
    exact hr (this ▸ hr0)

/-- C1, amended, at a concrete input: the `super_admin` client 1 of company 7, with
an empty queue, and the event of sale 42. -/
theorem C1_broadcast_delivers_witness :
    Reachable oneAdmin ∧ (∃ m, frameOf saleEvent42 = some m) ∧
    ∃ s1 m, BroadcastSaleEvent oneAdmin 7 saleEvent42 = .ok s1 ∧
      frameOf saleEvent42 = some m ∧ s1.queue 0 = [m] := by
  have hr : Reachable oneAdmin := ⟨[.register 1 7 SuperAdmin], rfl⟩
  obtain ⟨m, hm⟩ := frameOf_finite saleEvent42 "150" rfl
  obtain ⟨s1, hrun, _, hadm, _⟩ := C1_broadcast_delivers oneAdmin hr 7 saleEvent42 m hm
  refine ⟨hr, ⟨m, hm⟩, s1, m, hrun, hm, ?_⟩
  have := hadm 1 ⟨1, 7, SuperAdmin, 0⟩ (by decide) rfl (by decide)
  rw [this]
  rfl

/-- C2, as stated, fails: in company 7 the queue of the `super_admin` client 1 is
full and that of the `super_admin` client 2 is empty; the broadcast of an event
whose total price is NaN returns with the state unchanged, so client 2, whose queue
is not full, does not have the message appended. -/
theorem C2_counterexample :
    run State.init fullQueueOps = .ok fullQueue ∧
    fullQueue.client? 7 1 = some ⟨1, 7, SuperAdmin, 0⟩ ∧
    (fullQueue.queue 0).length = 10 ∧
    fullQueue.client? 7 2 = some ⟨2, 7, SuperAdmin, 1⟩ ∧
    (fullQueue.queue 1).length < 10 ∧
    BroadcastSaleEvent fullQueue 7 saleEventNaN = .ok fullQueue ∧
    ¬ ∃ s1 m, BroadcastSaleEvent fullQueue 7 saleEventNaN = .ok s1 ∧
        s1.queue 1 = fullQueue.queue 1 ++ [m] := by
  refine ⟨rfl, by decide, by decide, by decide, by decide, rfl, ?_⟩
  rintro ⟨s1, m, h, hq⟩
  have h1 : BroadcastSaleEvent fullQueue 7 saleEventNaN = .ok fullQueue := rfl
  rw [h1] at h
  have := Except.ok.inj h
  subst this
  have h0 : fullQueue.queue 1 = [] := by decide
  rw [h0] at hq
  simp at hq

/-- C2, amended: in every reachable state, if the queue of a `super_admin` client
of company `T` holds 10 messages, a further `BroadcastSaleEvent` to `T` returns
normally, leaves that queue and the registry unchanged, and, when the event can be
encoded, `m` being its frame, appends `m` to the queue of every other
`super_admin` client of `T` whose queue is not full. -/
theorem C2_full_queue_drops (s : State) (hs : Reachable s) (T c : Nat) (cl : SSEClient)
    (e : SaleEvent) (hcl : s.client? T c = some cl) (hr : cl.Role = SuperAdmin)
    (hfull : (s.queue cl.Channel).length = 10) :
    ∃ s1, BroadcastSaleEvent s T e = .ok s1 ∧ s1.clients = s.clients ∧
      s1.queue cl.Channel = s.queue cl.Channel ∧
      ∀ m, frameOf e = some m → ∀ c1 cl1, c1 ≠ c → s.client? T c1 = some cl1 →
        cl1.Role = SuperAdmin → (s.queue cl1.Channel).length < 10 →
        s1.queue cl1.Channel = s.queue cl1.Channel ++ [m] := by
  have hinv := hs.inv
  obtain ⟨s1, hrun, hclients, hnone, hsome⟩ := hinv.broadcast T e
  refine ⟨s1, hrun, hclients, ?_, ?_⟩
  · cases hm : frameOf e with
    | none => rw [hnone hm]
    | some m =>
      have hk : ∃ c cl1, s.client? T c = some cl1 ∧ cl1.Role = SuperAdmin ∧
          cl1.Channel = cl.Channel := ⟨c, cl, hcl, hr, rfl⟩
      have h1 := (hsome m hm cl.Channel).1 hk
      obtain ⟨ch, hch, _⟩ := hinv.isOpen T c cl hcl
      rw [queue_of_push s s1 cl.Channel m ch h1 hch (hinv.bounded _ ch hch).1,
        if_neg (by omega)]
  · intro m hm c1 cl1 _ hcl1 hr1 hlen
    have hk : ∃ c cl2, s.client? T c = some cl2 ∧ cl2.Role = SuperAdmin ∧
        cl2.Channel = cl1.Channel := ⟨c1, cl1, hcl1, hr1, rfl⟩
    have h1 := (hsome m hm cl1.Channel).1 hk
    obtain ⟨ch, hch, _⟩ := hinv.isOpen T c1 cl1 hcl1
    rw [queue_of_push s s1 cl1.Channel m ch h1 hch (hinv.bounded _ ch hch).1, if_pos hlen]

/-- C2, amended, at a concrete input: client 1 of company 7 has a full queue, client
2 an empty one, and the event of sale 42 is broadcast. -/
theorem C2_full_queue_drops_witness :
    Reachable fullQueue ∧ fullQueue.client? 7 1 = some ⟨1, 7, SuperAdmin, 0⟩ ∧
    (fullQueue.queue 0).length = 10 ∧
    ∃ s1 m, BroadcastSaleEvent fullQueue 7 saleEvent42 = .ok s1 ∧
      frameOf saleEvent42 = some m ∧
      s1.queue 0 = fullQueue.queue 0 ∧ s1.queue 1 = [m] := by
  have hr : Reachable fullQueue := ⟨fullQueueOps, rfl⟩
  obtain ⟨m, hm⟩ := frameOf_finite saleEvent42 "150" rfl
  obtain ⟨s1, hrun, _, hsame, hothers⟩ :=
    C2_full_queue_drops fullQueue hr 7 1 ⟨1, 7, SuperAdmin, 0⟩ saleEvent42 (by decide) rfl
      (by decide)
  refine ⟨hr, by decide, by decide, s1, m, hrun, hm, hsame, ?_⟩
  have := hothers m hm 2 ⟨2, 7, SuperAdmin, 1⟩ (by decide) (by decide) rfl (by decide)
  rw [this]
  rfl

/-- C10: for every state and every company `T` without a registered `super_admin`
client (no partition, or only clients of other roles), `BroadcastSaleEvent`
returns normally with the state, every queue included, unchanged. -/
theorem C10_broadcast_without_admin (s : State) (T : Nat) (e : SaleEvent)
    (h : ∀ c cl, s.client? T c = some cl → cl.Role ≠ SuperAdmin) :
    BroadcastSaleEvent s T e = .ok s := by
  unfold BroadcastSaleEvent
  cases hp : s.clients.lookup T with
  | none => rfl
  | some p =>
    cases hm : jsonMarshal e with
    | error err => rfl
    | ok data =>
      have hno : ∀ x ∈ p.entries, x.2.Role ≠ SuperAdmin := by
        intro x hx
        obtain ⟨k, v⟩ := x
        exact h k v (by rw [client?_of_lookup s T k p hp]; exact AList.mem_lookup_iff.mpr hx)
      simp only [sendAll_no_target _ _ _ hno]

/-- C10 at a concrete input: company 7 has only a client of role `user`, and the
event of sale 42 is broadcast to it. -/
theorem C10_broadcast_without_admin_witness :
    (∀ c cl, oneUser.client? 7 c = some cl → cl.Role ≠ SuperAdmin) ∧
    BroadcastSaleEvent oneUser 7 saleEvent42 = .ok oneUser := by
  have h : ∀ c cl, oneUser.client? 7 c = some cl → cl.Role ≠ SuperAdmin := by
    intro c cl hcl
    have hl : oneUser.client? 7 c =
        ((∅ : Partition).insert 3 ⟨3, 7, User, 0⟩).lookup c := rfl
    rw [hl] at hcl
    by_cases hc : c = 3
    · subst hc
      rw [AList.lookup_insert] at hcl
      have := Option.some.inj hcl
      subst this
      decide
    · rw [AList.lookup_insert_ne hc, AList.lookup_empty] at hcl
      exact absurd hcl (by simp)
  exact ⟨h, C10_broadcast_without_admin oneUser 7 saleEvent42 h⟩

/-! ## Claim on the order of delivery -/

theorem framesTo_cons (T : Nat) (op : Op) (ops : List Op) :
    framesTo T (op :: ops) = framesTo T [op] ++ framesTo T ops := by
  cases op with
  | register u c r => rfl
  | unregister u c => rfl
  | dequeue client => rfl
  | broadcast c e =>
    simp only [framesTo]
    by_cases hc : c = T
    · simp only [hc, if_true]
      cases frameOf e with
      | none => rfl
      | some m => rfl
    · simp only [hc, if_false]
      rfl

theorem queue_set_closed (s : State) (heap1 : List Chan) (b : Nat) (ch : Chan)
    (hch : s.heap[b]? = some ch) (h1 : heap1 = s.heap.set b { ch with closed := true })
    (a : Nat) : State.queue { s with heap := heap1 } a = s.queue a := by
  unfold State.queue
  simp only [h1, getElem?_set_chan s.heap b a ch _ hch]
  by_cases ha : a = b
  · subst ha; simp [hch]
  · simp [ha]

/-- One action of another party, seen from a registered client's queue: the client
stays registered, the invariant is kept, and the queue afterwards is a subsequence
of the queue before followed by the frame the action broadcast to the client's
company, if any. -/
theorem Inv.step_queue {s : State} (hinv : Inv s) (T c : Nat) (client : SSEClient)
    (hcl : s.client? T c = some client) (op : Op)
    (hu : op ≠ .unregister c T) (hr : ∀ r, op ≠ .register c T r) :
    ∃ s1, step s op = .ok s1 ∧ Inv s1 ∧ s1.client? T c = some client ∧
      (s1.queue client.Channel).Sublist (s.queue client.Channel ++ framesTo T [op]) := by
  obtain ⟨s1, hstep⟩ := hinv.step_ok op
  have hinv1 := hinv.step_inv op hstep
  refine ⟨s1, hstep, hinv1, ?_⟩
  obtain ⟨ch, hch, ho⟩ := hinv.isOpen T c client hcl
  cases op with
  | register u2 c2 r2 =>
    have hs1 : (RegisterClient s u2 c2 r2).2 = s1 := Except.ok.inj hstep
    subst hs1
    have hne : ¬ (T = c2 ∧ c = u2) := by
      rintro ⟨rfl, rfl⟩
      exact hr r2 rfl
    refine ⟨by rw [RegisterClient_client?, if_neg hne]; exact hcl, ?_⟩
    have hq : (RegisterClient s u2 c2 r2).2.queue client.Channel = s.queue client.Channel := by
      apply queue_congr
      rw [RegisterClient_heap, getElem?_snoc, if_pos (getElem?_lt_length _ _ _ hch)]
    rw [hq]
    exact List.sublist_append_left _ _
  | unregister u2 c2 =>
    have hne : ¬ (T = c2 ∧ c = u2) := by
      rintro ⟨rfl, rfl⟩
      exact hu rfl
    obtain ⟨s2, hrun, hclient, hnone, hsome, _⟩ := hinv.unregister_spec u2 c2
    have hs1 : s2 = s1 := by
      have h2 : UnregisterClient s u2 c2 = .ok s1 := hstep
      rw [hrun] at h2
      exact Except.ok.inj h2
    subst hs1
    refine ⟨by rw [hclient, if_neg hne]; exact hcl, ?_⟩
    have hq : s2.queue client.Channel = s.queue client.Channel := by
      cases hc2 : s.client? c2 u2 with
      | none => rw [hnone hc2]
      | some cl2 =>
        obtain ⟨ch2, hch2, _, hheap⟩ := hsome cl2 hc2
        have := queue_set_closed s s2.heap cl2.Channel ch2 hch2 hheap client.Channel
        unfold State.queue at this ⊢
        exact this
    rw [hq]
    exact List.sublist_append_left _ _
  | dequeue cl2 =>
    have hs1 : (pumpDequeue s cl2 []).1 = s1 := Except.ok.inj hstep
    subst hs1
    refine ⟨?_, ?_⟩
    · unfold pumpDequeue
      cases chanRecv s.heap cl2.Channel with
      | none => exact hcl
      | some r => exact hcl
    · have hq : ((pumpDequeue s cl2 []).1.queue client.Channel).Sublist
          (s.queue client.Channel) := by
        unfold pumpDequeue
        cases hrecv : chanRecv s.heap cl2.Channel with
        | none => exact List.Sublist.refl _
        | some r =>
          obtain ⟨m, heap1⟩ := r
          obtain ⟨ch2, hch2, hcase⟩ := chanRecv_spec _ _ _ _ hrecv
          rcases hcase with ⟨_, rfl⟩ | ⟨_, _, _, rfl⟩
          · unfold State.queue
            simp only [getElem?_set_chan s.heap cl2.Channel client.Channel ch2 _ hch2]
            by_cases ha : client.Channel = cl2.Channel
            · rw [if_pos ha, ha, hch2]
              exact List.drop_sublist 1 ch2.buf
            · rw [if_neg ha]
          · exact List.Sublist.refl _
      exact hq.trans (List.sublist_append_left _ _)
  | broadcast c2 e =>
    obtain ⟨s2, hrun, hclients, hnone, hsome⟩ := hinv.broadcast c2 e
    have hs1 : s2 = s1 := by
      have h2 : BroadcastSaleEvent s c2 e = .ok s1 := hstep
      rw [hrun] at h2
      exact Except.ok.inj h2
    subst hs1
    refine ⟨by unfold State.client? at hcl ⊢; rw [hclients]; exact hcl, ?_⟩
    cases hm : frameOf e with
    | none =>
      rw [hnone hm]
      exact List.sublist_append_left _ _
    | some m =>
      by_cases hk : ∃ c0 cl0, s.client? c2 c0 = some cl0 ∧ cl0.Role = SuperAdmin ∧
          cl0.Channel = client.Channel
      · obtain ⟨c0, cl0, hcl0, _, hch0⟩ := hk
        obtain ⟨rfl, rfl⟩ := hinv.inj c2 c0 cl0 T c client hcl0 hcl hch0
        have hk : ∃ c0 cl0, s.client? c2 c0 = some cl0 ∧ cl0.Role = SuperAdmin ∧
            cl0.Channel = client.Channel := ⟨c0, cl0, hcl0, ‹_›, hch0⟩
        have h1 := (hsome m hm client.Channel).1 hk
        rw [queue_of_push s s2 client.Channel m ch h1 hch (hinv.bounded _ ch hch).1]
        have hf : framesTo c2 [Op.broadcast c2 e] = [m] := by
          simp [framesTo, hm]
        rw [hf]
        by_cases hl : (s.queue client.Channel).length < 10
        · rw [if_pos hl]
        · rw [if_neg hl]
          exact List.sublist_append_left _ _
      · have h1 := (hsome m hm client.Channel).2 hk
        rw [queue_congr s s2 client.Channel h1]
        exact List.sublist_append_left _ _

/-- The dequeue step of the pump of a registered client: the frame it writes, if
any, is the head of the queue, which loses it. -/
theorem Inv.pump_dequeue {s : State} (hinv : Inv s) (T c : Nat) (client : SSEClient)
    (hcl : s.client? T c = some client) (w : List Frame) :
    ∃ w1, (pumpDequeue s client w).2 = w ++ w1 ∧
      (pumpDequeue s client w).1.client? T c = some client ∧
      w1 ++ (pumpDequeue s client w).1.queue client.Channel = s.queue client.Channel := by
  obtain ⟨ch, hch, ho⟩ := hinv.isOpen T c client hcl
  unfold pumpDequeue
  cases hrecv : chanRecv s.heap client.Channel with
  | none => exact ⟨[], by simp, hcl, rfl⟩
  | some r =>
    obtain ⟨m, heap1⟩ := r
    obtain ⟨ch2, hch2, hcase⟩ := chanRecv_spec _ _ _ _ hrecv
    have : ch2 = ch := Option.some.inj (hch2.symm.trans hch)
    subst this
    rcases hcase with ⟨hbuf, rfl⟩ | ⟨_, hc, _, _⟩
    · refine ⟨[m], rfl, hcl, ?_⟩
      unfold State.queue
      simp only [getElem?_set_chan s.heap client.Channel client.Channel ch2 _ hch2, if_true,
        hch2]
      exact hbuf.symm
    · rw [ho] at hc
      exact absurd hc (by simp)

/-- Any interleaving of actions that leaves a registered client registered, seen
from its pump: no panic, and what the pump writes followed by what is still queued
is a subsequence of what was queued at the start followed by the frames broadcast
to the client's company. -/
theorem Inv.runPump_sublist (T c : Nat) (client : SSEClient) (ops : List Op) :
    ∀ (s : State) (w : List Frame), Inv s → s.client? T c = some client →
      (∀ op ∈ ops, op ≠ .unregister c T ∧ ∀ r, op ≠ .register c T r) →
      ∃ s1 w1, runPump client s w ops = .ok (s1, w ++ w1) ∧ Inv s1 ∧
        s1.client? T c = some client ∧
        (w1 ++ s1.queue client.Channel).Sublist (s.queue client.Channel ++ framesTo T ops) := by
  induction ops with
  | nil =>
    intro s w hinv hcl _
    exact ⟨s, [], by simp [runPump], hinv, hcl, by simp [framesTo]⟩
  | cons op ops ih =>
    intro s w hinv hcl hops
    have hrest : ∀ op1 ∈ ops, op1 ≠ .unregister c T ∧ ∀ r, op1 ≠ .register c T r :=
      fun op1 h1 => hops op1 (List.mem_cons_of_mem _ h1)
    rw [framesTo_cons]
    by_cases hd : op = .dequeue client
    · subst hd
      obtain ⟨w0, hw0, hcl0, hq0⟩ := hinv.pump_dequeue T c client hcl w
      obtain ⟨s1, w1, hrun, hinv1, hcl1, hsub⟩ :=
        ih (pumpDequeue s client w).1 (pumpDequeue s client w).2 (hinv.dequeue client w) hcl0 hrest
      refine ⟨s1, w0 ++ w1, ?_, hinv1, hcl1, ?_⟩
      · simp only [runPump, if_true]
        rw [hrun, hw0, List.append_assoc]
      · have hf : framesTo T [Op.dequeue client] = [] := rfl
        rw [hf, List.nil_append, ← hq0, List.append_assoc, List.append_assoc]
        exact List.Sublist.append (List.Sublist.refl w0) hsub
    · obtain ⟨s0, hstep, hinv0, hcl0, hsub0⟩ :=
        hinv.step_queue T c client hcl op (hops op (List.mem_cons_self _ _)).1
          (hops op (List.mem_cons_self _ _)).2
      obtain ⟨s1, w1, hrun, hinv1, hcl1, hsub⟩ := ih s0 w hinv0 hcl0 hrest
      refine ⟨s1, w1, ?_, hinv1, hcl1, ?_⟩
      · simp only [runPump, if_neg hd, hstep]
        exact hrun
      · have h1 : (w1 ++ s1.queue client.Channel).Sublist
            (s0.queue client.Channel ++ framesTo T ops) := hsub
        have h2 : (s0.queue client.Channel ++ framesTo T ops).Sublist
            ((s.queue client.Channel ++ framesTo T [op]) ++ framesTo T ops) :=
          List.Sublist.append hsub0 (List.Sublist.refl _)
        rw [List.append_assoc] at h2
        exact h1.trans h2

/-- C3: a client registers (user `c`, company `T`) in a reachable state and stays
registered while any sequence of actions runs (broadcasts to any company, dequeue
steps of its pump and of others, registrations and unregistrations of other
pairs).  Then nothing panics, the client is still registered with the same handle,
and the sequence of frames its pump has written is a subsequence, in broadcast
order and with each frame unchanged, of the frames broadcast to `T`; so is that
sequence followed by what is still waiting in the queue. -/
theorem C3_pump_writes_in_broadcast_order (s0 : State) (h0 : Reachable s0) (c T : Nat)
    (r : UserRole) (ops : List Op)
    (hthrough : ∀ op ∈ ops, op ≠ .unregister c T ∧ ∀ r1, op ≠ .register c T r1) :
    ∃ s1 written,
      runPump (RegisterClient s0 c T r).1 (RegisterClient s0 c T r).2 [] ops = .ok (s1, written) ∧
      s1.client? T c = some (RegisterClient s0 c T r).1 ∧
      written.Sublist (framesTo T ops) ∧
      (written ++ s1.queue (RegisterClient s0 c T r).1.Channel).Sublist (framesTo T ops) := by
  have hinv : Inv (RegisterClient s0 c T r).2 := h0.inv.register c T r
  have hcl : (RegisterClient s0 c T r).2.client? T c = some (RegisterClient s0 c T r).1 := by
    rw [RegisterClient_client?, if_pos ⟨rfl, rfl⟩, RegisterClient_fst]
  obtain ⟨s1, w1, hrun, _, hcl1, hsub⟩ :=
    Inv.runPump_sublist T c (RegisterClient s0 c T r).1 ops (RegisterClient s0 c T r).2 []
      hinv hcl hthrough
  refine ⟨s1, w1, by simpa using hrun, hcl1, ?_⟩
  have hq : (RegisterClient s0 c T r).2.queue (RegisterClient s0 c T r).1.Channel = [] := by
    unfold State.queue
    rw [RegisterClient_heap, RegisterClient_fst, getElem?_snoc]
    simp [makeChan]
  rw [hq, List.nil_append] at hsub
  exact ⟨(List.sublist_append_left w1 _).trans hsub, hsub⟩

/-- C3 at a concrete input: user 1 registers as `super_admin` of company 7 in the
initial registry; two events are then broadcast to company 7 and one to company 8,
the pump of user 1 dequeuing in between. -/
theorem C3_pump_writes_in_broadcast_order_witness :
    Reachable State.init ∧
    (∀ op ∈ [Op.broadcast 7 saleEvent42, Op.dequeue ⟨1, 7, SuperAdmin, 0⟩,
        Op.broadcast 7 { saleEvent42 with SaleID := 43 }, Op.broadcast 8 saleEvent42,
        Op.dequeue ⟨1, 7, SuperAdmin, 0⟩],
      op ≠ .unregister 1 7 ∧ ∀ r1, op ≠ .register 1 7 r1) ∧
    ∃ s1 written,
      runPump (RegisterClient State.init 1 7 SuperAdmin).1
        (RegisterClient State.init 1 7 SuperAdmin).2 []
        [Op.broadcast 7 saleEvent42, Op.dequeue ⟨1, 7, SuperAdmin, 0⟩,
          Op.broadcast 7 { saleEvent42 with SaleID := 43 }, Op.broadcast 8 saleEvent42,
          Op.dequeue ⟨1, 7, SuperAdmin, 0⟩] = .ok (s1, written) ∧
      s1.client? 7 1 = some (RegisterClient State.init 1 7 SuperAdmin).1 ∧
      written.Sublist (framesTo 7
        [Op.broadcast 7 saleEvent42, Op.dequeue ⟨1, 7, SuperAdmin, 0⟩,
          Op.broadcast 7 { saleEvent42 with SaleID := 43 }, Op.broadcast 8 saleEvent42,
          Op.dequeue ⟨1, 7, SuperAdmin, 0⟩]) ∧
      (written ++ s1.queue (RegisterClient State.init 1 7 SuperAdmin).1.Channel).Sublist
        (framesTo 7
          [Op.broadcast 7 saleEvent42, Op.dequeue ⟨1, 7, SuperAdmin, 0⟩,
            Op.broadcast 7 { saleEvent42 with SaleID := 43 }, Op.broadcast 8 saleEvent42,
            Op.dequeue ⟨1, 7, SuperAdmin, 0⟩]) := by
  have hr : Reachable State.init := ⟨[], rfl⟩
  have hops : ∀ op ∈ [Op.broadcast 7 saleEvent42, Op.dequeue ⟨1, 7, SuperAdmin, 0⟩,
      Op.broadcast 7 { saleEvent42 with SaleID := 43 }, Op.broadcast 8 saleEvent42,
      Op.dequeue ⟨1, 7, SuperAdmin, 0⟩],
      op ≠ .unregister 1 7 ∧ ∀ r1, op ≠ .register 1 7 r1 := by
    intro op hop
    simp only [List.mem_cons, List.mem_singleton, List.not_mem_nil, or_false] at hop
    rcases hop with rfl | rfl | rfl | rfl | rfl <;>
      exact ⟨fun h => Op.noConfusion h, fun r1 h => Op.noConfusion h⟩
  exact ⟨hr, hops,
    C3_pump_writes_in_broadcast_order State.init hr 1 7 SuperAdmin _ hops⟩

/-! ## Channels the registry no longer refers to -/

/-- One action, seen from a channel that no registration refers to: the channel
keeps its open/closed status, gets no new message (its buffer can only lose the
messages a reader takes), and stays unreferenced. -/
theorem Inv.step_orphan {s s1 : State} (hinv : Inv s) (a : Nat) (ch : Chan)
    (hch : s.heap[a]? = some ch)
    (hun : ∀ T c cl, s.client? T c = some cl → cl.Channel ≠ a)
    (op : Op) (hstep : step s op = .ok s1) :
    ∃ ch1, s1.heap[a]? = some ch1 ∧ ch1.closed = ch.closed ∧ ch1.buf.Sublist ch.buf ∧
      ∀ T c cl, s1.client? T c = some cl → cl.Channel ≠ a := by
  have hlt := getElem?_lt_length _ _ _ hch
  cases op with
  | register u2 c2 r2 =>
    have hs1 : (RegisterClient s u2 c2 r2).2 = s1 := Except.ok.inj hstep
    subst hs1
    refine ⟨ch, ?_, rfl, List.Sublist.refl _, ?_⟩
    · rw [RegisterClient_heap, getElem?_snoc, if_pos hlt]
      exact hch
    · intro T c cl hcl
      rw [RegisterClient_client?] at hcl
      by_cases hk : T = c2 ∧ c = u2
      · rw [if_pos hk] at hcl
        have := Option.some.inj hcl
        subst this
        simp only
        omega
      · rw [if_neg hk] at hcl
        exact hun T c cl hcl
  | unregister u2 c2 =>
    obtain ⟨s2, hrun, hclient, hnone, hsome, _⟩ := hinv.unregister_spec u2 c2
    have hs1 : s2 = s1 := by
      have h2 : UnregisterClient s u2 c2 = .ok s1 := hstep
      rw [hrun] at h2
      exact Except.ok.inj h2
    subst hs1
    have hun1 : ∀ T c cl, s2.client? T c = some cl → cl.Channel ≠ a := by
      intro T c cl hcl
      rw [hclient] at hcl
      by_cases hk : T = c2 ∧ c = u2
      · rw [if_pos hk] at hcl
        exact absurd hcl (by simp)
      · rw [if_neg hk] at hcl
        exact hun T c cl hcl
    refine ⟨ch, ?_, rfl, List.Sublist.refl _, hun1⟩
    cases hc2 : s.client? c2 u2 with
    | none => rw [hnone hc2]; exact hch
    | some cl2 =>
      obtain ⟨ch2, hch2, _, hheap⟩ := hsome cl2 hc2
      have hne : a ≠ cl2.Channel := fun e => hun c2 u2 cl2 hc2 e.symm
      rw [hheap, getElem?_set_chan s.heap cl2.Channel a ch2 _ hch2, if_neg hne]
      exact hch
  | broadcast c2 e =>
    obtain ⟨s2, hrun, hclients, hnone, hsome⟩ := hinv.broadcast c2 e
    have hs1 : s2 = s1 := by
      have h2 : BroadcastSaleEvent s c2 e = .ok s1 := hstep
      rw [hrun] at h2
      exact Except.ok.inj h2
    subst hs1
    have hun1 : ∀ T c cl, s2.client? T c = some cl → cl.Channel ≠ a := by
      intro T c cl hcl
      apply hun T c cl
      unfold State.client? at hcl ⊢
      rw [← hclients]
      exact hcl
    refine ⟨ch, ?_, rfl, List.Sublist.refl _, hun1⟩
    cases hm : frameOf e with
    | none => rw [hnone hm]; exact hch
    | some m =>
      have hk : ¬ ∃ c0 cl0, s.client? c2 c0 = some cl0 ∧ cl0.Role = SuperAdmin ∧
          cl0.Channel = a := by
        rintro ⟨c0, cl0, hcl0, _, h0⟩
        exact hun c2 c0 cl0 hcl0 h0
      rw [(hsome m hm a).2 hk]
      exact hch
  | dequeue cl2 =>
    have hs1 : (pumpDequeue s cl2 []).1 = s1 := Except.ok.inj hstep
    subst hs1
    have hun1 : ∀ T c cl, (pumpDequeue s cl2 []).1.client? T c = some cl → cl.Channel ≠ a := by
      intro T c cl hcl
      apply hun T c cl
      unfold pumpDequeue at hcl
      cases hrecv : chanRecv s.heap cl2.Channel with
      | none => rw [hrecv] at hcl; exact hcl
      | some r => rw [hrecv] at hcl; exact hcl
    unfold pumpDequeue at hun1 ⊢
    cases hrecv : chanRecv s.heap cl2.Channel with
    | none => exact ⟨ch, hch, rfl, List.Sublist.refl _, by rw [hrecv] at hun1; exact hun1⟩
    | some r =>
      obtain ⟨m, heap1⟩ := r
      rw [hrecv] at hun1
      obtain ⟨ch2, hch2, hcase⟩ := chanRecv_spec _ _ _ _ hrecv
      rcases hcase with ⟨_, rfl⟩ | ⟨_, _, _, rfl⟩
      · by_cases ha : a = cl2.Channel
        · subst ha
          have : ch2 = ch := Option.some.inj (hch2.symm.trans hch)
          subst this
          refine ⟨{ ch2 with buf := ch2.buf.drop 1 }, ?_, rfl, List.drop_sublist 1 ch2.buf, hun1⟩
          show (s.heap.set cl2.Channel _)[cl2.Channel]? = _
          rw [getElem?_set_chan s.heap cl2.Channel cl2.Channel ch2 _ hch2, if_pos rfl]
        · refine ⟨ch, ?_, rfl, List.Sublist.refl _, hun1⟩
          show (s.heap.set cl2.Channel _)[a]? = _
          rw [getElem?_set_chan s.heap cl2.Channel a ch2 _ hch2, if_neg ha]
          exact hch
      · exact ⟨ch, hch, rfl, List.Sublist.refl _, hun1⟩

/-- A channel that no registration refers to stays so along every run: it is never
closed and never gets a new message. -/
theorem Inv.run_orphan (a : Nat) (ops : List Op) :
    ∀ (s : State) (ch : Chan), Inv s → s.heap[a]? = some ch →
      (∀ T c cl, s.client? T c = some cl → cl.Channel ≠ a) →
      ∃ s1 ch1, run s ops = .ok s1 ∧ s1.heap[a]? = some ch1 ∧ ch1.closed = ch.closed ∧
        ch1.buf.Sublist ch.buf := by
  induction ops with
  | nil =>
    intro s ch _ hch _
    exact ⟨s, ch, rfl, hch, rfl, List.Sublist.refl _⟩
  | cons op ops ih =>
    intro s ch hinv hch hun
    obtain ⟨s0, hstep⟩ := hinv.step_ok op
    obtain ⟨ch0, hch0, hc0, hsub0, hun0⟩ := hinv.step_orphan a ch hch hun op hstep
    obtain ⟨s1, ch1, hrun, hch1, hc1, hsub1⟩ := ih s0 ch0 (hinv.step_inv op hstep) hch0 hun0
    exact ⟨s1, ch1, by simp only [Sale.run, hstep]; exact hrun, hch1, hc1.trans hc0,
      hsub1.trans hsub0⟩

/-! ## Claims on `RegisterClient` and `UnregisterClient` -/

/-- C4, as stated, fails: user 1 of company 7 registers twice in a row; the queue of
the first registration (channel 0) is still open afterwards, so a consumer reading
it observes no closure (its receive blocks), while the registry holds the second
handle (channel 1). -/
theorem C4_counterexample :
    run State.init [.register 1 7 SuperAdmin] = .ok oneAdmin ∧
    oneAdmin.client? 7 1 = some ⟨1, 7, SuperAdmin, 0⟩ ∧
    (RegisterClient oneAdmin 1 7 SuperAdmin).2.client? 7 1 = some ⟨1, 7, SuperAdmin, 1⟩ ∧
    (RegisterClient oneAdmin 1 7 SuperAdmin).2.heap[0]? = some ⟨[], 10, false⟩ ∧
    chanRecv (RegisterClient oneAdmin 1 7 SuperAdmin).2.heap 0 = none ∧
    ¬ ∃ ch, (RegisterClient oneAdmin 1 7 SuperAdmin).2.heap[0]? = some ch ∧ ch.closed = true := by
  refine ⟨rfl, by decide, by decide, by decide, by decide, ?_⟩
  rintro ⟨ch, hch, hc⟩
  have h0 : (RegisterClient oneAdmin 1 7 SuperAdmin).2.heap[0]? = some ⟨[], 10, false⟩ := by
    decide
  rw [h0] at hch
  have := Option.some.inj hch
  subst this
  exact absurd hc (by decide)

/-- C4, amended: in every reachable state in which the pair (company `T`, user `c`)
is registered, calling `RegisterClient` again for the pair stores the new handle in
place of the earlier one and does not close the earlier queue: that channel is
exactly as it was (open, same contents), it differs from the new one, and no
registration refers to it any more; and whatever actions follow, it is still open
and holds nothing but messages it held already, so a consumer still reading it
never observes closure and never gets a later broadcast. -/
theorem C4_reregister_leaves_old_queue_open (s : State) (hs : Reachable s) (c T : Nat)
    (r : UserRole) (old : SSEClient) (hold : s.client? T c = some old) :
    (RegisterClient s c T r).2.client? T c = some (RegisterClient s c T r).1 ∧
    (RegisterClient s c T r).1.Channel ≠ old.Channel ∧
    (RegisterClient s c T r).2.heap[old.Channel]? = s.heap[old.Channel]? ∧
    (∃ ch, (RegisterClient s c T r).2.heap[old.Channel]? = some ch ∧ ch.closed = false) ∧
    (∀ T1 c1 cl, (RegisterClient s c T r).2.client? T1 c1 = some cl →
      cl.Channel ≠ old.Channel) ∧
    (∀ ops : List Op, ∃ s1 ch1, run (RegisterClient s c T r).2 ops = .ok s1 ∧
      s1.heap[old.Channel]? = some ch1 ∧ ch1.closed = false ∧
      ch1.buf.Sublist (s.queue old.Channel)) := by
  have hinv := hs.inv
  obtain ⟨ch, hch, ho⟩ := hinv.isOpen T c old hold
  have hlt := getElem?_lt_length _ _ _ hch
  have hsame : (RegisterClient s c T r).2.heap[old.Channel]? = s.heap[old.Channel]? := by
    rw [RegisterClient_heap, getElem?_snoc, if_pos hlt]
  have hun : ∀ T1 c1 cl, (RegisterClient s c T r).2.client? T1 c1 = some cl →
      cl.Channel ≠ old.Channel := by
    intro T1 c1 cl hcl
    rw [RegisterClient_client?] at hcl
    by_cases hk : T1 = T ∧ c1 = c
    · rw [if_pos hk] at hcl
      have := Option.some.inj hcl
      subst this
      simp only
      omega
    · rw [if_neg hk] at hcl
      intro e
      exact hk (hinv.inj T1 c1 cl T c old hcl hold e)
  refine ⟨?_, ?_, hsame, ⟨ch, hsame.trans hch, ho⟩, hun, ?_⟩
  · rw [RegisterClient_client?, if_pos ⟨rfl, rfl⟩, RegisterClient_fst]
  · rw [RegisterClient_fst]
    simp only
    omega
  · intro ops
    obtain ⟨s1, ch1, hrun, hch1, hc1, hsub⟩ :=
      Inv.run_orphan old.Channel ops (RegisterClient s c T r).2 ch (hinv.register c T r)
        (hsame.trans hch) hun
    refine ⟨s1, ch1, hrun, hch1, hc1.trans ho, ?_⟩
    have hq : s.queue old.Channel = ch.buf := by
      unfold State.queue
      rw [hch]
    rw [hq]
    exact hsub

/-- C4, amended, at a concrete input: user 1 of company 7 registers a second time,
and an event is then broadcast to company 7; the first queue is still open and
empty. -/
theorem C4_reregister_leaves_old_queue_open_witness :
    Reachable oneAdmin ∧ oneAdmin.client? 7 1 = some ⟨1, 7, SuperAdmin, 0⟩ ∧
    (RegisterClient oneAdmin 1 7 User).2.client? 7 1 = some (RegisterClient oneAdmin 1 7 User).1 ∧
    (∃ ch, (RegisterClient oneAdmin 1 7 User).2.heap[0]? = some ch ∧ ch.closed = false) ∧
    (∃ s1 ch1, run (RegisterClient oneAdmin 1 7 User).2 [.broadcast 7 saleEvent42] = .ok s1 ∧
      s1.heap[0]? = some ch1 ∧ ch1.closed = false ∧ ch1.buf.Sublist (oneAdmin.queue 0)) := by
  have hr : Reachable oneAdmin := ⟨[.register 1 7 SuperAdmin], rfl⟩
  have h := C4_reregister_leaves_old_queue_open oneAdmin hr 1 7 User ⟨1, 7, SuperAdmin, 0⟩
    (by decide)
  exact ⟨hr, by decide, h.1, h.2.2.2.1, h.2.2.2.2.2 [.broadcast 7 saleEvent42]⟩

/-- C5: in every reachable state in which the pair (company `T`, user `c`) is
registered, `UnregisterClient` returns normally, the pair is no longer registered,
the queue of the removed registration was open and is now closed (with the same
contents), and the partition of `T` is gone from the top-level map exactly when
`c` was the last client registered under `T`. -/
theorem C5_unregister_registered (s : State) (hs : Reachable s) (c T : Nat) (cl : SSEClient)
    (hcl : s.client? T c = some cl) :
    ∃ s1, UnregisterClient s c T = .ok s1 ∧ s1.client? T c = none ∧
      (∃ ch, s.heap[cl.Channel]? = some ch ∧ ch.closed = false ∧
        s1.heap[cl.Channel]? = some { ch with closed := true }) ∧
      (s1.clients.lookup T = none ↔ ∀ c1, c1 ≠ c → s.client? T c1 = none) := by
  have hinv := hs.inv
  obtain ⟨s1, hrun, hclient, _, hsome, hpart⟩ := hinv.unregister_spec c T
  refine ⟨s1, hrun, ?_, ?_, ?_⟩
  · rw [hclient, if_pos ⟨rfl, rfl⟩]
  · obtain ⟨ch, hch, ho, hheap⟩ := hsome cl hcl
    refine ⟨ch, hch, ho, ?_⟩
    rw [hheap, getElem?_set_chan s.heap cl.Channel cl.Channel ch _ hch, if_pos rfl]
  · rw [hpart T]
    obtain ⟨p, hp, _⟩ := lookup_of_client? s T c cl hcl
    constructor
    · rintro (h | ⟨_, h⟩)
      · rw [hp] at h
        exact absurd h (by simp)
      · exact h
    · exact fun h => Or.inr ⟨rfl, h⟩

/-- C5 at a concrete input: user 1, the only client of company 7, unregisters. -/
theorem C5_unregister_registered_witness :
    Reachable oneAdmin ∧ oneAdmin.client? 7 1 = some ⟨1, 7, SuperAdmin, 0⟩ ∧
    ∃ s1, UnregisterClient oneAdmin 1 7 = .ok s1 ∧ s1.client? 7 1 = none ∧
      (∃ ch, oneAdmin.heap[0]? = some ch ∧ ch.closed = false ∧
        s1.heap[0]? = some { ch with closed := true }) ∧
      (s1.clients.lookup 7 = none ↔ ∀ c1, c1 ≠ 1 → oneAdmin.client? 7 c1 = none) :=
  ⟨⟨[.register 1 7 SuperAdmin], rfl⟩, by decide,
    C5_unregister_registered oneAdmin ⟨[.register 1 7 SuperAdmin], rfl⟩ 1 7
      ⟨1, 7, SuperAdmin, 0⟩ (by decide)⟩

/-- C6: in every reachable state, `UnregisterClient` for a pair that is not
registered returns normally and leaves the state unchanged; and for any pair,
calling `UnregisterClient` twice in a row gives the result of calling it once. -/
theorem C6_unregister_absent (s : State) (hs : Reachable s) (c T : Nat) :
    (s.client? T c = none → UnregisterClient s c T = .ok s) ∧
    ∃ s1, UnregisterClient s c T = .ok s1 ∧ UnregisterClient s1 c T = .ok s1 := by
  have hinv := hs.inv
  refine ⟨fun h => UnregisterClient_absent s c T (hinv.nonempty T) h, ?_⟩
  obtain ⟨s1, hrun, hclient, _⟩ := hinv.unregister_spec c T
  have hinv1 : Inv s1 := hinv.unregister c T hrun
  refine ⟨s1, hrun, UnregisterClient_absent s1 c T (hinv1.nonempty T) ?_⟩
  rw [hclient, if_pos ⟨rfl, rfl⟩]

/-- C6 at a concrete input: company 7 has the client 1; user 2 of company 7, who is
not registered, unregisters. -/
theorem C6_unregister_absent_witness :
    Reachable oneAdmin ∧ oneAdmin.client? 7 2 = none ∧
    UnregisterClient oneAdmin 2 7 = .ok oneAdmin :=
  ⟨⟨[.register 1 7 SuperAdmin], rfl⟩, by decide,
    (C6_unregister_absent oneAdmin ⟨[.register 1 7 SuperAdmin], rfl⟩ 2 7).1 (by decide)⟩

/-- Any sequence of actions that leaves a registered client registered: no panic,
and what waits in the client's queue at the end is a subsequence of what waited at
the start followed by the frames broadcast to its company. -/
theorem Inv.run_queue (T c : Nat) (client : SSEClient) (ops : List Op) :
    ∀ s : State, Inv s → s.client? T c = some client →
      (∀ op ∈ ops, op ≠ .unregister c T ∧ ∀ r, op ≠ .register c T r) →
      ∃ s1, run s ops = .ok s1 ∧ Inv s1 ∧ s1.client? T c = some client ∧
        (s1.queue client.Channel).Sublist (s.queue client.Channel ++ framesTo T ops) := by
  induction ops with
  | nil =>
    intro s hinv hcl _
    exact ⟨s, rfl, hinv, hcl, by simp [framesTo]⟩
  | cons op ops ih =>
    intro s hinv hcl hops
    obtain ⟨s0, hstep, hinv0, hcl0, hsub0⟩ :=
      hinv.step_queue T c client hcl op (hops op (List.mem_cons_self _ _)).1
        (hops op (List.mem_cons_self _ _)).2
    obtain ⟨s1, hrun, hinv1, hcl1, hsub⟩ :=
      ih s0 hinv0 hcl0 (fun op1 h1 => hops op1 (List.mem_cons_of_mem _ h1))
    refine ⟨s1, by simp only [Sale.run, hstep]; exact hrun, hinv1, hcl1, ?_⟩
    rw [framesTo_cons]
    have h2 : (s0.queue client.Channel ++ framesTo T ops).Sublist
        ((s.queue client.Channel ++ framesTo T [op]) ++ framesTo T ops) :=
      List.Sublist.append hsub0 (List.Sublist.refl _)
    rw [List.append_assoc] at h2
    exact hsub.trans h2

/-- C7: in every state, `RegisterClient` (a total function: it cannot fail) returns
a handle carrying the given user, company and role and a channel that did not
exist before; that channel is open, empty and of capacity 10; the registry maps
the pair to exactly that handle, the partition of the company exists, and no
channel that existed before is touched.  Whatever was broadcast before the call,
when the state is reachable the new queue only ever holds frames broadcast to the
company after the call: after any further actions that leave the client
registered, its content is a subsequence of the frames those actions broadcast. -/
theorem C7_register (s : State) (c T : Nat) (r : UserRole) :
    (RegisterClient s c T r).1.UserID = c ∧
    (RegisterClient s c T r).1.CompanyID = T ∧
    (RegisterClient s c T r).1.Role = r ∧
    s.heap[(RegisterClient s c T r).1.Channel]? = none ∧
    (RegisterClient s c T r).2.heap[(RegisterClient s c T r).1.Channel]? =
      some { buf := [], cap := 10, closed := false } ∧
    (RegisterClient s c T r).2.queue (RegisterClient s c T r).1.Channel = [] ∧
    (RegisterClient s c T r).2.client? T c = some (RegisterClient s c T r).1 ∧
    (∃ p, (RegisterClient s c T r).2.clients.lookup T = some p) ∧
    (∀ (a : Nat) (ch : Chan), s.heap[a]? = some ch →
      (RegisterClient s c T r).2.heap[a]? = some ch) ∧
    (Reachable s → ∀ ops : List Op,
      (∀ op ∈ ops, op ≠ .unregister c T ∧ ∀ r1, op ≠ .register c T r1) →
      ∃ s1, run (RegisterClient s c T r).2 ops = .ok s1 ∧
        (s1.queue (RegisterClient s c T r).1.Channel).Sublist (framesTo T ops)) := by
  have hnew : (RegisterClient s c T r).2.heap[(RegisterClient s c T r).1.Channel]? =
      some { buf := [], cap := 10, closed := false } := by
    rw [RegisterClient_heap, RegisterClient_fst, getElem?_snoc]
    simp [makeChan]
  have hq : (RegisterClient s c T r).2.queue (RegisterClient s c T r).1.Channel = [] := by
    unfold State.queue
    rw [hnew]
  have hcl : (RegisterClient s c T r).2.client? T c = some (RegisterClient s c T r).1 := by
    rw [RegisterClient_client?, if_pos ⟨rfl, rfl⟩, RegisterClient_fst]
  refine ⟨rfl, rfl, rfl, ?_, hnew, hq, hcl, ?_, ?_, ?_⟩
  · rw [RegisterClient_fst]
    exact List.getElem?_eq_none (Nat.le_refl _)
  · rw [RegisterClient_lookup, if_pos rfl]
    exact ⟨_, rfl⟩
  · intro a ch hch
    rw [RegisterClient_heap, getElem?_snoc, if_pos (getElem?_lt_length _ _ _ hch)]
    exact hch
  · intro hs ops hops
    obtain ⟨s1, hrun, _, _, hsub⟩ :=
      Inv.run_queue T c (RegisterClient s c T r).1 ops (RegisterClient s c T r).2
        (hs.inv.register c T r) hcl hops
    rw [hq, List.nil_append] at hsub
    exact ⟨s1, hrun, hsub⟩

/-- C7 at a concrete input: an event is broadcast to company 7, then user 1
registers there, then a second event is broadcast; the new queue holds the second
frame only. -/
theorem C7_register_witness :
    Reachable (stateAfter [.register 2 7 SuperAdmin, .broadcast 7 saleEvent42]) ∧
    (∀ op ∈ [Op.broadcast 7 { saleEvent42 with SaleID := 43 }],
      op ≠ .unregister 1 7 ∧ ∀ r1, op ≠ .register 1 7 r1) ∧
    ∃ s1, run (RegisterClient (stateAfter [.register 2 7 SuperAdmin, .broadcast 7 saleEvent42])
        1 7 SuperAdmin).2 [Op.broadcast 7 { saleEvent42 with SaleID := 43 }] = .ok s1 ∧
      (s1.queue (RegisterClient (stateAfter [.register 2 7 SuperAdmin, .broadcast 7 saleEvent42])
        1 7 SuperAdmin).1.Channel).Sublist
        (framesTo 7 [Op.broadcast 7 { saleEvent42 with SaleID := 43 }]) := by
  have hr : Reachable (stateAfter [.register 2 7 SuperAdmin, .broadcast 7 saleEvent42]) :=
    ⟨[.register 2 7 SuperAdmin, .broadcast 7 saleEvent42], rfl⟩
  have hops : ∀ op ∈ [Op.broadcast 7 { saleEvent42 with SaleID := 43 }],
      op ≠ .unregister 1 7 ∧ ∀ r1, op ≠ .register 1 7 r1 := by
    intro op hop
    simp only [List.mem_singleton] at hop
    subst hop
    exact ⟨fun h => Op.noConfusion h, fun r1 h => Op.noConfusion h⟩
  exact ⟨hr, hops, (C7_register _ 1 7 SuperAdmin).2.2.2.2.2.2.2.2.2 hr _ hops⟩

/-- C9: in every reachable state no partition of the top-level map is empty, and a
company has a partition exactly when it has at least one registered client. -/
theorem C9_no_empty_partition (s : State) (hs : Reachable s) :
    (∀ T p, s.clients.lookup T = some p → p.entries ≠ []) ∧
    (∀ T, (∃ p, s.clients.lookup T = some p) ↔ ∃ c cl, s.client? T c = some cl) := by
  have hinv := hs.inv
  refine ⟨hinv.nonempty, fun T => ⟨?_, ?_⟩⟩
  · rintro ⟨p, hp⟩
    obtain ⟨a, b, hab⟩ := exists_lookup_of_entries_ne_nil p (hinv.nonempty T p hp)
    exact ⟨a, b, by rw [client?_of_lookup s T a p hp]; exact hab⟩
  · rintro ⟨c, cl, hcl⟩
    obtain ⟨p, hp, _⟩ := lookup_of_client? s T c cl hcl
    exact ⟨p, hp⟩

/-- C9 at a concrete input: after user 1 of company 7 registers and unregisters, the
registry has no partition for company 7. -/
theorem C9_no_empty_partition_witness :
    Reachable (stateAfter [.register 1 7 SuperAdmin, .unregister 1 7]) ∧
    (stateAfter [.register 1 7 SuperAdmin, .unregister 1 7]).clients.lookup 7 = none ∧
    (∀ T p, (stateAfter [.register 1 7 SuperAdmin, .unregister 1 7]).clients.lookup T = some p →
      p.entries ≠ []) :=
  ⟨⟨[.register 1 7 SuperAdmin, .unregister 1 7], rfl⟩, rfl,
    (C9_no_empty_partition _ ⟨[.register 1 7 SuperAdmin, .unregister 1 7], rfl⟩).1⟩

theorem filter_key_length_le_one {V : Type} (k : Nat) (l : List (Sigma fun _ : Nat => V))
    (h : l.NodupKeys) : (l.filter (fun x => x.1 = k)).length ≤ 1 := by
  induction l with
  | nil => simp
  | cons x l ih =>
    have hnd := List.nodupKeys_cons.mp h
    by_cases hx : x.1 = k
    · have hnil : l.filter (fun y => y.1 = k) = [] := by
        rw [List.filter_eq_nil_iff]
        intro y hy hyk
        have hyk1 : y.1 = k := by simpa using hyk
        apply hnd.1
        rw [hx, ← hyk1]
        exact List.mem_keys_of_mem hy
      simp [List.filter_cons, hx, hnil]
    · simp only [List.filter_cons, hx, decide_False]
      exact ih hnd.2

/-- The registry never stores more than one registration for a pair: the keys of a
map are distinct. -/
theorem countPair_le_one (s : State) (T c : Nat) : s.countPair T c ≤ 1 := by
  unfold State.countPair
  have h1 := filter_key_length_le_one T s.clients.entries s.clients.nodupKeys
  cases hf : s.clients.entries.filter (fun p => p.1 = T) with
  | nil => simp
  | cons p rest =>
    rw [hf] at h1
    have hrest : rest = [] := by
      cases rest with
      | nil => rfl
      | cons q rest1 => simp at h1
    subst hrest
    simp only [List.map_cons, List.map_nil, List.sum_cons, List.sum_nil, Nat.add_zero]
    exact filter_key_length_le_one c p.2.entries p.2.nodupKeys

/-- A sequence of calls on one pair, from a state satisfying the invariant: no
panic, and the last call decides what the registry holds for the pair. -/
theorem Inv.runPair_last (c T : Nat) (calls : List PairCall) :
    ∀ (s : State) (hs0 : List SSEClient), Inv s →
      ∃ s1 hs, runPair c T s hs0 calls = .ok (s1, hs0 ++ hs) ∧ Inv s1 ∧
        (calls = [] → s1 = s ∧ hs = []) ∧
        (∀ r, calls.getLast? = some (some r) →
          ∃ h, hs.getLast? = some h ∧ s1.client? T c = some h ∧ h.Role = r) ∧
        (calls.getLast? = some none → s1.client? T c = none) := by
  induction calls with
  | nil =>
    intro s hs0 hinv
    exact ⟨s, [], by simp [runPair], hinv, fun _ => ⟨rfl, rfl⟩, by simp, by simp⟩
  | cons call rest ih =>
    intro s hs0 hinv
    cases call with
    | some role =>
      obtain ⟨s1, hs, hrun, hinv1, hnil, hreg, hunreg⟩ :=
        ih (RegisterClient s c T role).2 (hs0 ++ [(RegisterClient s c T role).1])
          (hinv.register c T role)
      refine ⟨s1, (RegisterClient s c T role).1 :: hs, ?_, hinv1, by simp, ?_, ?_⟩
      · simp only [runPair]
        rw [hrun]
        simp
      · intro r hlast
        cases rest with
        | nil =>
          obtain ⟨rfl, rfl⟩ := hnil rfl
          simp only [List.getLast?_singleton, Option.some.injEq] at hlast
          subst hlast
          refine ⟨(RegisterClient s c T role).1, by simp, ?_, rfl⟩
          rw [RegisterClient_client?, if_pos ⟨rfl, rfl⟩, RegisterClient_fst]
        | cons call1 rest1 =>
          rw [List.getLast?_cons_cons] at hlast
          obtain ⟨h, hh, hcl, hrole⟩ := hreg r hlast
          refine ⟨h, ?_, hcl, hrole⟩
          cases hs with
          | nil => simp at hh
          | cons x xs => rw [List.getLast?_cons_cons]; exact hh
      · intro hlast
        cases rest with
        | nil => simp at hlast
        | cons call1 rest1 =>
          rw [List.getLast?_cons_cons] at hlast
          exact hunreg hlast
    | none =>
      obtain ⟨s0, hrun0, hclient, _⟩ := hinv.unregister_spec c T
      obtain ⟨s1, hs, hrun, hinv1, hnil, hreg, hunreg⟩ :=
        ih s0 hs0 (hinv.unregister c T hrun0)
      refine ⟨s1, hs, ?_, hinv1, by simp, ?_, ?_⟩
      · simp only [runPair, hrun0]
        exact hrun
      · intro r hlast
        cases rest with
        | nil => simp at hlast
        | cons call1 rest1 =>
          rw [List.getLast?_cons_cons] at hlast
          exact hreg r hlast
      · intro hlast
        cases rest with
        | nil =>
          obtain ⟨rfl, rfl⟩ := hnil rfl
          rw [hclient, if_pos ⟨rfl, rfl⟩]
        | cons call1 rest1 =>
          rw [List.getLast?_cons_cons] at hlast
          exact hunreg hlast

/-- C8: for every sequence of `RegisterClient` and `UnregisterClient` calls on one
(company, user) pair, started in a reachable state: no call panics; the registry
stores at most one registration for the pair; if the last call was a
`RegisterClient`, the registry holds for the pair exactly the handle that call
returned; if the last call was an `UnregisterClient`, it holds none.  So whenever
the registry holds a registration after a non-empty sequence, it is the handle
returned by the most recent `RegisterClient`. -/
theorem C8_last_register_wins (s : State) (hs : Reachable s) (c T : Nat)
    (calls : List PairCall) :
    ∃ s1 handles, runPair c T s [] calls = .ok (s1, handles) ∧
      s1.countPair T c ≤ 1 ∧
      (∀ r, calls.getLast? = some (some r) →
        ∃ h, handles.getLast? = some h ∧ s1.client? T c = some h) ∧
      (calls.getLast? = some none → s1.client? T c = none) ∧
      (calls ≠ [] → ∀ h, s1.client? T c = some h → handles.getLast? = some h) := by
  obtain ⟨s1, handles, hrun, _, _, hreg, hunreg⟩ := Inv.runPair_last c T calls s [] hs.inv
  refine ⟨s1, handles, by simpa using hrun, countPair_le_one s1 T c, ?_, hunreg, ?_⟩
  · intro r hlast
    obtain ⟨h, hh, hcl, _⟩ := hreg r hlast
    exact ⟨h, hh, hcl⟩
  · intro hne h hcl
    cases hlast : calls.getLast? with
    | none =>
      rw [List.getLast?_eq_none_iff] at hlast
      exact absurd hlast hne
    | some call =>
      cases call with
      | none =>
        rw [hunreg hlast] at hcl
        exact absurd hcl (by simp)
      | some r =>
        obtain ⟨h1, hh1, hcl1, _⟩ := hreg r hlast
        have : h1 = h := Option.some.inj (hcl1.symm.trans hcl)
        rw [← this]; exact hh1

/-- C8 at a concrete input: user 1 of company 7 registers as `super_admin`,
unregisters, and registers twice more; the registry holds the last handle. -/
theorem C8_last_register_wins_witness :
    Reachable State.init ∧
    ∃ s1 handles,
      runPair 1 7 State.init [] [some SuperAdmin, none, some User, some SuperAdmin] =
        .ok (s1, handles) ∧
      s1.countPair 7 1 ≤ 1 ∧
      ∃ h, handles.getLast? = some h ∧ s1.client? 7 1 = some h := by
  have hr : Reachable State.init := ⟨[], rfl⟩
  obtain ⟨s1, handles, hrun, hcount, hreg, _⟩ :=
    C8_last_register_wins State.init hr 1 7 [some SuperAdmin, none, some User, some SuperAdmin]
  exact ⟨hr, s1, handles, hrun, hcount, hreg SuperAdmin rfl⟩

/-! ## Frame conditions -/

theorem Chan.push_buf (ch : Chan) (m : Frame) :
    (ch.push m).buf = ch.buf ∨ (ch.push m).buf = ch.buf ++ [m] := by
  unfold Chan.push
  by_cases h : ch.buf.length < ch.cap
  · right; simp [h]
  · left; simp [h]

/-- A channel that is not the queue of a `super_admin` client of company `T` is not
touched by a broadcast to `T`; the queue of a client of another company is such a
channel. -/
theorem Inv.not_target_of_other_company {s : State} (hinv : Inv s) (T T1 c : Nat)
    (cl : SSEClient) (hT : T1 ≠ T) (hcl : s.client? T1 c = some cl) :
    ¬ ∃ c0 cl0, s.client? T c0 = some cl0 ∧ cl0.Role = SuperAdmin ∧
        cl0.Channel = cl.Channel := by
  rintro ⟨c0, cl0, hcl0, _, hch⟩
  exact hT (hinv.inj T c0 cl0 T1 c cl hcl0 hcl hch).1.symm

/-- C11: in every reachable state, `BroadcastSaleEvent` for company `T` returns
normally and changes nothing but the contents of queues under `T`: the registry
(the registered pairs, their handles and roles) is the same; every channel keeps
its open or closed status and its capacity, and its contents stay the same or grow
by one message at the tail; the queue of every client registered under another
company is the same; hence each queue under `T` grows by at most one message. -/
theorem C11_broadcast_frame (s : State) (hs : Reachable s) (T : Nat) (e : SaleEvent) :
    ∃ s1, BroadcastSaleEvent s T e = .ok s1 ∧
      s1.clients = s.clients ∧
      (∀ T1 c, s1.client? T1 c = s.client? T1 c) ∧
      (∀ (a : Nat) (ch : Chan), s.heap[a]? = some ch →
        ∃ ch1, s1.heap[a]? = some ch1 ∧ ch1.closed = ch.closed ∧ ch1.cap = ch.cap ∧
          (ch1.buf = ch.buf ∨ ∃ m, ch1.buf = ch.buf ++ [m])) ∧
      (∀ T1 c cl, T1 ≠ T → s.client? T1 c = some cl →
        s1.queue cl.Channel = s.queue cl.Channel) ∧
      (∀ c cl, s.client? T c = some cl →
        s1.queue cl.Channel = s.queue cl.Channel ∨
          ∃ m, s1.queue cl.Channel = s.queue cl.Channel ++ [m]) := by
  have hinv := hs.inv
  obtain ⟨s1, hrun, hclients, hnone, hsome⟩ := hinv.broadcast T e
  have hchan : ∀ (a : Nat) (ch : Chan), s.heap[a]? = some ch →
      ∃ ch1, s1.heap[a]? = some ch1 ∧ ch1.closed = ch.closed ∧ ch1.cap = ch.cap ∧
        (ch1.buf = ch.buf ∨ ∃ m, ch1.buf = ch.buf ++ [m]) := by
    intro a ch hch
    cases hm : frameOf e with
    | none =>
      rw [hnone hm]
      exact ⟨ch, hch, rfl, rfl, Or.inl rfl⟩
    | some m =>
      by_cases hk : ∃ c cl, s.client? T c = some cl ∧ cl.Role = SuperAdmin ∧ cl.Channel = a
      · refine ⟨ch.push m, ?_, Chan.push_closed ch m, Chan.push_cap ch m, ?_⟩
        · rw [(hsome m hm a).1 hk, hch]; rfl
        · rcases Chan.push_buf ch m with h | h
          · exact Or.inl h
          · exact Or.inr ⟨m, h⟩
      · exact ⟨ch, by rw [(hsome m hm a).2 hk]; exact hch, rfl, rfl, Or.inl rfl⟩
  refine ⟨s1, hrun, hclients, ?_, hchan, ?_, ?_⟩
  · intro T1 c
    unfold State.client?
    rw [hclients]
  · intro T1 c cl hT hcl
    cases hm : frameOf e with
    | none => rw [hnone hm]
    | some m =>
      exact queue_congr s s1 cl.Channel
        ((hsome m hm cl.Channel).2 (hinv.not_target_of_other_company T T1 c cl hT hcl))
  · intro c cl hcl
    obtain ⟨ch, hch, _⟩ := hinv.isOpen T c cl hcl
    obtain ⟨ch1, hch1, _, _, hbuf⟩ := hchan cl.Channel ch hch
    unfold State.queue
    rw [hch, hch1]
    exact hbuf

/-- C11 at a concrete input: the event of sale 42 is broadcast to company 7, where
user 1 has a full queue and user 2 an empty one. -/
theorem C11_broadcast_frame_witness :
    Reachable fullQueue ∧
    ∃ s1, BroadcastSaleEvent fullQueue 7 saleEvent42 = .ok s1 ∧
      s1.clients = fullQueue.clients ∧
      (∀ T1 c cl, T1 ≠ 7 → fullQueue.client? T1 c = some cl →
        s1.queue cl.Channel = fullQueue.queue cl.Channel) := by
  have hr : Reachable fullQueue := ⟨fullQueueOps, rfl⟩
  obtain ⟨s1, hrun, hclients, _, _, hother, _⟩ := C11_broadcast_frame fullQueue hr 7 saleEvent42
  exact ⟨hr, s1, hrun, hclients, hother⟩

/-- C18: in every reachable state, `UnregisterClient` for the pair (company `T`,
user `c`) returns normally and leaves every other registered pair as it was: the
same handle (hence the same role) is stored for it, and its channel is the same
object as before, so its queue has the same contents and is still open. -/
theorem C18_unregister_frame (s : State) (hs : Reachable s) (c T : Nat) :
    ∃ s1, UnregisterClient s c T = .ok s1 ∧
      ∀ T1 c1 cl, ¬ (T1 = T ∧ c1 = c) → s.client? T1 c1 = some cl →
        s1.client? T1 c1 = some cl ∧
        s1.heap[cl.Channel]? = s.heap[cl.Channel]? ∧
        s1.queue cl.Channel = s.queue cl.Channel ∧
        ∃ ch, s1.heap[cl.Channel]? = some ch ∧ ch.closed = false := by
  have hinv := hs.inv
  obtain ⟨s1, hrun, hclient, hnone, hsome, _⟩ := hinv.unregister_spec c T
  refine ⟨s1, hrun, ?_⟩
  intro T1 c1 cl hne hcl
  obtain ⟨ch, hch, ho⟩ := hinv.isOpen T1 c1 cl hcl
  have hheap : s1.heap[cl.Channel]? = s.heap[cl.Channel]? := by
    cases hc : s.client? T c with
    | none => rw [hnone hc]
    | some cl0 =>
      obtain ⟨ch0, hch0, _, hheap⟩ := hsome cl0 hc
      have hne1 : cl.Channel ≠ cl0.Channel := by
        intro e
        exact hne (hinv.inj T1 c1 cl T c cl0 hcl hc e)
      rw [hheap, getElem?_set_chan s.heap cl0.Channel cl.Channel ch0 _ hch0, if_neg hne1]
  refine ⟨by rw [hclient, if_neg hne]; exact hcl, hheap, queue_congr s s1 cl.Channel hheap,
    ch, hheap.trans hch, ho⟩

/-- C18 at a concrete input: user 1 of company 7 unregisters while user 2 of the
same company stays. -/
theorem C18_unregister_frame_witness :
    Reachable fullQueue ∧ fullQueue.client? 7 2 = some ⟨2, 7, SuperAdmin, 1⟩ ∧
    ∃ s1, UnregisterClient fullQueue 1 7 = .ok s1 ∧
      s1.client? 7 2 = some ⟨2, 7, SuperAdmin, 1⟩ ∧
      ∃ ch, s1.heap[1]? = some ch ∧ ch.closed = false := by
  have hr : Reachable fullQueue := ⟨fullQueueOps, rfl⟩
  obtain ⟨s1, hrun, hframe⟩ := C18_unregister_frame fullQueue hr 1 7
  have h := hframe 7 2 ⟨2, 7, SuperAdmin, 1⟩ (by decide) (by decide)
  exact ⟨hr, by decide, s1, hrun, h.1, h.2.2.2⟩

/-! ## The end-to-end scenario and the wire format -/

/-- C12: from the empty registry, users 1 (A) and 2 (B) register as `super_admin`
and user 3 (C) with role `user` under company 7, and the event of sale 42 (quantity
3, total price 150, USD) is broadcast to company 7: the queues of A and B hold
exactly one frame each, the frame of the event, which contains `"saleId":42`; the
queue of C is empty.  Then A unregisters and a second event is broadcast to company
7: its frame is appended to the queue of B only; the queue A held and the queue of
C are as before. -/
theorem C12_end_to_end :
    run State.init scenarioOps = .ok (stateAfter scenarioOps) ∧
    (stateAfter scenarioOps).client? 7 1 = some ⟨1, 7, SuperAdmin, 0⟩ ∧
    (stateAfter scenarioOps).client? 7 2 = some ⟨2, 7, SuperAdmin, 1⟩ ∧
    (stateAfter scenarioOps).client? 7 3 = some ⟨3, 7, User, 2⟩ ∧
    frameOf saleEvent42 = some frame42 ∧
    frame42 = "data: \x7b\"type\":\"new_sale\"," ++ "\"saleId\":42" ++
      ",\"productName\":\"\",\"quantity\":3,\"totalPrice\":150,\"currency\":\"USD\",\"sellerName\":\"\",\"createdAt\":\"\"\x7d\n\n" ∧
    (stateAfter scenarioOps).queue 0 = [frame42] ∧
    (stateAfter scenarioOps).queue 1 = [frame42] ∧
    (stateAfter scenarioOps).queue 2 = [] ∧
    run (stateAfter scenarioOps) [.unregister 1 7, .broadcast 7 saleEvent43] =
      .ok (stateAfter scenarioOps2) ∧
    frameOf saleEvent43 = some frame43 ∧
    (stateAfter scenarioOps2).client? 7 1 = none ∧
    (stateAfter scenarioOps2).queue 1 = [frame42, frame43] ∧
    (stateAfter scenarioOps2).queue 0 = [frame42] ∧
    (stateAfter scenarioOps2).queue 2 = [] := by
  refine ⟨rfl, by decide, by decide, by decide, rfl, rfl, rfl, rfl, rfl, rfl, rfl, by decide,
    rfl, rfl, rfl⟩

/-- The encoding `jsonMarshal` builds is the JSON object of the members
`jsonFields`. -/
theorem jsonMarshal_eq_object (e : SaleEvent) (data : String)
    (h : jsonMarshal e = .ok data) :
    ∃ price, e.TotalPrice = .finite price ∧ data = jsonObject (jsonFields e price) := by
  unfold jsonMarshal at h
  cases hp : e.TotalPrice with
  | nan => simp [hp] at h
  | inf neg => cases neg <;> simp [hp] at h
  | finite price =>
    refine ⟨price, rfl, ?_⟩
    simp only [hp] at h
    have hd := (Except.ok.inj h).symm
    rw [hd]
    by_cases hb : e.BranchName = ""
    · simp [jsonObject, jsonFields, jsonMembers, jsonMember, hb, String.append_assoc]
    · simp [jsonObject, jsonFields, jsonMembers, jsonMember, hb, String.append_assoc]

theorem jsonFields_keys (e : SaleEvent) (price : String) :
    (jsonFields e price).map Prod.fst =
      ["type", "saleId", "productName", "quantity", "totalPrice", "currency", "sellerName"]
        ++ (if e.BranchName = "" then [] else ["branchName"]) ++ ["createdAt"] := by
  unfold jsonFields
  by_cases hb : e.BranchName = ""
  · simp [hb]
  · simp [hb]

/-- C14: in every reachable state a broadcast of the event `e` returns normally, and
every queue either stays as it was or gets one message at its tail, which is
exactly `data: `, the JSON encoding of `e`, and two newline characters, the same
bytes for every recipient.  The encoding is the JSON object with the members
`type`, `saleId`, `productName`, `quantity`, `totalPrice`, `currency`,
`sellerName`, then `branchName` exactly when the branch name is not empty, then
`createdAt`. -/
theorem C14_message_format (s : State) (hs : Reachable s) (T : Nat) (e : SaleEvent) :
    ∃ s1, BroadcastSaleEvent s T e = .ok s1 ∧
      (∀ a, s1.queue a = s.queue a ∨
        ∃ data, jsonMarshal e = .ok data ∧
          s1.queue a = s.queue a ++ ["data: " ++ data ++ "\n\n"]) ∧
      (∀ data, jsonMarshal e = .ok data →
        ∃ price, e.TotalPrice = .finite price ∧
          data = jsonObject (jsonFields e price) ∧
          (jsonFields e price).map Prod.fst =
            ["type", "saleId", "productName", "quantity", "totalPrice", "currency",
              "sellerName"]
            ++ (if e.BranchName = "" then [] else ["branchName"]) ++ ["createdAt"] ∧
          ("branchName" ∈ (jsonFields e price).map Prod.fst ↔ e.BranchName ≠ "")) := by
  have hinv := hs.inv
  obtain ⟨s1, hrun, _, hnone, hsome⟩ := hinv.broadcast T e
  refine ⟨s1, hrun, ?_, ?_⟩
  · intro a
    cases hm : frameOf e with
    | none => left; rw [hnone hm]
    | some m =>
      obtain ⟨data, hdata, hmd⟩ := frameOf_eq_some e m hm
      by_cases hk : ∃ c cl, s.client? T c = some cl ∧ cl.Role = SuperAdmin ∧ cl.Channel = a
      · have h1 := (hsome m hm a).1 hk
        cases hch : s.heap[a]? with
        | none =>
          left
          unfold State.queue
          rw [h1, hch]
          rfl
        | some ch =>
          have hq : s.queue a = ch.buf := by unfold State.queue; rw [hch]
          have hq1 : s1.queue a = (ch.push m).buf := by
            unfold State.queue
            rw [h1, hch]
            rfl
          rcases Chan.push_buf ch m with h | h
          · left; rw [hq1, hq, h]
          · right
            refine ⟨data, hdata, ?_⟩
            rw [hq1, hq, h, hmd]
            rfl
      · left
        exact queue_congr s s1 a ((hsome m hm a).2 hk)
  · intro data hdata
    obtain ⟨price, hprice, hobj⟩ := jsonMarshal_eq_object e data hdata
    refine ⟨price, hprice, hobj, jsonFields_keys e price, ?_⟩
    rw [jsonFields_keys]
    by_cases hb : e.BranchName = ""
    · simp [hb]
    · simp [hb]

/-- C14 at a concrete input: the event of sale 42 broadcast to company 7 with the
one `super_admin` client 1. -/
theorem C14_message_format_witness :
    Reachable oneAdmin ∧
    ∃ s1, BroadcastSaleEvent oneAdmin 7 saleEvent42 = .ok s1 ∧
      (∀ a, s1.queue a = oneAdmin.queue a ∨
        ∃ data, jsonMarshal saleEvent42 = .ok data ∧
          s1.queue a = oneAdmin.queue a ++ ["data: " ++ data ++ "\n\n"]) := by
  have hr : Reachable oneAdmin := ⟨[.register 1 7 SuperAdmin], rfl⟩
  obtain ⟨s1, hrun, hq, _⟩ := C14_message_format oneAdmin hr 7 saleEvent42
  exact ⟨hr, s1, hrun, hq⟩

/-! ## The event-stream endpoint -/

/-- What `salesEventsHandler` does, by the shape of its outcome: a rejection answers
401 or 403 and leaves the state alone; an acceptance happens only for a context
with a `uint` user id, a non-nil company id and the role `super_admin`, and is the
registration followed by the handshake. -/
theorem salesEventsHandler_cases (s : State) (ctx : Context) (handshakeOk : Bool) :
    (∃ resp, salesEventsHandler s ctx handshakeOk = (s, .rejected resp) ∧
      (resp.status = 401 ∨ resp.status = 403)) ∨
    (∃ u T, ctx.user_id = some (.uint u) ∧ ctx.company_id = some (.uintPtr (some T)) ∧
      ctx.role = some (.role SuperAdmin) ∧
      salesEventsHandler s ctx handshakeOk =
        ((RegisterClient s u T SuperAdmin).2,
          .streaming
            { userID := u, companyID := T, client := (RegisterClient s u T SuperAdmin).1,
              headers := sseHeaders, writes := [⟨handshake, handshakeOk⟩],
              notify := false, peerGone := false, helper := true, running := true })) := by
  obtain ⟨uid, cid, role⟩ := ctx
  cases uid with
  | none => left; exact ⟨_, rfl, Or.inl rfl⟩
  | some u =>
    cases u with
    | uintPtr p => left; exact ⟨_, rfl, Or.inl rfl⟩
    | role r => left; exact ⟨_, rfl, Or.inl rfl⟩
    | other => left; exact ⟨_, rfl, Or.inl rfl⟩
    | uint n =>
      cases cid with
      | none => left; exact ⟨_, rfl, Or.inl rfl⟩
      | some c =>
        cases c with
        | uint m => left; exact ⟨_, rfl, Or.inl rfl⟩
        | role r => left; exact ⟨_, rfl, Or.inl rfl⟩
        | other => left; exact ⟨_, rfl, Or.inl rfl⟩
        | uintPtr p =>
          cases p with
          | none => left; exact ⟨_, rfl, Or.inl rfl⟩
          | some T =>
            cases role with
            | none => left; exact ⟨_, rfl, Or.inl rfl⟩
            | some r =>
              cases r with
              | uint m => left; exact ⟨_, rfl, Or.inl rfl⟩
              | uintPtr q => left; exact ⟨_, rfl, Or.inl rfl⟩
              | other => left; exact ⟨_, rfl, Or.inl rfl⟩
              | role userRole =>
                by_cases hr : userRole = SuperAdmin
                · right
                  subst hr
                  exact ⟨n, T, rfl, rfl, rfl, by simp [salesEventsHandler]⟩
                · left
                  exact ⟨⟨403, "only super admins can subscribe to sale events"⟩,
                    by simp [salesEventsHandler, hr], Or.inr rfl⟩

/-- C13: `salesEventsHandler` answers 403 to every request whose context carries a
user id, a non-nil company id and a role other than `super_admin`; every request it
rejects is answered 401 or 403 with the registry unchanged; and a request it
accepts carries the role `super_admin`: the registry then changes by exactly one
`RegisterClient` of that user with that role, after the role check. -/
theorem C13_rejects_before_registering (s : State) (ctx : Context) (handshakeOk : Bool) :
    (∀ u T r, ctx.user_id = some (.uint u) → ctx.company_id = some (.uintPtr (some T)) →
      ctx.role = some (.role r) → r ≠ SuperAdmin →
      salesEventsHandler s ctx handshakeOk =
        (s, .rejected ⟨403, "only super admins can subscribe to sale events"⟩)) ∧
    (∀ resp, (salesEventsHandler s ctx handshakeOk).2 = .rejected resp →
      (resp.status = 401 ∨ resp.status = 403) ∧ (salesEventsHandler s ctx handshakeOk).1 = s) ∧
    (∀ conn, (salesEventsHandler s ctx handshakeOk).2 = .streaming conn →
      ctx.role = some (.role SuperAdmin) ∧ conn.client.Role = SuperAdmin ∧
      conn.client = (RegisterClient s conn.userID conn.companyID SuperAdmin).1 ∧
      (salesEventsHandler s ctx handshakeOk).1 =
        (RegisterClient s conn.userID conn.companyID SuperAdmin).2) := by
  refine ⟨?_, ?_, ?_⟩
  · intro u T r hu hT hr hne
    obtain ⟨uid, cid, role⟩ := ctx
    simp only at hu hT hr
    subst hu hT hr
    simp [salesEventsHandler, hne]
  · intro resp h
    rcases salesEventsHandler_cases s ctx handshakeOk with ⟨resp1, h1, hst⟩ | ⟨u, T, _, _, _, h1⟩
    · rw [h1] at h ⊢
      have : resp1 = resp := by simpa using h
      subst this
      exact ⟨hst, rfl⟩
    · rw [h1] at h
      simp at h
  · intro conn h
    rcases salesEventsHandler_cases s ctx handshakeOk with ⟨resp1, h1, _⟩ | ⟨u, T, _, _, hrole, h1⟩
    · rw [h1] at h
      simp at h
    · rw [h1] at h ⊢
      have hc := Outcome.streaming.inj h
      subst hc
      exact ⟨hrole, rfl, rfl, rfl⟩

/-- C13 at a concrete input: user 3 of company 7, with role `user`, asks for the
stream while user 1 is connected. -/
theorem C13_rejects_before_registering_witness :
    (contextOf 3 7 User).user_id = some (.uint 3) ∧
    (contextOf 3 7 User).company_id = some (.uintPtr (some 7)) ∧
    (contextOf 3 7 User).role = some (.role User) ∧ User ≠ SuperAdmin ∧
    salesEventsHandler oneAdmin (contextOf 3 7 User) true =
      (oneAdmin, .rejected ⟨403, "only super admins can subscribe to sale events"⟩) :=
  ⟨rfl, rfl, rfl, by decide,
    (C13_rejects_before_registering oneAdmin (contextOf 3 7 User) true).1 3 7 User rfl rfl rfl
      (by decide)⟩

/-- Whatever a connection step does, it keeps the identity and the handle of the
connection, only adds to the calls of `Write`, and adds none once the loop has
returned, which it never resumes. -/
theorem connStep_keeps {s s1 : State} {conn conn1 : Conn} {ev : ConnEvent}
    (h : connStep s conn ev = .ok (s1, conn1)) :
    conn1.userID = conn.userID ∧ conn1.companyID = conn.companyID ∧
    conn1.client = conn.client ∧
    (∃ more, conn1.writes = conn.writes ++ more) ∧
    (conn.running = false → conn1.running = false ∧ conn1.writes = conn.writes) := by
  cases ev with
  | peerClose =>
    simp only [connStep] at h
    by_cases hg : conn.peerGone = true
    · simp only [hg, if_true] at h
      obtain ⟨_, rfl⟩ := Prod.mk.inj (Except.ok.inj h)
      exact ⟨rfl, rfl, rfl, ⟨[], by simp⟩, fun hr => ⟨hr, rfl⟩⟩
    · simp only [hg, if_false] at h
      obtain ⟨_, rfl⟩ := Prod.mk.inj (Except.ok.inj h)
      exact ⟨rfl, rfl, rfl, ⟨[], by simp⟩, fun hr => ⟨hr, rfl⟩⟩
  | helper =>
    simp only [connStep] at h
    by_cases hg : conn.helper = true ∧ conn.notify = true
    · simp only [hg, and_self, if_true] at h
      cases hu : UnregisterClient s conn.userID conn.companyID with
      | error p => simp [hu] at h
      | ok s2 =>
        simp only [hu] at h
        obtain ⟨_, rfl⟩ := Prod.mk.inj (Except.ok.inj h)
        exact ⟨rfl, rfl, rfl, ⟨[], by simp⟩, fun hr => ⟨hr, rfl⟩⟩
    · simp only [hg, if_false] at h
      obtain ⟨_, rfl⟩ := Prod.mk.inj (Except.ok.inj h)
      exact ⟨rfl, rfl, rfl, ⟨[], by simp⟩, fun hr => ⟨hr, rfl⟩⟩
  | notify =>
    simp only [connStep] at h
    by_cases hg : conn.running = true ∧ conn.notify = true
    · simp only [hg, and_self, if_true] at h
      cases hu : UnregisterClient s conn.userID conn.companyID with
      | error p => simp [hu] at h
      | ok s2 =>
        simp only [hu] at h
        obtain ⟨_, rfl⟩ := Prod.mk.inj (Except.ok.inj h)
        exact ⟨rfl, rfl, rfl, ⟨[], by simp⟩, fun hr => ⟨rfl, rfl⟩⟩
    · simp only [hg, if_false] at h
      obtain ⟨_, rfl⟩ := Prod.mk.inj (Except.ok.inj h)
      exact ⟨rfl, rfl, rfl, ⟨[], by simp⟩, fun hr => ⟨hr, rfl⟩⟩
  | message writeOk =>
    simp only [connStep] at h
    by_cases hg : conn.running = true
    · simp only [hg, if_true] at h
      have hnot : ¬ conn.running = false := by simp [hg]
      cases hrecv : chanRecv s.heap conn.client.Channel with
      | none =>
        simp only [hrecv] at h
        obtain ⟨_, rfl⟩ := Prod.mk.inj (Except.ok.inj h)
        exact ⟨rfl, rfl, rfl, ⟨[], by simp⟩, fun hr => ⟨hr, rfl⟩⟩
      | some r =>
        obtain ⟨m, heap⟩ := r
        simp only [hrecv] at h
        cases writeOk with
        | true =>
          simp only [if_true] at h
          obtain ⟨_, rfl⟩ := Prod.mk.inj (Except.ok.inj h)
          exact ⟨rfl, rfl, rfl, ⟨_, rfl⟩, fun hr => absurd hr hnot⟩
        | false =>
          simp only [Bool.false_eq_true, if_false] at h
          cases hu : UnregisterClient { s with heap := heap } conn.userID conn.companyID with
          | error p => simp [hu] at h
          | ok s2 =>
            simp only [hu] at h
            obtain ⟨_, rfl⟩ := Prod.mk.inj (Except.ok.inj h)
            exact ⟨rfl, rfl, rfl, ⟨_, rfl⟩, fun hr => absurd hr hnot⟩
    · simp only [hg, if_false] at h
      obtain ⟨_, rfl⟩ := Prod.mk.inj (Except.ok.inj h)
      exact ⟨rfl, rfl, rfl, ⟨[], by simp⟩, fun hr => ⟨hr, rfl⟩⟩

/-- Along any sequence of actions the calls of `Write` of a connection only grow at
the end, and not at all once its loop has returned. -/
theorem actRun_keeps (acts : List Action) :
    ∀ (s s1 : State) (conn conn1 : Conn), actRun s conn acts = .ok (s1, conn1) →
      (∃ more, conn1.writes = conn.writes ++ more) ∧
      (conn.running = false → conn1.running = false ∧ conn1.writes = conn.writes) := by
  induction acts with
  | nil =>
    intro s s1 conn conn1 h
    obtain ⟨_, rfl⟩ := Prod.mk.inj (Except.ok.inj h)
    exact ⟨⟨[], by simp⟩, fun hr => ⟨hr, rfl⟩⟩
  | cons act acts ih =>
    intro s s1 conn conn1 h
    cases act with
    | own ev =>
      simp only [actRun] at h
      cases hstep : connStep s conn ev with
      | error p => simp [hstep] at h
      | ok r =>
        obtain ⟨s2, conn2⟩ := r
        simp only [hstep] at h
        obtain ⟨_, _, _, ⟨more, hmore⟩, hclosed⟩ := connStep_keeps hstep
        obtain ⟨⟨more1, hmore1⟩, hclosed1⟩ := ih s2 s1 conn2 conn1 h
        refine ⟨⟨more ++ more1, by rw [hmore1, hmore, List.append_assoc]⟩, ?_⟩
        intro hr
        obtain ⟨hr2, hw2⟩ := hclosed hr
        obtain ⟨hr1, hw1⟩ := hclosed1 hr2
        exact ⟨hr1, hw1.trans hw2⟩
    | other op =>
      simp only [actRun] at h
      cases hstep : step s op with
      | error p => simp [hstep] at h
      | ok s2 =>
        simp only [hstep] at h
        exact ih s2 s1 conn conn1 h

/-- C15: for every connection `salesEventsHandler` accepts, the first call of `Write`
is the handshake frame `data: {"type":"connected"}` with two newlines; it is made
with the handle `RegisterClient` has returned, in the state `RegisterClient` has
left, where the new queue is still empty; and whatever actions follow, on this
connection or elsewhere, every message relayed comes after it in the calls of
`Write`.  When the write of the handshake succeeds, those are the first bytes on
the transport. -/
theorem C15_handshake_first (s : State) (ctx : Context) (handshakeOk : Bool) (conn : Conn)
    (h : (salesEventsHandler s ctx handshakeOk).2 = .streaming conn) :
    handshake = "data: \x7b\"type\":\"connected\"\x7d\n\n" ∧
    conn.writes = [⟨handshake, handshakeOk⟩] ∧
    conn.client = (RegisterClient s conn.userID conn.companyID SuperAdmin).1 ∧
    (salesEventsHandler s ctx handshakeOk).1 =
      (RegisterClient s conn.userID conn.companyID SuperAdmin).2 ∧
    (salesEventsHandler s ctx handshakeOk).1.queue conn.client.Channel = [] ∧
    (∀ acts s1 conn1, actRun (salesEventsHandler s ctx handshakeOk).1 conn acts = .ok (s1, conn1) →
      ∃ later, conn1.writes = ⟨handshake, handshakeOk⟩ :: later ∧
        (handshakeOk = true →
          ((conn1.writes.filter (fun w => w.ok)).map (fun w => w.data)).head? =
            some handshake)) := by
  rcases salesEventsHandler_cases s ctx handshakeOk with ⟨resp1, h1, _⟩ | ⟨u, T, _, _, _, h1⟩
  · rw [h1] at h
    simp at h
  · rw [h1] at h ⊢
    have hc := Outcome.streaming.inj h
    subst hc
    refine ⟨by decide, rfl, rfl, rfl, ?_, ?_⟩
    · unfold State.queue
      rw [RegisterClient_heap, RegisterClient_fst, getElem?_snoc]
      simp [makeChan]
    · intro acts s1 conn1 hrun
      obtain ⟨⟨more, hmore⟩, _⟩ := actRun_keeps acts _ _ _ _ hrun
      refine ⟨more, by rw [hmore]; rfl, ?_⟩
      intro hok
      rw [hmore]
      simp [hok]

/-- C15 at a concrete input: user 1 of company 7, a `super_admin`, opens the stream in
the initial registry; an event is broadcast and relayed. -/
theorem C15_handshake_first_witness :
    (salesEventsHandler State.init (contextOf 1 7 SuperAdmin) true).2 =
      .streaming (connOf (salesEventsHandler State.init (contextOf 1 7 SuperAdmin) true)) ∧
    (connOf (salesEventsHandler State.init (contextOf 1 7 SuperAdmin) true)).writes =
      [⟨handshake, true⟩] ∧
    (actAfter (salesEventsHandler State.init (contextOf 1 7 SuperAdmin) true).1
      (connOf (salesEventsHandler State.init (contextOf 1 7 SuperAdmin) true))
      [.other (.broadcast 7 saleEvent42), .own (.message true)]).2.writes =
      [⟨handshake, true⟩, ⟨frame42, true⟩] :=
  ⟨rfl,
    (C15_handshake_first State.init (contextOf 1 7 SuperAdmin) true
      (connOf (salesEventsHandler State.init (contextOf 1 7 SuperAdmin) true)) rfl).2.1,
    rfl⟩

/-- On a closed and drained queue the receive of line 339 yields the zero value at
once; the loop writes no bytes, which succeeds, and goes round again. -/
theorem connStep_closed_drained (s : State) (conn : Conn) (ch : Chan)
    (hch : s.heap[conn.client.Channel]? = some ch) (hc : ch.closed = true) (hb : ch.buf = [])
    (hr : conn.running = true) :
    connStep s conn (.message true) =
      .ok (s, { conn with writes := conn.writes ++ [⟨"", true⟩] }) := by
  have hrecv : chanRecv s.heap conn.client.Channel = some ("", s.heap) := by
    simp [chanRecv, hch, hb, hc]
  simp only [connStep, hr, if_true, hrecv]

theorem actRun_closed_drained (s : State) (ch : Chan) (n : Nat) :
    ∀ conn : Conn, s.heap[conn.client.Channel]? = some ch → ch.closed = true → ch.buf = [] →
      conn.running = true →
      actRun s conn (List.replicate n (.own (.message true))) =
        .ok (s, { conn with writes := conn.writes ++ List.replicate n ⟨"", true⟩ }) := by
  induction n with
  | zero =>
    intro conn _ _ _ _
    simp [actRun]
  | succ n ih =>
    intro conn hch hc hb hr
    simp only [List.replicate_succ, actRun, connStep_closed_drained s conn ch hch hc hb hr]
    rw [ih { conn with writes := conn.writes ++ [⟨"", true⟩] } hch hc hb hr]
    simp

/-- C16 fails on the code.  User 1 of company 7 has an open stream; its peer closes
the connection and the goroutine of lines 331-334 receives the one notification and
calls `UnregisterClient`, which closes the queue.  The loop is still running, its
arm `case <-notify` can no longer fire, and its arm `case message := <-client.Channel`
fires on the closed queue every time: for every `n`, after `n` more iterations the
loop has made `n` writes of no bytes and is still running.  The same happens to a
second connection of the same user, on a healthy transport, once the teardown of
the first has closed its queue. -/
theorem C16_closed_queue_loop_spins (n : Nat) :
    firstConn.2 = .streaming (connOf firstConn) ∧
    actRun firstConn.1 (connOf firstConn) [.own .peerClose, .own .helper] = .ok afterHelper ∧
    afterHelper.1.client? 7 1 = none ∧
    afterHelper.1.heap[(connOf firstConn).client.Channel]? = some ⟨[], 10, true⟩ ∧
    afterHelper.2.running = true ∧
    connStep afterHelper.1 afterHelper.2 .notify = .ok afterHelper ∧
    actRun afterHelper.1 afterHelper.2 (List.replicate n (.own (.message true))) =
      .ok (afterHelper.1,
        { afterHelper.2 with
          writes := afterHelper.2.writes ++ List.replicate n ⟨"", true⟩ }) ∧
    ({ afterHelper.2 with
        writes := afterHelper.2.writes ++ List.replicate n ⟨"", true⟩ } : Conn).running = true ∧
    afterFirstGone.1.heap[(connOf secondConn).client.Channel]? = some ⟨[], 10, true⟩ ∧
    actRun afterFirstGone.1 (connOf secondConn) (List.replicate n (.own (.message true))) =
      .ok (afterFirstGone.1,
        { connOf secondConn with
          writes := (connOf secondConn).writes ++ List.replicate n ⟨"", true⟩ }) ∧
    ({ connOf secondConn with
        writes := (connOf secondConn).writes ++ List.replicate n ⟨"", true⟩ } : Conn).running =
      true := by
  refine ⟨rfl, rfl, by decide, by decide, rfl, rfl, ?_, rfl, by decide, ?_, rfl⟩
  · exact actRun_closed_drained afterHelper.1 ⟨[], 10, true⟩ n afterHelper.2 (by decide) rfl rfl
      rfl
  · exact actRun_closed_drained afterFirstGone.1 ⟨[], 10, true⟩ n (connOf secondConn)
      (by decide) rfl rfl rfl

/-- Once the one value of `CloseNotify` has been taken from the channel, no step of
the connection in which no `Write` fails ends its loop: the arm `case <-notify` has
nothing left to receive, and the arm `case message := <-client.Channel` goes round
again. -/
theorem connStep_signal_taken {s : State} (hinv : Inv s) (conn : Conn) (ev : ConnEvent)
    (hr : conn.running = true) (hn : conn.notify = false) (hg : conn.peerGone = true)
    (hev : ev ≠ .message false) :
    ∃ s1 conn1, connStep s conn ev = .ok (s1, conn1) ∧ Inv s1 ∧
      conn1.running = true ∧ conn1.notify = false ∧ conn1.peerGone = true := by
  cases ev with
  | peerClose => exact ⟨s, conn, by simp [connStep, hg], hinv, hr, hn, hg⟩
  | helper => exact ⟨s, conn, by simp [connStep, hn], hinv, hr, hn, hg⟩
  | notify => exact ⟨s, conn, by simp [connStep, hn], hinv, hr, hn, hg⟩
  | message b =>
    cases b with
    | false => exact absurd rfl hev
    | true =>
      cases hrecv : chanRecv s.heap conn.client.Channel with
      | none => exact ⟨s, conn, by simp only [connStep, hr, if_true, hrecv], hinv, hr, hn, hg⟩
      | some r =>
        obtain ⟨m, heap⟩ := r
        have hdq : (pumpDequeue s conn.client []).1 = { s with heap := heap } := by
          simp [pumpDequeue, hrecv]
        refine ⟨{ s with heap := heap }, { conn with writes := conn.writes ++ [⟨m, true⟩] },
          by simp only [connStep, hr, if_true, hrecv], ?_, hr, hn, hg⟩
        rw [← hdq]
        exact hinv.dequeue conn.client []

theorem actRun_signal_taken (acts : List Action) :
    (∀ a ∈ acts, a ≠ .own (.message false)) →
    ∀ (s : State) (conn : Conn), Inv s → conn.running = true → conn.notify = false →
      conn.peerGone = true →
      ∃ s1 conn1, actRun s conn acts = .ok (s1, conn1) ∧ conn1.running = true ∧
        conn1.notify = false := by
  induction acts with
  | nil =>
    intro _ s conn _ hr hn _
    exact ⟨s, conn, rfl, hr, hn⟩
  | cons act acts ih =>
    intro hacts s conn hinv hr hn hg
    have hrest : ∀ a ∈ acts, a ≠ .own (.message false) :=
      fun a ha => hacts a (List.mem_cons_of_mem _ ha)
    cases act with
    | own ev =>
      have hev : ev ≠ .message false := by
        intro h
        exact hacts (.own ev) (List.mem_cons_self _ _) (by rw [h])
      obtain ⟨s1, conn1, hstep, hinv1, hr1, hn1, hg1⟩ :=
        connStep_signal_taken hinv conn ev hr hn hg hev
      obtain ⟨s2, conn2, hrun, hr2, hn2⟩ := ih hrest s1 conn1 hinv1 hr1 hn1 hg1
      exact ⟨s2, conn2, by simp only [actRun, hstep]; exact hrun, hr2, hn2⟩
    | other op =>
      obtain ⟨s1, hstep⟩ := hinv.step_ok op
      obtain ⟨s2, conn2, hrun, hr2, hn2⟩ :=
        ih hrest s1 conn (hinv.step_inv op hstep) hr hn hg
      exact ⟨s2, conn2, by simp only [actRun, hstep]; exact hrun, hr2, hn2⟩

/-- On a closed queue the receive of line 339 never blocks: every iteration of the
loop whose `Write` succeeds makes one more call of `Write` and goes round again. -/
theorem actRun_closed_writes (n : Nat) :
    ∀ (s : State) (conn : Conn) (ch : Chan), s.heap[conn.client.Channel]? = some ch →
      ch.closed = true → conn.running = true →
      ∃ s1 conn1, actRun s conn (List.replicate n (.own (.message true))) = .ok (s1, conn1) ∧
        conn1.running = true ∧ conn1.writes.length = conn.writes.length + n := by
  induction n with
  | zero =>
    intro s conn _ _ _ hr
    exact ⟨s, conn, rfl, hr, rfl⟩
  | succ n ih =>
    intro s conn ch hch hc hr
    cases hb : ch.buf with
    | nil =>
      have hrecv : chanRecv s.heap conn.client.Channel = some ("", s.heap) := by
        simp [chanRecv, hch, hb, hc]
      obtain ⟨s2, conn2, hrun, hr2, hw2⟩ :=
        ih s { conn with writes := conn.writes ++ [⟨"", true⟩] } ch hch hc hr
      have hstep : connStep s conn (.message true) =
          .ok (s, { conn with writes := conn.writes ++ [⟨"", true⟩] }) := by
        simp only [connStep, hr, if_true, hrecv]
      refine ⟨s2, conn2, ?_, hr2, ?_⟩
      · simp only [List.replicate_succ, actRun, hstep]
        exact hrun
      · rw [hw2]
        simp only [List.length_append, List.length_singleton]
        omega
    | cons m rest =>
      have hrecv : chanRecv s.heap conn.client.Channel =
          some (m, s.heap.set conn.client.Channel { ch with buf := rest }) := by
        simp [chanRecv, hch, hb]
      have hch1 : ({ s with heap := s.heap.set conn.client.Channel { ch with buf := rest } } :
          State).heap[conn.client.Channel]? = some { ch with buf := rest } := by
        rw [getElem?_set_chan s.heap conn.client.Channel conn.client.Channel ch _ hch, if_pos rfl]
      obtain ⟨s2, conn2, hrun, hr2, hw2⟩ :=
        ih { s with heap := s.heap.set conn.client.Channel { ch with buf := rest } }
          { conn with writes := conn.writes ++ [⟨m, true⟩] } { ch with buf := rest } hch1 hc hr
      have hstep : connStep s conn (.message true) =
          .ok ({ s with heap := s.heap.set conn.client.Channel { ch with buf := rest } },
            { conn with writes := conn.writes ++ [⟨m, true⟩] }) := by
        simp only [connStep, hr, if_true, hrecv]
      refine ⟨s2, conn2, ?_, hr2, ?_⟩
      · simp only [List.replicate_succ, actRun, hstep]
        exact hrun
      · rw [hw2]
        simp only [List.length_append, List.length_singleton]
        omega

/-- C17 fails on the code for the peer-close signal.  What holds, in every reachable
state, for a connection whose loop is running: when the arm
`case message := <-client.Channel` is taken and the `Write` fails, the loop calls
`UnregisterClient` for the pair of the connection, which returns normally, and
returns; when the loop itself takes the arm `case <-notify`, the same; and once the
loop has returned, the connection makes no further call of `Write`.  What fails: the
loop shares the one value of `CloseNotify` with the goroutine of lines 331-334.  When
the peer closes a fresh connection and that goroutine receives the value, it is the
goroutine that calls `UnregisterClient` for the pair, and the loop has not returned;
from then on, whatever actions follow on the connection or elsewhere in which no
`Write` fails, the loop is still running; and when the connection holds the handle
stored for its pair, so that its queue is now closed, `n` further iterations make
`n` further calls of `Write`, after the peer-close signal, for every `n`. -/
theorem C17_peer_close_signal_lost (s : State) (hs : Reachable s) (conn : Conn)
    (hrun : conn.running = true) :
    (∀ m heap, chanRecv s.heap conn.client.Channel = some (m, heap) →
      ∃ s1, UnregisterClient { s with heap := heap } conn.userID conn.companyID = .ok s1 ∧
        connStep s conn (.message false) =
          .ok (s1, { conn with writes := conn.writes ++ [⟨m, false⟩], running := false })) ∧
    (conn.notify = true →
      ∃ s1, UnregisterClient s conn.userID conn.companyID = .ok s1 ∧
        connStep s conn .notify = .ok (s1, { conn with notify := false, running := false })) ∧
    (∀ (s2 : State) (closed : Conn), closed.running = false →
      ∀ acts s3 conn3, actRun s2 closed acts = .ok (s3, conn3) →
        conn3.writes = closed.writes ∧ conn3.running = false) ∧
    (conn.helper = true → conn.notify = false → conn.peerGone = false →
      ∃ s1 conn1, UnregisterClient s conn.userID conn.companyID = .ok s1 ∧
        conn1 = { conn with peerGone := true, notify := false, helper := false } ∧
        actRun s conn [.own .peerClose, .own .helper] = .ok (s1, conn1) ∧
        conn1.running = true ∧ conn1.writes = conn.writes ∧
        connStep s1 conn1 .notify = .ok (s1, conn1) ∧
        (∀ acts : List Action, (∀ a ∈ acts, a ≠ .own (.message false)) →
          ∃ s3 conn3, actRun s1 conn1 acts = .ok (s3, conn3) ∧ conn3.running = true) ∧
        (s.client? conn.companyID conn.userID = some conn.client →
          ∀ n : Nat, ∃ s3 conn3,
            actRun s1 conn1 (List.replicate n (.own (.message true))) = .ok (s3, conn3) ∧
            conn3.running = true ∧ conn3.writes.length = conn.writes.length + n)) := by
  have hinv := hs.inv
  refine ⟨?_, ?_, ?_, ?_⟩
  · intro m heap hrecv
    have hdq : (pumpDequeue s conn.client []).1 = { s with heap := heap } := by
      simp [pumpDequeue, hrecv]
    have hinv1 : Inv { s with heap := heap } := by
      rw [← hdq]
      exact hinv.dequeue conn.client []
    obtain ⟨s1, h1, _⟩ := hinv1.unregister_spec conn.userID conn.companyID
    refine ⟨s1, h1, ?_⟩
    simp only [connStep, hrun, if_true, hrecv, Bool.false_eq_true, if_false, h1]
  · intro hn
    obtain ⟨s1, h1, _⟩ := hinv.unregister_spec conn.userID conn.companyID
    refine ⟨s1, h1, ?_⟩
    simp only [connStep, hrun, hn, and_self, if_true, h1]
  · intro s2 closed hc acts s3 conn3 h
    obtain ⟨_, hclosed⟩ := actRun_keeps acts s2 s3 closed conn3 h
    obtain ⟨hr, hw⟩ := hclosed hc
    exact ⟨hw, hr⟩
  · intro hh hn hg
    obtain ⟨s1, h1, _, _, hclose, _⟩ := hinv.unregister_spec conn.userID conn.companyID
    have hinv1 : Inv s1 := hinv.unregister conn.userID conn.companyID h1
    refine ⟨s1, { conn with peerGone := true, notify := false, helper := false }, h1, rfl, ?_,
      hrun, rfl, ?_, ?_, ?_⟩
    · simp only [actRun, connStep, hg, Bool.false_eq_true, if_false, hh, and_self, if_true, h1]
    · simp [connStep]
    · intro acts hacts
      obtain ⟨s3, conn3, h3, hr3, _⟩ :=
        actRun_signal_taken acts hacts s1
          { conn with peerGone := true, notify := false, helper := false } hinv1 hrun rfl rfl
      exact ⟨s3, conn3, h3, hr3⟩
    · intro hcl n
      obtain ⟨ch, hch, _, hheap⟩ := hclose conn.client hcl
      have hch1 : s1.heap[conn.client.Channel]? = some { ch with closed := true } := by
        rw [hheap, getElem?_set_chan s.heap conn.client.Channel conn.client.Channel ch _ hch,
          if_pos rfl]
      exact actRun_closed_writes n s1
        { conn with peerGone := true, notify := false, helper := false }
        { ch with closed := true } hch1 rfl hrun

/-- C17 at a concrete input: the stream of user 1 of company 7 has the frame of sale
42 waiting when its peer closes it and the goroutine of lines 331-334 takes the
notification.  The loop then writes that frame, writes no bytes on the next
iteration, and is still running. -/
theorem C17_peer_close_signal_lost_witness :
    Reachable (stateAfter [.register 1 7 SuperAdmin, .broadcast 7 saleEvent42]) ∧
    (connOf firstConn).running = true ∧
    (actAfter (stateAfter [.register 1 7 SuperAdmin, .broadcast 7 saleEvent42])
      (connOf firstConn)
      [.own .peerClose, .own .helper, .own (.message true), .own (.message true)]).2.writes =
      [⟨handshake, true⟩, ⟨frame42, true⟩, ⟨"", true⟩] ∧
    (actAfter (stateAfter [.register 1 7 SuperAdmin, .broadcast 7 saleEvent42])
      (connOf firstConn)
      [.own .peerClose, .own .helper, .own (.message true), .own (.message true)]).2.running =
      true ∧
    (actAfter (stateAfter [.register 1 7 SuperAdmin, .broadcast 7 saleEvent42])
      (connOf firstConn)
      [.own .peerClose, .own .helper, .own (.message true),
        .own (.message true)]).1.client? 7 1 = none ∧
    ∃ s1 conn1,
      actRun (stateAfter [.register 1 7 SuperAdmin, .broadcast 7 saleEvent42])
        (connOf firstConn) [.own .peerClose, .own .helper] = .ok (s1, conn1) ∧
      conn1.running = true ∧
      ∀ n : Nat, ∃ s3 conn3,
        actRun s1 conn1 (List.replicate n (.own (.message true))) = .ok (s3, conn3) ∧
        conn3.running = true ∧ conn3.writes.length = (connOf firstConn).writes.length + n := by
  have hr : Reachable (stateAfter [.register 1 7 SuperAdmin, .broadcast 7 saleEvent42]) :=
    ⟨[.register 1 7 SuperAdmin, .broadcast 7 saleEvent42], rfl⟩
  obtain ⟨s1, conn1, _, _, hact, hrun1, _, _, _, hwrites⟩ :=
    (C17_peer_close_signal_lost _ hr (connOf firstConn) rfl).2.2.2 rfl rfl rfl
  exact ⟨hr, rfl, rfl, rfl, by decide, s1, conn1, hact, hrun1, hwrites (by decide)⟩

/-! ## Failures and other connections -/

/-- Under the invariant `UnregisterClient` never panics, keeps the invariant, and
leaves the handle and the channel of every other registered pair as they were. -/
theorem Inv.unregister_other {s : State} (hinv : Inv s) (c T : Nat) :
    ∃ s1, UnregisterClient s c T = .ok s1 ∧ Inv s1 ∧
      ∀ T1 c1 cl, ¬ (T1 = T ∧ c1 = c) → s.client? T1 c1 = some cl →
        s1.client? T1 c1 = some cl ∧ s1.heap[cl.Channel]? = s.heap[cl.Channel]? := by
  obtain ⟨s1, hrun, hclient, hnone, hsome, _⟩ := hinv.unregister_spec c T
  refine ⟨s1, hrun, hinv.unregister c T hrun, ?_⟩
  intro T1 c1 cl hne hcl
  refine ⟨by rw [hclient, if_neg hne]; exact hcl, ?_⟩
  cases hc : s.client? T c with
  | none => rw [hnone hc]
  | some cl0 =>
    obtain ⟨ch0, hch0, _, hheap⟩ := hsome cl0 hc
    have hne1 : cl.Channel ≠ cl0.Channel := by
      intro e
      exact hne (hinv.inj T1 c1 cl T c cl0 hcl hc e)
    rw [hheap, getElem?_set_chan s.heap cl0.Channel cl.Channel ch0 _ hch0, if_neg hne1]

/-- Under the invariant a broadcast is delivered to every `super_admin` client of the
company whose queue has room. -/
theorem Inv.broadcast_delivers {s : State} (hinv : Inv s) (T c : Nat) (cl : SSEClient)
    (e : SaleEvent) (m : Frame) (hcl : s.client? T c = some cl) (hr : cl.Role = SuperAdmin)
    (hlen : (s.queue cl.Channel).length < 10) (hm : frameOf e = some m) :
    ∃ s1, BroadcastSaleEvent s T e = .ok s1 ∧
      s1.queue cl.Channel = s.queue cl.Channel ++ [m] := by
  obtain ⟨s1, hrun, _, _, hsome⟩ := hinv.broadcast T e
  refine ⟨s1, hrun, ?_⟩
  have hk : ∃ c cl1, s.client? T c = some cl1 ∧ cl1.Role = SuperAdmin ∧
      cl1.Channel = cl.Channel := ⟨c, cl, hcl, hr, rfl⟩
  have h1 := (hsome m hm cl.Channel).1 hk
  obtain ⟨ch, hch, _⟩ := hinv.isOpen T c cl hcl
  rw [queue_of_push s s1 cl.Channel m ch h1 hch (hinv.bounded _ ch hch).1, if_pos hlen]

/-- Any step of a connection, seen from the registration of another pair that holds
another queue: no panic, the invariant is kept, and that registration and its
channel are as before. -/
theorem Inv.connStep_other {s : State} (hinv : Inv s) (conn : Conn) (T2 c2 : Nat)
    (cl2 : SSEClient) (hpair : ¬ (T2 = conn.companyID ∧ c2 = conn.userID))
    (hcl2 : s.client? T2 c2 = some cl2) (hch : conn.client.Channel ≠ cl2.Channel)
    (ev : ConnEvent) :
    ∃ s1 conn1, connStep s conn ev = .ok (s1, conn1) ∧ Inv s1 ∧
      s1.client? T2 c2 = some cl2 ∧ s1.heap[cl2.Channel]? = s.heap[cl2.Channel]? := by
  obtain ⟨su, hu, hinvu, hother⟩ := hinv.unregister_other conn.userID conn.companyID
  have hu2 := hother T2 c2 cl2 hpair hcl2
  cases ev with
  | peerClose =>
    by_cases hg : conn.peerGone = true
    · exact ⟨s, conn, by simp [connStep, hg], hinv, hcl2, rfl⟩
    · exact ⟨s, _, by simp only [connStep, hg, if_false]; rfl, hinv, hcl2, rfl⟩
  | helper =>
    by_cases hg : conn.helper = true ∧ conn.notify = true
    · exact ⟨su, _, by simp only [connStep, hg, and_self, if_true, hu]; rfl, hinvu, hu2.1, hu2.2⟩
    · exact ⟨s, conn, by simp only [connStep, hg, if_false], hinv, hcl2, rfl⟩
  | notify =>
    by_cases hg : conn.running = true ∧ conn.notify = true
    · exact ⟨su, _, by simp only [connStep, hg, and_self, if_true, hu]; rfl, hinvu, hu2.1, hu2.2⟩
    · exact ⟨s, conn, by simp only [connStep, hg, if_false], hinv, hcl2, rfl⟩
  | message writeOk =>
    by_cases hg : conn.running = true
    · cases hrecv : chanRecv s.heap conn.client.Channel with
      | none => exact ⟨s, conn, by simp only [connStep, hg, if_true, hrecv], hinv, hcl2, rfl⟩
      | some r =>
        obtain ⟨m, heap⟩ := r
        have hdq : (pumpDequeue s conn.client []).1 = { s with heap := heap } := by
          simp [pumpDequeue, hrecv]
        have hinv1 : Inv { s with heap := heap } := by
          rw [← hdq]
          exact hinv.dequeue conn.client []
        have hheap : heap[cl2.Channel]? = s.heap[cl2.Channel]? := by
          obtain ⟨ch, hch0, hcase⟩ := chanRecv_spec _ _ _ _ hrecv
          rcases hcase with ⟨_, rfl⟩ | ⟨_, _, _, rfl⟩
          · rw [getElem?_set_chan s.heap conn.client.Channel cl2.Channel ch _ hch0,
              if_neg (fun e => hch e.symm)]
          · rfl
        have hcl2a : State.client? { s with heap := heap } T2 c2 = some cl2 := hcl2
        cases writeOk with
        | true =>
          exact ⟨{ s with heap := heap }, _,
            by simp only [connStep, hg, if_true, hrecv]; rfl, hinv1, hcl2a, hheap⟩
        | false =>
          obtain ⟨s1, h1, hinv2, hother1⟩ :=
            hinv1.unregister_other conn.userID conn.companyID
          have h2 := hother1 T2 c2 cl2 hpair hcl2a
          exact ⟨s1, _,
            by simp only [connStep, hg, if_true, hrecv, Bool.false_eq_true, if_false, h1]; rfl,
            hinv2, h2.1, h2.2.trans hheap⟩
    · exact ⟨s, conn, by simp [connStep, hg], hinv, hcl2, rfl⟩

/-- C19, as stated, fails: user 1 of company 7 opens a stream (connection 1) and then
a second one (connection 2), which replaces the first in the registry; the peer of
connection 1 closes it and its loop calls `UnregisterClient(1, 7)`.  That removes
the registration of connection 2 and closes the queue of connection 2, and a later
broadcast to company 7 reaches no one. -/
theorem C19_counterexample :
    firstConn.2 = .streaming (connOf firstConn) ∧
    secondConn.2 = .streaming (connOf secondConn) ∧
    secondConn.1.client? 7 1 = some (connOf secondConn).client ∧
    (connOf secondConn).client.Channel = 1 ∧
    actRun secondConn.1 (connOf firstConn) [.own .peerClose, .own .notify] =
      .ok afterFirstGone ∧
    afterFirstGone.1.client? 7 1 = none ∧
    afterFirstGone.1.heap[1]? = some ⟨[], 10, true⟩ ∧
    BroadcastSaleEvent afterFirstGone.1 7 saleEvent42 = .ok afterFirstGone.1 ∧
    afterFirstGone.1.queue 1 = [] := by
  refine ⟨rfl, rfl, by decide, by decide, rfl, by decide, by decide, rfl, by decide⟩

/-- C19, amended: in every reachable state, a connection registered for another
(company, user) pair than connection 1, and holding another queue, is not touched
by any step of connection 1, its failures included (the peer closing it, a write
that fails): the step does not panic, the other registration is still in the
registry with the same handle, its queue is the same channel, still open and with
the same contents, and a later broadcast to its company is delivered to it (when
the event can be encoded, the client is a `super_admin` and its queue has room). -/
theorem C19_failure_isolated_between_pairs (s : State) (hs : Reachable s) (conn1 : Conn)
    (T2 c2 : Nat) (cl2 : SSEClient) (hpair : ¬ (T2 = conn1.companyID ∧ c2 = conn1.userID))
    (hcl2 : s.client? T2 c2 = some cl2) (hch : conn1.client.Channel ≠ cl2.Channel)
    (ev : ConnEvent) :
    ∃ s1 conn1a, connStep s conn1 ev = .ok (s1, conn1a) ∧
      s1.client? T2 c2 = some cl2 ∧
      (∃ ch, s1.heap[cl2.Channel]? = some ch ∧ ch.closed = false) ∧
      s1.queue cl2.Channel = s.queue cl2.Channel ∧
      (∀ e m, frameOf e = some m → cl2.Role = SuperAdmin →
        (s1.queue cl2.Channel).length < 10 →
        ∃ s2, BroadcastSaleEvent s1 T2 e = .ok s2 ∧
          s2.queue cl2.Channel = s1.queue cl2.Channel ++ [m]) := by
  obtain ⟨s1, conn1a, hstep, hinv1, hcl, hheap⟩ :=
    hs.inv.connStep_other conn1 T2 c2 cl2 hpair hcl2 hch ev
  refine ⟨s1, conn1a, hstep, hcl, hinv1.isOpen T2 c2 cl2 hcl, queue_congr s s1 _ hheap, ?_⟩
  intro e m hm hr hlen
  exact hinv1.broadcast_delivers T2 c2 cl2 e m hcl hr hlen hm

/-- C19, amended, at a concrete input: users 1 and 2 of company 7 have a stream each;
the peer of user 1 closes its connection and the loop of user 1 takes the
notification. -/
theorem C19_failure_isolated_between_pairs_witness :
    Reachable (stateAfter [.register 1 7 SuperAdmin, .register 2 7 SuperAdmin]) ∧
    (stateAfter [.register 1 7 SuperAdmin, .register 2 7 SuperAdmin]).client? 7 2 =
      some ⟨2, 7, SuperAdmin, 1⟩ ∧
    ∃ s1 conn1a,
      connStep (stateAfter [.register 1 7 SuperAdmin, .register 2 7 SuperAdmin])
        { connOf firstConn with notify := true, peerGone := true } .notify = .ok (s1, conn1a) ∧
      s1.client? 7 2 = some ⟨2, 7, SuperAdmin, 1⟩ ∧
      ∃ ch, s1.heap[1]? = some ch ∧ ch.closed = false := by
  have hr : Reachable (stateAfter [.register 1 7 SuperAdmin, .register 2 7 SuperAdmin]) :=
    ⟨[.register 1 7 SuperAdmin, .register 2 7 SuperAdmin], rfl⟩
  obtain ⟨s1, conn1a, hstep, hcl, hopen, _⟩ :=
    C19_failure_isolated_between_pairs _ hr
      { connOf firstConn with notify := true, peerGone := true } 7 2 ⟨2, 7, SuperAdmin, 1⟩
      (by decide) (by decide) (by decide) .notify
  exact ⟨hr, by decide, s1, conn1a, hstep, hcl, hopen⟩

/-! ## The answer of `createSaleHandler` does not depend on the registry -/

/-- C20: for every request of an authenticated user whose sale `CreateSale` has
stored, `createSaleHandler` answers 201 with that sale, in every reachable state of
the registry and whatever the other service calls return: whether or not the
company of the seller can be resolved, whether or not the seller is found, whether
or not any client is registered, whether or not a queue is full.  The broadcast
step never panics and never changes the answer. -/
theorem C20_sale_answer_independent (svc : Services) (s : State) (hs : Reachable s)
    (req : CreateSaleRequest) (ctx : Context) (u : Nat) (sale : SaleRecord)
    (hu : ctx.user_id = some (.uint u))
    (hsale : svc.CreateSale { req with SellerID := u } = .ok sale) :
    ∃ s1, createSaleHandler svc s (.ok req) ctx = .ok (s1, ⟨201, .sale sale⟩) := by
  unfold createSaleHandler
  simp only [hu, hsale]
  cases hc : svc.GetCompanyIDFromSale sale with
  | error err => exact ⟨s, rfl⟩
  | ok companyID =>
    cases companyID with
    | none => exact ⟨s, rfl⟩
    | some T =>
      obtain ⟨s1, hrun, _⟩ := hs.inv.broadcast T
        (saleEventOf sale (match svc.GetUserByID u with
          | .ok usr => some usr
          | .error _ => none))
      exact ⟨s1, by simp only [hrun]⟩

/-- C20 at concrete inputs: the same request gets the same answer when company 7 has
a client with a full queue and the seller resolves to company 7, and when the
registry is empty and the seller cannot be resolved. -/
theorem C20_sale_answer_independent_witness :
    Reachable fullQueue ∧ Reachable State.init ∧
    (contextOf 1 7 User).user_id = some (.uint 1) ∧
    servicesResolving.CreateSale { saleRequest with SellerID := 1 } = .ok sale42 ∧
    servicesUnresolved.CreateSale { saleRequest with SellerID := 1 } = .ok sale42 ∧
    (∃ s1, createSaleHandler servicesResolving fullQueue (.ok saleRequest) (contextOf 1 7 User) =
      .ok (s1, ⟨201, .sale sale42⟩)) ∧
    (∃ s1, createSaleHandler servicesUnresolved State.init (.ok saleRequest)
        (contextOf 1 7 User) = .ok (s1, ⟨201, .sale sale42⟩)) :=
  ⟨⟨fullQueueOps, rfl⟩, ⟨[], rfl⟩, rfl, rfl, rfl,
    C20_sale_answer_independent servicesResolving fullQueue ⟨fullQueueOps, rfl⟩ saleRequest
      (contextOf 1 7 User) 1 sale42 rfl rfl,
    C20_sale_answer_independent servicesUnresolved State.init ⟨[], rfl⟩ saleRequest
      (contextOf 1 7 User) 1 sale42 rfl rfl⟩


/-! ## The bound on the queues, the open queues and the round trip -/

theorem kerase_kreplace {V : Type} (a : Nat) (b : V) (l : List (Sigma fun _ : Nat => V)) :
    List.kerase a (List.kreplace a b l) = List.kerase a l := by
  induction l with
  | nil => simp [List.kreplace]
  | cons x l ih =>
    obtain ⟨k, v⟩ := x
    by_cases hk : a = k
    · subst hk
      have : List.kreplace a b (⟨a, v⟩ :: l) = ⟨a, b⟩ :: l := by
        simp [List.kreplace, List.lookmap_cons_some]
      rw [this]
      simp
    · have : List.kreplace a b (⟨k, v⟩ :: l) = ⟨k, v⟩ :: List.kreplace a b l := by
        simp [List.kreplace, List.lookmap_cons_none, hk]
      rw [this, List.kerase_cons_ne (by exact hk), List.kerase_cons_ne (by exact hk), ih]

theorem kreplace_kreplace {V : Type} (a : Nat) (b b1 : V) (l : List (Sigma fun _ : Nat => V)) :
    List.kreplace a b1 (List.kreplace a b l) = List.kreplace a b1 l := by
  induction l with
  | nil => simp [List.kreplace]
  | cons x l ih =>
    obtain ⟨k, v⟩ := x
    by_cases hk : a = k
    · subst hk
      have e : ∀ w w1 : V, List.kreplace a w1 (⟨a, w⟩ :: l) = ⟨a, w1⟩ :: l := by
        intro w w1
        simp [List.kreplace, List.lookmap_cons_some]
      rw [e, e, e]
    · have e : ∀ (w : V) (t : List (Sigma fun _ : Nat => V)),
          List.kreplace a w (⟨k, v⟩ :: t) = ⟨k, v⟩ :: List.kreplace a w t := by
        intro w t
        simp [List.kreplace, List.lookmap_cons_none, hk]
      rw [e, e, e, ih]

theorem erase_replace {V : Type} (m : AList (fun _ : Nat => V)) (a : Nat) (b : V) :
    (m.replace a b).erase a = m.erase a := by
  apply AList.ext
  simp only [AList.erase, AList.replace]
  exact kerase_kreplace a b m.entries

theorem replace_replace {V : Type} (m : AList (fun _ : Nat => V)) (a : Nat) (b b1 : V) :
    (m.replace a b).replace a b1 = m.replace a b1 := by
  apply AList.ext
  simp only [AList.replace]
  exact kreplace_kreplace a b b1 m.entries

theorem erase_insert_of_lookup_none {V : Type} (m : AList (fun _ : Nat => V)) (a : Nat) (b : V)
    (h : m.lookup a = none) : (m.insert a b).erase a = m := by
  apply AList.ext
  have hk : a ∉ m.entries.keys := AList.lookup_eq_none.mp h
  simp only [AList.erase, AList.insert_entries]
  rw [List.kerase_of_not_mem_keys hk]
  exact List.kerase_cons_eq rfl

theorem set_snoc (heap : List Chan) (x y : Chan) :
    (heap ++ [x]).set heap.length y = heap ++ [y] := by
  induction heap with
  | nil => rfl
  | cons h t ih => simp [List.set, ih]

/-- `UnregisterClient` after `RegisterClient` for a pair that was not registered, in
a state without empty partitions: the registry is as before, and the heap has one
more channel, the closed and empty one of the registration that came and went. -/
theorem UnregisterClient_RegisterClient {s : State} (hinv : Inv s) (c T : Nat) (r : UserRole)
    (h : s.client? T c = none) :
    UnregisterClient (RegisterClient s c T r).2 c T =
      .ok { clients := s.clients, heap := s.heap ++ [{ makeChan 10 with closed := true }] } := by
  have hheap : (RegisterClient s c T r).2.heap[(⟨c, T, r, s.heap.length⟩ : SSEClient).Channel]? =
      some (makeChan 10) := by
    rw [RegisterClient_heap, getElem?_snoc]
    simp
  have hlook := RegisterClient_lookup s c T r T
  rw [if_pos rfl] at hlook
  have hins : (((s.clients.lookup T).getD ∅).insert c ⟨c, T, r, s.heap.length⟩).lookup c =
      some ⟨c, T, r, s.heap.length⟩ := AList.lookup_insert _
  rw [UnregisterClient_present _ c T _ _ (makeChan 10) hlook hins hheap rfl]
  cases hp : s.clients.lookup T with
  | none =>
    have he : ((∅ : Partition).insert c ⟨c, T, r, s.heap.length⟩).erase c = ∅ :=
      erase_insert_of_lookup_none _ _ _ (by simp)
    have hc : (RegisterClient s c T r).2.clients =
        (s.clients.insert T ∅).replace T ((∅ : Partition).insert c ⟨c, T, r, s.heap.length⟩) := by
      simp [RegisterClient, hp]
    simp only [hp, Option.getD_none, he]
    rw [if_pos (show (∅ : Partition).entries = [] from rfl), hc, erase_replace,
      erase_insert_of_lookup_none _ _ _ hp, RegisterClient_heap]
    simp only [set_snoc]
  | some p =>
    have hl : p.lookup c = none := by rw [← client?_of_lookup s T c p hp]; exact h
    have he : (p.insert c ⟨c, T, r, s.heap.length⟩).erase c = p :=
      erase_insert_of_lookup_none _ _ _ hl
    have hc : (RegisterClient s c T r).2.clients =
        s.clients.replace T (p.insert c ⟨c, T, r, s.heap.length⟩) := by
      simp [RegisterClient, hp]
    simp only [hp, Option.getD_some, he]
    rw [if_neg (hinv.nonempty T p hp), hc, replace_replace, replace_of_lookup _ _ _ hp,
      RegisterClient_heap]
    simp only [set_snoc]

/-- C21: in every state reachable from the empty registry by `RegisterClient`,
`UnregisterClient` and `BroadcastSaleEvent`, with pumps dequeuing in between, the
queue of every registered client holds at most 10 messages; so does every queue
ever made, those of replaced and removed registrations included. -/
theorem C21_queue_at_most_ten (s : State) (hs : Reachable s) :
    (∀ T c cl, s.client? T c = some cl → (s.queue cl.Channel).length ≤ 10) ∧
    (∀ (a : Nat) (ch : Chan), s.heap[a]? = some ch → ch.cap = 10 ∧ ch.buf.length ≤ 10) ∧
    ∀ a : Nat, (s.queue a).length ≤ 10 := by
  have hinv := hs.inv
  have hq : ∀ a : Nat, (s.queue a).length ≤ 10 := by
    intro a
    unfold State.queue
    cases hch : s.heap[a]? with
    | none => simp
    | some ch => exact (hinv.bounded a ch hch).2
  exact ⟨fun _ _ cl _ => hq cl.Channel, hinv.bounded, hq⟩

/-- C21 at a concrete input: after ten broadcasts to company 7 the queue of user 1
holds 10 messages, and an eleventh broadcast leaves it at 10. -/
theorem C21_queue_at_most_ten_witness :
    Reachable (stateAfter (fullQueueOps ++ [.broadcast 7 saleEvent42])) ∧
    fullQueue.client? 7 1 = some ⟨1, 7, SuperAdmin, 0⟩ ∧
    (fullQueue.queue 0).length = 10 ∧
    ((stateAfter (fullQueueOps ++ [.broadcast 7 saleEvent42])).queue 0).length ≤ 10 :=
  ⟨⟨fullQueueOps ++ [Op.broadcast 7 saleEvent42], rfl⟩, by decide, by decide,
    (C21_queue_at_most_ten _ ⟨fullQueueOps ++ [Op.broadcast 7 saleEvent42], rfl⟩).2.2 0⟩

/-- C28: in every reachable state every client stored in the registry owns a queue
that exists and is open; `BroadcastSaleEvent` returns normally for every company
and event (it never sends on a closed queue), and `UnregisterClient` returns
normally for every pair (it never closes a queue that is closed already). -/
theorem C28_registered_queues_open (s : State) (hs : Reachable s) :
    (∀ T c cl, s.client? T c = some cl →
      ∃ ch, s.heap[cl.Channel]? = some ch ∧ ch.closed = false) ∧
    (∀ T e, ∃ s1, BroadcastSaleEvent s T e = .ok s1) ∧
    (∀ c T, ∃ s1, UnregisterClient s c T = .ok s1) := by
  have hinv := hs.inv
  exact ⟨hinv.isOpen, fun T e => hinv.step_ok (.broadcast T e),
    fun c T => hinv.step_ok (.unregister c T)⟩

/-- C28 at a concrete input: user 1 of company 7 registers, unregisters and
registers again; the stored client owns the second queue, which is open, while the
first queue is closed; broadcasting and unregistering do not panic. -/
theorem C28_registered_queues_open_witness :
    Reachable (stateAfter [.register 1 7 SuperAdmin, .unregister 1 7, .register 1 7 SuperAdmin]) ∧
    (stateAfter [.register 1 7 SuperAdmin, .unregister 1 7, .register 1 7 SuperAdmin]).heap =
      [⟨[], 10, true⟩, ⟨[], 10, false⟩] ∧
    (∃ ch, (stateAfter [.register 1 7 SuperAdmin, .unregister 1 7,
        .register 1 7 SuperAdmin]).heap[1]? = some ch ∧ ch.closed = false) ∧
    (∃ s1, BroadcastSaleEvent (stateAfter [.register 1 7 SuperAdmin, .unregister 1 7,
        .register 1 7 SuperAdmin]) 7 saleEvent42 = .ok s1) ∧
    (∃ s1, UnregisterClient (stateAfter [.register 1 7 SuperAdmin, .unregister 1 7,
        .register 1 7 SuperAdmin]) 1 7 = .ok s1) :=
  ⟨⟨[.register 1 7 SuperAdmin, .unregister 1 7, .register 1 7 SuperAdmin], rfl⟩, by decide,
    (C28_registered_queues_open _
      ⟨[.register 1 7 SuperAdmin, .unregister 1 7, .register 1 7 SuperAdmin], rfl⟩).1 7 1
      ⟨1, 7, SuperAdmin, 1⟩ (by decide),
    (C28_registered_queues_open _
      ⟨[.register 1 7 SuperAdmin, .unregister 1 7, .register 1 7 SuperAdmin], rfl⟩).2.1 7
      saleEvent42,
    (C28_registered_queues_open _
      ⟨[.register 1 7 SuperAdmin, .unregister 1 7, .register 1 7 SuperAdmin], rfl⟩).2.2 1 7⟩

/-- C29: in every reachable state in which the pair (company `T`, user `c`) is not
registered, `UnregisterClient(c, T)` after `RegisterClient(c, T, r)` returns
normally and gives back the registry of before: the same top-level map, hence the
same partitions and the same registered pairs with the same handles, and every
queue with the contents and the open or closed status it had.  The one trace left
is the queue of the registration that came and went: it is closed, empty and no
longer referred to. -/
theorem C29_register_unregister_round_trip (s : State) (hs : Reachable s) (c T : Nat)
    (r : UserRole) (h : s.client? T c = none) :
    ∃ s1, UnregisterClient (RegisterClient s c T r).2 c T = .ok s1 ∧
      s1.clients = s.clients ∧
      (∀ T1, s1.clients.lookup T1 = s.clients.lookup T1) ∧
      (∀ T1 c1, s1.client? T1 c1 = s.client? T1 c1) ∧
      (∀ (a : Nat) (ch : Chan), s.heap[a]? = some ch → s1.heap[a]? = some ch) ∧
      (∀ a : Nat, s1.queue a = s.queue a) ∧
      s1.heap = s.heap ++ [{ makeChan 10 with closed := true }] := by
  refine ⟨_, UnregisterClient_RegisterClient hs.inv c T r h, rfl, fun _ => rfl,
    fun _ _ => rfl, ?_, ?_, rfl⟩
  · intro a ch hch
    show (s.heap ++ [_])[a]? = some ch
    rw [getElem?_snoc, if_pos (getElem?_lt_length _ _ _ hch)]
    exact hch
  · intro a
    show State.queue ⟨s.clients, s.heap ++ [_]⟩ a = s.queue a
    unfold State.queue
    simp only [getElem?_snoc]
    by_cases ha : a < s.heap.length
    · rw [if_pos ha]
    · rw [if_neg ha, List.getElem?_eq_none (Nat.le_of_not_lt ha)]
      by_cases ha2 : a = s.heap.length
      · rw [if_pos ha2]; rfl
      · rw [if_neg ha2]

/-- C29 at a concrete input: company 7 has the client 1; user 2 of company 7
registers and unregisters. -/
theorem C29_register_unregister_round_trip_witness :
    Reachable oneAdmin ∧ oneAdmin.client? 7 2 = none ∧
    ∃ s1, UnregisterClient (RegisterClient oneAdmin 2 7 User).2 2 7 = .ok s1 ∧
      s1.clients = oneAdmin.clients ∧
      (∀ T1, s1.clients.lookup T1 = oneAdmin.clients.lookup T1) ∧
      (∀ T1 c1, s1.client? T1 c1 = oneAdmin.client? T1 c1) ∧
      (∀ (a : Nat) (ch : Chan), oneAdmin.heap[a]? = some ch → s1.heap[a]? = some ch) ∧
      (∀ a : Nat, s1.queue a = oneAdmin.queue a) ∧
      s1.heap = oneAdmin.heap ++ [{ makeChan 10 with closed := true }] :=
  ⟨⟨[.register 1 7 SuperAdmin], rfl⟩, by decide,
    C29_register_unregister_round_trip oneAdmin ⟨[.register 1 7 SuperAdmin], rfl⟩ 2 7 User
      (by decide)⟩


/-! ## Statements of the database -/

theorem DB.sameTables_refl (db : DB) : db.sameTables db := rfl

theorem DB.sameTables.trans {db2 db1 db : DB} (h2 : db2.sameTables db1) (h1 : db1.sameTables db) :
    db2.sameTables db := Eq.trans h2 h1

theorem DB.sameTables.users {db1 db : DB} (h : db1.sameTables db) : db1.users = db.users := by
  unfold DB.sameTables at h
  have h2 := congrArg DB.users h
  exact h2

theorem DB.sameTables.branches {db1 db : DB} (h : db1.sameTables db) :
    db1.branches = db.branches := by
  unfold DB.sameTables at h
  have h2 := congrArg DB.branches h
  exact h2

theorem DB.sameTables.companies {db1 db : DB} (h : db1.sameTables db) :
    db1.companies = db.companies := by
  unfold DB.sameTables at h
  have h2 := congrArg DB.companies h
  exact h2

theorem DB.sameTables.products {db1 db : DB} (h : db1.sameTables db) :
    db1.products = db.products := by
  unfold DB.sameTables at h
  have h2 := congrArg DB.products h
  exact h2

theorem DB.sameTables.sales {db1 db : DB} (h : db1.sameTables db) : db1.sales = db.sales := by
  unfold DB.sameTables at h
  have h2 := congrArg DB.sales h
  exact h2

theorem DB.sameTables.preferences {db1 db : DB} (h : db1.sameTables db) :
    db1.preferences = db.preferences := by
  unfold DB.sameTables at h
  have h2 := congrArg DB.preferences h
  exact h2

theorem DB.sameTables.notifications {db1 db : DB} (h : db1.sameTables db) :
    db1.notifications = db.notifications := by
  unfold DB.sameTables at h
  have h2 := congrArg DB.notifications h
  exact h2

theorem DB.sameTables.eq_of_faults {db1 db : DB} (h : db1.sameTables db)
    (hf : db1.faults = db.faults) : db1 = db := by
  obtain ⟨u, b, c, p, s, pr, n, s1, s2, s3, f⟩ := db
  obtain ⟨u1, b1, c1, p1, s1', pr1, n1, s11, s21, s31, f1⟩ := db1
  simp only [DB.sameTables, DB.mk.injEq] at h
  simp only at hf
  simp [h, hf]

theorem DB.fault_of_no_faults (db : DB) (h : db.faults = []) : db.fault = (none, db) := by
  simp [DB.fault, h]

/-- A statement by itself changes no table: only the list of coming faults is
consumed. -/
theorem DB.fault_same (db : DB) : db.fault.2.sameTables db := by
  unfold DB.fault
  cases db.faults <;> rfl

theorem DB.First_same {R : Type} (db : DB) (rows : List R) (cond : R → Bool) :
    (db.First rows cond).2.sameTables db := by
  unfold DB.First
  have h := db.fault_same
  generalize db.fault = r at h ⊢
  obtain ⟨f, db1⟩ := r
  cases f with
  | some msg => exact h
  | none =>
    cases rows.find? cond with
    | none => exact h
    | some row => exact h

theorem DB.First_of_no_faults {R : Type} (db : DB) (rows : List R) (cond : R → Bool)
    (h : db.faults = []) :
    db.First rows cond =
      (match rows.find? cond with
        | none => .error .ErrRecordNotFound
        | some row => .ok row, db) := by
  unfold DB.First
  rw [db.fault_of_no_faults h]
  cases rows.find? cond <;> rfl

theorem DB.Exec_of_no_faults (db : DB) (write : DB → DB) (h : db.faults = []) :
    db.Exec write = (none, write db) := by
  unfold DB.Exec
  rw [db.fault_of_no_faults h]

/-- A failed write changes no table; a write that is carried out is `write` on the
tables. -/
theorem DB.Exec_cases (db : DB) (write : DB → DB) :
    (∃ msg db1, db.Exec write = (some (.other msg), db1) ∧ db1.sameTables db) ∨
    (∃ db1, db.Exec write = (none, write db1) ∧ db1.sameTables db) := by
  unfold DB.Exec
  have h := db.fault_same
  generalize db.fault = r at h ⊢
  obtain ⟨f, db1⟩ := r
  cases f with
  | some msg => exact Or.inl ⟨msg, db1, rfl, h⟩
  | none => exact Or.inr ⟨db1, rfl, h⟩

theorem populateBranchAndCompany_same (db : DB) (user : UserModel) :
    (populateBranchAndCompany db user).2.sameTables db := by
  unfold populateBranchAndCompany
  split
  · exact db.sameTables_refl
  · next branchID _ =>
    have h1 := db.First_same db.branches (fun b => b.ID = branchID)
    split
    · next _ db1 heq => rw [heq] at h1; exact h1
    · next branch db1 heq =>
      rw [heq] at h1
      have h2 := db1.First_same db1.companies (fun c => c.ID = branch.CompanyID)
      split
      · next _ db2 heq2 => rw [heq2] at h2; exact h2.trans h1
      · next _ db2 heq2 => rw [heq2] at h2; exact h2.trans h1

theorem GetUserByID_same (db : DB) (id : Nat) : (GetUserByID db id).2.sameTables db := by
  unfold GetUserByID
  have h1 := db.First_same (db.users.map UserModel.columns) (fun u => u.ID = id)
  split
  · next db1 heq => rw [heq] at h1; exact h1
  · next _ db1 _ heq => rw [heq] at h1; exact h1
  · next user db1 heq =>
    rw [heq] at h1
    exact (populateBranchAndCompany_same db1 user).trans h1

/-! ## The guard of `changePasswordHandler` -/

/-- C24, as stated, fails: user 2, whose role is `user`, asks to change the password
under a path id that is not a number (so it is not the caller's own id).  The
answer is 400, not 403; and a caller whose record is gone is answered 401. -/
theorem C24_counterexample :
    (∃ user db1, GetUserByID shopDB 2 = (.ok user, db1) ∧ user.Role = User) ∧
    User ≠ SuperAdmin ∧
    changePasswordHandler testBcrypt shopDB none (contextOf 2 7 User) (.ok passwordRequest) =
      (shopDB, ⟨400, .error "invalid user id"⟩) ∧
    (∃ err db1, GetUserByID shopDB 4 = (.error err, db1)) ∧
    changePasswordHandler testBcrypt shopDB (some 1) (contextOf 4 7 User) (.ok passwordRequest) =
      (shopDB, ⟨401, .error "user not found"⟩) := by
  refine ⟨⟨_, _, rfl, rfl⟩, by decide, rfl, ⟨_, _, rfl⟩, rfl⟩

/-- C24, amended: `changePasswordHandler` calls `ChangePassword` only for a request
whose path id is a number, whose caller is found by `GetUserByID`, and whose caller
has the role `super_admin` or the path id as the own user id (and whose body binds);
every other request is answered 400, 401 or 403 and changes no table, so no stored
password.  In particular a request with a numeric path id, from a caller who is
found, is not a `super_admin` and has another id than the path id, is answered 403;
a path id that is not a number is answered 400 and a caller who is not found 401,
both before the check of the role. -/
theorem C24_change_password_guard (bc : Bcrypt) (db : DB) (id : Option Nat) (ctx : Context)
    (bind : Except String ChangePasswordRequest) :
    (∀ pathID u user db1, id = some pathID → ctx.user_id = some (.uint u) →
      GetUserByID db u = (.ok user, db1) → user.Role ≠ SuperAdmin → pathID ≠ u →
      changePasswordHandler bc db id ctx bind =
        (db1, ⟨403, .error "you can only change your own password"⟩) ∧
      db1.sameTables db ∧ db1.users = db.users) ∧
    (id = none →
      changePasswordHandler bc db id ctx bind = (db, ⟨400, .error "invalid user id"⟩)) ∧
    (∀ pathID u err db1, id = some pathID → ctx.user_id = some (.uint u) →
      GetUserByID db u = (.error err, db1) →
      changePasswordHandler bc db id ctx bind = (db1, ⟨401, .error "user not found"⟩) ∧
      db1.sameTables db) ∧
    ((∃ pathID u user db1 req, id = some pathID ∧ ctx.user_id = some (.uint u) ∧
        GetUserByID db u = (.ok user, db1) ∧ (user.Role = SuperAdmin ∨ pathID = u) ∧
        bind = .ok req ∧
        changePasswordHandler bc db id ctx bind =
          ((ChangePassword bc db1 pathID req).2,
            match (ChangePassword bc db1 pathID req).1 with
            | some err => ⟨400, .error err⟩
            | none => ⟨200, .message "password changed successfully"⟩)) ∨
      ((changePasswordHandler bc db id ctx bind).1.sameTables db ∧
        (changePasswordHandler bc db id ctx bind).1.users = db.users ∧
        ((changePasswordHandler bc db id ctx bind).2.status = 400 ∨
          (changePasswordHandler bc db id ctx bind).2.status = 401 ∨
          (changePasswordHandler bc db id ctx bind).2.status = 403))) := by
  refine ⟨?_, ?_, ?_, ?_⟩
  · intro pathID u user db1 hid hu hget hrole hne
    have hsame := GetUserByID_same db u
    rw [hget] at hsame
    subst hid
    refine ⟨?_, hsame, hsame.users⟩
    simp [changePasswordHandler, hu, hget, hrole, hne]
  · intro hid
    subst hid
    rfl
  · intro pathID u err db1 hid hu hget
    have hsame := GetUserByID_same db u
    rw [hget] at hsame
    subst hid
    exact ⟨by simp [changePasswordHandler, hu, hget], hsame⟩
  · cases id with
    | none => exact Or.inr ⟨db.sameTables_refl, rfl, Or.inl rfl⟩
    | some pathID =>
      obtain ⟨uid, cid, role⟩ := ctx
      cases uid with
      | none => exact Or.inr ⟨db.sameTables_refl, rfl, Or.inr (Or.inl rfl)⟩
      | some a =>
        cases a with
        | uint u =>
          have hsame := GetUserByID_same db u
          rcases hget : GetUserByID db u with ⟨r, db1⟩
          rw [hget] at hsame
          cases r with
          | error err =>
            have heq : changePasswordHandler bc db (some pathID) ⟨some (.uint u), cid, role⟩ bind =
                (db1, ⟨401, .error "user not found"⟩) := by
              simp [changePasswordHandler, hget]
            rw [heq]
            exact Or.inr ⟨hsame, hsame.users, Or.inr (Or.inl rfl)⟩
          | ok user =>
            by_cases hauth : user.Role ≠ SuperAdmin ∧ pathID ≠ u
            · have heq : changePasswordHandler bc db (some pathID) ⟨some (.uint u), cid, role⟩ bind =
                  (db1, ⟨403, .error "you can only change your own password"⟩) := by
                simp only [changePasswordHandler, hget]
                rw [if_pos hauth]
              rw [heq]
              exact Or.inr ⟨hsame, hsame.users, Or.inr (Or.inr rfl)⟩
            · have hor : user.Role = SuperAdmin ∨ pathID = u := by
                by_contra hcon
                exact hauth ⟨fun h => hcon (Or.inl h), fun h => hcon (Or.inr h)⟩
              cases bind with
              | error err =>
                have heq : changePasswordHandler bc db (some pathID) ⟨some (.uint u), cid, role⟩
                    (.error err) = (db1, ⟨400, .error err⟩) := by
                  simp only [changePasswordHandler, hget]
                  rw [if_neg hauth]
                rw [heq]
                exact Or.inr ⟨hsame, hsame.users, Or.inl rfl⟩
              | ok req =>
                refine Or.inl ⟨pathID, u, user, db1, req, rfl, rfl, hget, hor, rfl, ?_⟩
                simp only [changePasswordHandler, hget]
                rw [if_neg hauth]
                rcases ChangePassword bc db1 pathID req with ⟨e, db2⟩
                cases e <;> rfl
        | uintPtr p => exact Or.inr ⟨db.sameTables_refl, rfl, Or.inr (Or.inl rfl)⟩
        | role r => exact Or.inr ⟨db.sameTables_refl, rfl, Or.inr (Or.inl rfl)⟩
        | other => exact Or.inr ⟨db.sameTables_refl, rfl, Or.inr (Or.inl rfl)⟩

/-- C24 at a concrete input: user 2, whose role is `user`, asks to change the
password of user 1. -/
theorem C24_change_password_guard_witness :
    GetUserByID shopDB 2 =
      (.ok { ID := 2, Name := "Bob", Username := "bob", Password := "hash:secret2",
             Role := User, BranchID := some 1, Branch := "Main", Company := "Acme",
             CompanyID := some 7 }, shopDB) ∧
    User ≠ SuperAdmin ∧ (1 : Nat) ≠ 2 ∧
    changePasswordHandler testBcrypt shopDB (some 1) (contextOf 2 7 User) (.ok passwordRequest) =
      (shopDB, ⟨403, .error "you can only change your own password"⟩) :=
  ⟨rfl, by decide, by decide,
    ((C24_change_password_guard testBcrypt shopDB (some 1) (contextOf 2 7 User)
      (.ok passwordRequest)).1 1 2 _ shopDB rfl rfl rfl (by decide) (by decide)).1⟩


/-! ## Notifications and the preferences of the recipient -/

/-- C23, as stated, fails in its last part: user 2 has no stored preferences, and a
notification about user activity is filtered by the default preferences (the call
returns `(nil, nil)` and stores no notification), but the call has stored
something: the default preferences of user 2, which `GetNotificationPreferences`
inserts. -/
theorem C23_counterexample :
    shopDB.preferences.find? (fun p => p.UserID = 2) = none ∧
    (CreateNotification shopDB activityRequest).1 = .ok none ∧
    (CreateNotification shopDB activityRequest).2.notifications = shopDB.notifications ∧
    (CreateNotification shopDB activityRequest).2.preferences =
      shopDB.preferences ++ [{ defaultPreferences 2 with ID := 2 }] ∧
    (CreateNotification shopDB activityRequest).2 ≠ shopDB := by
  refine ⟨rfl, rfl, rfl, rfl, by decide⟩

theorem GetNotificationPreferences_of_no_faults (db : DB) (userID : Nat) (h : db.faults = []) :
    GetNotificationPreferences db userID =
      match db.preferences.find? (fun p => p.UserID = userID) with
      | some prefs => (.ok prefs, db)
      | none =>
        (.ok { defaultPreferences userID with ID := db.preferencesSeq + 1 },
          { db with preferences := db.preferences ++
                      [{ defaultPreferences userID with ID := db.preferencesSeq + 1 }],
                    preferencesSeq := db.preferencesSeq + 1 }) := by
  unfold GetNotificationPreferences
  rw [DB.First_of_no_faults _ _ _ h]
  cases db.preferences.find? (fun p => decide (p.UserID = userID)) with
  | none => simp only; rw [DB.Exec_of_no_faults _ _ h]
  | some prefs => rfl

theorem GetNotificationPreferences_faults (db : DB) (userID : Nat) (h : db.faults = []) :
    (GetNotificationPreferences db userID).2.faults = [] := by
  rw [GetNotificationPreferences_of_no_faults db userID h]
  cases db.preferences.find? (fun p => decide (p.UserID = userID)) with
  | none => exact h
  | some prefs => exact h

theorem DB.sameTables.withoutPreferences {db1 db : DB} (h : db1.sameTables db) :
    db1.withoutPreferences = db.withoutPreferences := by
  unfold DB.sameTables at h
  have h2 := congrArg DB.withoutPreferences h
  exact h2

theorem DB.sameTables.withoutNotifications {db1 db : DB} (h : db1.sameTables db) :
    db1.withoutNotifications = db.withoutNotifications := by
  unfold DB.sameTables at h
  have h2 := congrArg DB.withoutNotifications h
  exact h2

theorem DB.withoutNotifications_of_withoutPreferences {db1 db : DB}
    (h : db1.withoutPreferences = db.withoutPreferences) :
    db1.withoutNotifications = db.withoutNotifications := by
  have h2 := congrArg DB.withoutNotifications h
  exact h2

/-- `GetNotificationPreferences` writes to no table but the preferences. -/
theorem GetNotificationPreferences_frame (db : DB) (userID : Nat) :
    (GetNotificationPreferences db userID).2.withoutPreferences = db.withoutPreferences := by
  unfold GetNotificationPreferences
  have h1 := db.First_same db.preferences (fun p => p.UserID = userID)
  split
  · next db1 heq =>
    rw [heq] at h1
    rcases db1.Exec_cases (fun d =>
        { d with preferences := d.preferences ++
                   [{ defaultPreferences userID with ID := d.preferencesSeq + 1 }],
                 preferencesSeq := d.preferencesSeq + 1 }) with ⟨msg, db2, he, hs⟩ | ⟨db2, he, hs⟩
    · rw [he]
      exact (hs.trans h1).withoutPreferences
    · rw [he]
      exact (hs.trans h1).withoutPreferences
  · next _ db1 _ heq => rw [heq] at h1; exact h1.withoutPreferences
  · next _ db1 heq => rw [heq] at h1; exact h1.withoutPreferences

theorem DB.notifications_of_withoutPreferences {db1 db : DB}
    (h : db1.withoutPreferences = db.withoutPreferences) :
    db1.notifications = db.notifications ∧ db1.notificationSeq = db.notificationSeq := by
  have h2 := congrArg DB.notifications h
  have h3 := congrArg DB.notificationSeq h
  exact ⟨h2, h3⟩

/-- The preferences `CreateNotification` reads, with the state after the reads. -/
theorem CreateNotification_read_frame (db : DB) (userID : Nat) :
    (match GetNotificationPreferences db userID with
      | (.error _, db1) => GetNotificationPreferences db1 userID
      | (.ok prefs, db1) => (.ok prefs, db1)).2.withoutPreferences = db.withoutPreferences := by
  have h1 := GetNotificationPreferences_frame db userID
  split
  · next _ db1 heq =>
    rw [heq] at h1
    exact (GetNotificationPreferences_frame db1 userID).trans h1
  · next _ db1 heq => rw [heq] at h1; exact h1

/-- Whatever the database does, `CreateNotification` stores a notification exactly
when it returns one: the returned one, built from the request, at the end of the
table; and it writes to no table but the notifications and the preferences. -/
theorem CreateNotification_cases (db : DB) (req : CreateNotificationRequest) :
    (CreateNotification db req).2.withoutNotifications = db.withoutNotifications ∧
    (((CreateNotification db req).1 =
        .ok (some { ID := db.notificationSeq + 1, UserID := req.UserID, Type_ := req.Type_,
                    Title := req.Title, Message := req.Message, Read := false,
                    RelatedID := req.RelatedID }) ∧
      (CreateNotification db req).2.notifications = db.notifications ++
        [{ ID := db.notificationSeq + 1, UserID := req.UserID, Type_ := req.Type_,
           Title := req.Title, Message := req.Message, Read := false,
           RelatedID := req.RelatedID }]) ∨
     ((∀ n, (CreateNotification db req).1 ≠ .ok (some n)) ∧
      (CreateNotification db req).2.notifications = db.notifications)) := by
  unfold CreateNotification
  have h1 := CreateNotification_read_frame db req.UserID
  generalize (match GetNotificationPreferences db req.UserID with
      | (.error _, db1) => GetNotificationPreferences db1 req.UserID
      | (.ok prefs, db1) => (.ok prefs, db1)) = read at h1 ⊢
  obtain ⟨r, db1⟩ := read
  simp only at h1
  have hn := DB.notifications_of_withoutPreferences h1
  cases r with
  | error err =>
    exact ⟨DB.withoutNotifications_of_withoutPreferences h1,
      Or.inr ⟨fun n h => by simp at h, hn.1⟩⟩
  | ok prefs =>
    simp only
    generalize (if req.Type_ = NotificationTypeSale then prefs.SalesNotifications
      else if req.Type_ = NotificationTypeInventory then prefs.InventoryAlerts
      else if req.Type_ = NotificationTypeUser then prefs.UserActivity
      else if req.Type_ = NotificationTypeSystem then prefs.SystemUpdates
      else false) = shouldNotify
    cases shouldNotify with
    | false =>
      rw [if_pos rfl]
      exact ⟨DB.withoutNotifications_of_withoutPreferences h1,
        Or.inr ⟨fun n h => by simp at h, hn.1⟩⟩
    | true =>
      rw [if_neg (by decide)]
      rcases db1.Exec_cases (fun d =>
          { d with notifications := d.notifications ++
                     [{ ID := d.notificationSeq + 1, UserID := req.UserID, Type_ := req.Type_,
                        Title := req.Title, Message := req.Message, Read := false,
                        RelatedID := req.RelatedID }],
                   notificationSeq := d.notificationSeq + 1 }) with
        ⟨msg, db2, he, hs⟩ | ⟨db2, he, hs⟩
      · rw [he]
        refine ⟨hs.withoutNotifications.trans
          (DB.withoutNotifications_of_withoutPreferences h1),
          Or.inr ⟨fun n h => by simp at h, ?_⟩⟩
        exact hs.notifications.trans hn.1
      · rw [he]
        have hs2 := hs.withoutNotifications
        refine ⟨Eq.trans ?_ (hs2.trans (DB.withoutNotifications_of_withoutPreferences h1)),
          Or.inl ⟨?_, ?_⟩⟩
        · rfl
        · simp only [hn.2]
        · have h3 : db2.notifications = db.notifications := hs.notifications.trans hn.1
          have h4 : db2.notificationSeq = db.notificationSeq :=
            (congrArg DB.notificationSeq hs).trans hn.2
          simp only [h3, h4]

/-- What `CreateNotification` does when the database fails no statement. -/
theorem CreateNotification_of_no_faults (db : DB) (hf : db.faults = [])
    (req : CreateNotificationRequest) (prefs : NotificationPreferences) (enabled : Bool)
    (hprefs : prefs = (db.preferences.find? (fun p => p.UserID = req.UserID)).getD
      { defaultPreferences req.UserID with ID := db.preferencesSeq + 1 })
    (henabled : enabled = true ↔
      (req.Type_ = "sale" ∧ prefs.SalesNotifications = true) ∨
      (req.Type_ = "inventory" ∧ prefs.InventoryAlerts = true) ∨
      (req.Type_ = "user" ∧ prefs.UserActivity = true) ∨
      (req.Type_ = "system" ∧ prefs.SystemUpdates = true)) :
    (enabled = true →
      (CreateNotification db req).1 =
        .ok (some { ID := db.notificationSeq + 1, UserID := req.UserID, Type_ := req.Type_,
                    Title := req.Title, Message := req.Message, Read := false,
                    RelatedID := req.RelatedID }) ∧
      (CreateNotification db req).2.notifications = db.notifications ++
        [{ ID := db.notificationSeq + 1, UserID := req.UserID, Type_ := req.Type_,
           Title := req.Title, Message := req.Message, Read := false,
           RelatedID := req.RelatedID }]) ∧
    (enabled = false →
      (CreateNotification db req).1 = .ok none ∧
      (CreateNotification db req).2.notifications = db.notifications) ∧
    ((CreateNotification db req).2.preferences =
      match db.preferences.find? (fun p => p.UserID = req.UserID) with
      | some _ => db.preferences
      | none => db.preferences ++ [prefs]) ∧
    (CreateNotification db req).2.users = db.users ∧
    (CreateNotification db req).2.products = db.products ∧
    (CreateNotification db req).2.sales = db.sales := by
  have hflag : (if req.Type_ = NotificationTypeSale then prefs.SalesNotifications
      else if req.Type_ = NotificationTypeInventory then prefs.InventoryAlerts
      else if req.Type_ = NotificationTypeUser then prefs.UserActivity
      else if req.Type_ = NotificationTypeSystem then prefs.SystemUpdates
      else false) = enabled := by
    simp only [NotificationTypeSale, NotificationTypeInventory, NotificationTypeUser,
      NotificationTypeSystem]
    cases henb : enabled with
    | true =>
      rcases henabled.mp henb with h | h | h | h
      · simp [h.1, h.2]
      · rw [if_neg (by rw [h.1]; decide), if_pos h.1]; exact h.2
      · rw [if_neg (by rw [h.1]; decide), if_neg (by rw [h.1]; decide), if_pos h.1]; exact h.2
      · rw [if_neg (by rw [h.1]; decide), if_neg (by rw [h.1]; decide),
          if_neg (by rw [h.1]; decide), if_pos h.1]; exact h.2
    | false =>
      have hno : ¬ ((req.Type_ = "sale" ∧ prefs.SalesNotifications = true) ∨
          (req.Type_ = "inventory" ∧ prefs.InventoryAlerts = true) ∨
          (req.Type_ = "user" ∧ prefs.UserActivity = true) ∨
          (req.Type_ = "system" ∧ prefs.SystemUpdates = true)) := by
        intro h
        have := henabled.mpr h
        rw [henb] at this
        exact absurd this (by decide)
      by_cases h1 : req.Type_ = "sale"
      · rw [if_pos h1]
        cases hb : prefs.SalesNotifications with
        | false => rfl
        | true => exact absurd (Or.inl ⟨h1, hb⟩) hno
      · rw [if_neg h1]
        by_cases h2 : req.Type_ = "inventory"
        · rw [if_pos h2]
          cases hb : prefs.InventoryAlerts with
          | false => rfl
          | true => exact absurd (Or.inr (Or.inl ⟨h2, hb⟩)) hno
        · rw [if_neg h2]
          by_cases h3 : req.Type_ = "user"
          · rw [if_pos h3]
            cases hb : prefs.UserActivity with
            | false => rfl
            | true => exact absurd (Or.inr (Or.inr (Or.inl ⟨h3, hb⟩))) hno
          · rw [if_neg h3]
            by_cases h4 : req.Type_ = "system"
            · rw [if_pos h4]
              cases hb : prefs.SystemUpdates with
              | false => rfl
              | true => exact absurd (Or.inr (Or.inr (Or.inr ⟨h4, hb⟩))) hno
            · rw [if_neg h4]
  have hget := GetNotificationPreferences_of_no_faults db req.UserID hf
  unfold CreateNotification
  cases hfind : db.preferences.find? (fun p => decide (p.UserID = req.UserID)) with
  | some stored =>
    rw [hfind] at hget hprefs
    simp only [Option.getD_some] at hprefs
    subst hprefs
    simp only [hget, hflag]
    cases enabled with
    | false => simp
    | true => simp [DB.Exec_of_no_faults, hf]
  | none =>
    rw [hfind] at hget hprefs
    simp only [Option.getD_none] at hprefs
    subst hprefs
    simp only [hget, hflag]
    cases enabled with
    | false => simp
    | true => simp [DB.Exec_of_no_faults, hf]

/-- C23, amended: `CreateNotification` stores a notification exactly when it returns
one, the returned one, which has `Read = false` and the `UserID`, `Type`, `Title`,
`Message` and `RelatedID` of the request.  When the database fails no statement it
does so if and only if the flag of the recipient's preferences for the type of the
request is enabled (`sale`: `SalesNotifications`, `inventory`: `InventoryAlerts`,
`user`: `UserActivity`, `system`: `SystemUpdates`), the preferences being the stored
ones or, for a recipient who has none, the default ones; when the flag is disabled,
or the type is none of the four, it returns `(nil, nil)` and stores no notification.
In both cases the call has one more effect on the database: for a recipient without
stored preferences, the row of default preferences is inserted. -/
theorem C23_notification_by_preference (db : DB) (req : CreateNotificationRequest) :
    (((CreateNotification db req).1 =
        .ok (some { ID := db.notificationSeq + 1, UserID := req.UserID, Type_ := req.Type_,
                    Title := req.Title, Message := req.Message, Read := false,
                    RelatedID := req.RelatedID }) ∧
      (CreateNotification db req).2.notifications = db.notifications ++
        [{ ID := db.notificationSeq + 1, UserID := req.UserID, Type_ := req.Type_,
           Title := req.Title, Message := req.Message, Read := false,
           RelatedID := req.RelatedID }]) ∨
     ((∀ n, (CreateNotification db req).1 ≠ .ok (some n)) ∧
      (CreateNotification db req).2.notifications = db.notifications)) ∧
    (db.faults = [] →
      ∀ (prefs : NotificationPreferences) (enabled : Bool),
      prefs = (db.preferences.find? (fun p => p.UserID = req.UserID)).getD
        { defaultPreferences req.UserID with ID := db.preferencesSeq + 1 } →
      (enabled = true ↔
        (req.Type_ = "sale" ∧ prefs.SalesNotifications = true) ∨
        (req.Type_ = "inventory" ∧ prefs.InventoryAlerts = true) ∨
        (req.Type_ = "user" ∧ prefs.UserActivity = true) ∨
        (req.Type_ = "system" ∧ prefs.SystemUpdates = true)) →
      (enabled = true →
        (CreateNotification db req).1 =
          .ok (some { ID := db.notificationSeq + 1, UserID := req.UserID, Type_ := req.Type_,
                      Title := req.Title, Message := req.Message, Read := false,
                      RelatedID := req.RelatedID }) ∧
        (CreateNotification db req).2.notifications = db.notifications ++
          [{ ID := db.notificationSeq + 1, UserID := req.UserID, Type_ := req.Type_,
             Title := req.Title, Message := req.Message, Read := false,
             RelatedID := req.RelatedID }]) ∧
      (enabled = false →
        (CreateNotification db req).1 = .ok none ∧
        (CreateNotification db req).2.notifications = db.notifications) ∧
      ((CreateNotification db req).2.preferences =
        match db.preferences.find? (fun p => p.UserID = req.UserID) with
        | some _ => db.preferences
        | none => db.preferences ++ [prefs]) ∧
      (CreateNotification db req).2.users = db.users ∧
      (CreateNotification db req).2.products = db.products ∧
      (CreateNotification db req).2.sales = db.sales) :=
  ⟨(CreateNotification_cases db req).2,
    fun hf prefs enabled hprefs henabled =>
      CreateNotification_of_no_faults db hf req prefs enabled hprefs henabled⟩

/-- C23 at a concrete input: the preferences of user 1 are stored and have
`InventoryAlerts` enabled; a notification about the inventory is inserted and
returned. -/
theorem C23_notification_by_preference_witness :
    shopDB.faults = [] ∧
    (CreateNotification shopDB stockRequest).1 =
      .ok (some { ID := 1, UserID := 1, Type_ := "inventory", Title := "Stock Added",
                  Message := "Added 10 units of Pen to inventory", Read := false,
                  RelatedID := some 5 }) ∧
    (CreateNotification shopDB stockRequest).2.notifications =
      [{ ID := 1, UserID := 1, Type_ := "inventory", Title := "Stock Added",
         Message := "Added 10 units of Pen to inventory", Read := false, RelatedID := some 5 }] :=
  ⟨rfl,
    ((C23_notification_by_preference shopDB stockRequest).2 rfl
      { ID := 1, UserID := 1, SalesNotifications := false, InventoryAlerts := true,
        UserActivity := false, SystemUpdates := true, EmailNotifications := false,
        PushNotifications := true } true rfl (by decide)).1 rfl⟩


/-! ## The product service -/

theorem wrapInt_of_range (x : Int) (h1 : -9223372036854775808 ≤ x) (h2 : x < 9223372036854775808) :
    wrapInt x = x := by
  unfold wrapInt
  omega

theorem find?_map_replace {R : Type} (key : R → Nat) (x : R) (rows : List R) (p : R)
    (h : rows.find? (fun r => decide (key r = key x)) = some p) :
    (rows.map (fun r => if key r = key x then x else r)).find?
      (fun r => decide (key r = key x)) = some x := by
  induction rows with
  | nil => simp at h
  | cons r rs ih =>
    by_cases hr : key r = key x
    · simp [List.find?, hr]
    · have h2 : rs.find? (fun r => decide (key r = key x)) = some p := by
        simpa [List.find?, hr] using h
      simp [List.find?, hr, ih h2]

/-- After `db.Save(&x)` the row read under the primary key of `x` is `x`, when the
table had a row under that key. -/
theorem find?_saveRow {R : Type} (key : R → Nat) (x : R) (rows : List R) (p : R)
    (h : rows.find? (fun r => decide (key r = key x)) = some p) :
    (saveRow key x rows).find? (fun r => decide (key r = key x)) = some x := by
  have hany : rows.any (fun r => decide (key r = key x)) = true := by
    rw [List.any_eq_true]
    exact ⟨p, List.mem_of_find?_eq_some h, by simpa using List.find?_some h⟩
  unfold saveRow
  rw [if_pos hany]
  exact find?_map_replace key x rows p h

theorem find?_map_replace_ne {R : Type} (key : R → Nat) (x : R) (rows : List R) (k : Nat)
    (hk : k ≠ key x) :
    (rows.map (fun r => if key r = key x then x else r)).find? (fun r => decide (key r = k)) =
      rows.find? (fun r => decide (key r = k)) := by
  induction rows with
  | nil => rfl
  | cons r rs ih =>
    rw [List.map_cons, List.find?_cons, List.find?_cons, ih]
    by_cases hr : key r = key x
    · have hrk : key r ≠ k := fun e => hk (e.symm.trans hr)
      have hxk : key x ≠ k := fun e => hk e.symm
      simp [hr, hrk, hxk]
    · simp [hr]

/-- After `db.Save(&x)` the rows under other primary keys are read as before. -/
theorem find?_saveRow_ne {R : Type} (key : R → Nat) (x : R) (rows : List R) (k : Nat)
    (hk : k ≠ key x) :
    (saveRow key x rows).find? (fun r => decide (key r = k)) =
      rows.find? (fun r => decide (key r = k)) := by
  unfold saveRow
  split
  · exact find?_map_replace_ne key x rows k hk
  · rw [List.find?_append]
    have hxk : key x ≠ k := fun e => hk e.symm
    simp [List.find?, hxk]

theorem GetProductByID_same (db : DB) (id : Nat) : (GetProductByID db id).2.sameTables db := by
  unfold GetProductByID
  have h1 := db.First_same db.products (fun p => p.ID = id)
  split
  · next db1 heq => rw [heq] at h1; exact h1
  · next _ db1 _ heq => rw [heq] at h1; exact h1
  · next _ db1 heq => rw [heq] at h1; exact h1

theorem GetProductByID_of_no_faults (db : DB) (id : Nat) (h : db.faults = []) :
    GetProductByID db id =
      (match db.products.find? (fun p => p.ID = id) with
        | none => .error "product not found"
        | some product => .ok product, db) := by
  unfold GetProductByID
  rw [DB.First_of_no_faults _ _ _ h]
  cases db.products.find? (fun p => decide (p.ID = id)) <;> rfl

/-- A row that `First` returns is the first row of the table that meets the
condition. -/
theorem DB.First_ok {R : Type} (db : DB) (rows : List R) (cond : R → Bool) (row : R) (db1 : DB)
    (h : db.First rows cond = (.ok row, db1)) : rows.find? cond = some row := by
  unfold DB.First at h
  generalize db.fault = r at h
  obtain ⟨f, db2⟩ := r
  cases f with
  | some msg => simp at h
  | none =>
    cases hfind : rows.find? cond with
    | none => simp [hfind] at h
    | some row1 =>
      simp only [hfind] at h
      exact congrArg some (Except.ok.inj (Prod.mk.inj h).1)

/-- What `GetProductByID` can return: an error, or the row stored under the id. -/
theorem GetProductByID_ok (db : DB) (id : Nat) (product : Product) (db1 : DB)
    (h : GetProductByID db id = (.ok product, db1)) :
    db.products.find? (fun p => p.ID = id) = some product := by
  unfold GetProductByID at h
  split at h
  · simp at h
  · simp at h
  · next row db2 heq =>
    have := db.First_ok _ _ _ _ heq
    rw [this]
    exact congrArg some (Except.ok.inj (Prod.mk.inj h).1)

/-- The check of the company answers 403 or 404 and changes no table, or lets the
request pass; it lets every request pass when the context carries no company. -/
theorem verifyProductCompany_same (α : Type) (db : DB) (id : Nat) (ctx : Context) :
    (verifyProductCompany α db id ctx).2.sameTables db := by
  unfold verifyProductCompany
  split
  · next companyID _ =>
    have h1 := GetProductByID_same db id
    split
    · next _ db1 heq => rw [heq] at h1; exact h1
    · next product db1 heq =>
      rw [heq] at h1
      split
      · exact h1
      · exact h1
  · exact db.sameTables_refl

/-- Whatever the database does, `ReduceProductQuantity` either returns an error and
changes no table, or finds the product with a quantity that suffices and saves it
with the reduced quantity. -/
theorem ReduceProductQuantity_cases (db : DB) (id : Nat) (quantity : Int) :
    (∃ err, (ReduceProductQuantity db id quantity).1 = some err ∧
      (ReduceProductQuantity db id quantity).2.sameTables db) ∨
    (∃ (product : Product) (db1 : DB), db.products.find? (fun p => p.ID = id) = some product ∧
      ¬ product.Quantity < quantity ∧ db1.sameTables db ∧
      ReduceProductQuantity db id quantity =
        (none, { db1 with
          products := saveRow Product.ID
                        { product with Quantity := wrapInt (product.Quantity - quantity) }
                        db1.products })) := by
  unfold ReduceProductQuantity
  have h1 := db.First_same db.products (fun p => p.ID = id)
  rcases hfe : db.First db.products (fun p => decide (p.ID = id)) with ⟨r, db1⟩
  rw [hfe] at h1
  cases r with
  | error e => cases e <;> exact Or.inl ⟨_, rfl, h1⟩
  | ok product =>
    simp only
    by_cases hq : product.Quantity < quantity
    · rw [if_pos hq]
      exact Or.inl ⟨_, rfl, h1⟩
    · rw [if_neg hq]
      rcases db1.Exec_cases (fun d => { d with
          products := saveRow Product.ID
                        { product with Quantity := wrapInt (product.Quantity - quantity) }
                        d.products }) with ⟨msg, db2, he, hs⟩ | ⟨db2, he, hs⟩
      · rw [he]
        exact Or.inl ⟨_, rfl, hs.trans h1⟩
      · rw [he]
        exact Or.inr ⟨product, db2, db.First_ok _ _ _ _ hfe, hq, hs.trans h1, rfl⟩

/-- Whatever the database does and whatever the request is, the table of products
after `reduceProductQuantityHandler` is the table of before, or that table with one
product saved with its quantity reduced by a positive amount that it covered. -/
theorem reduceProductQuantityHandler_products (db : DB) (id? : Option Nat) (q? : Option Int)
    (ctx : Context) :
    (reduceProductQuantityHandler db id? q? ctx).1.products = db.products ∨
    ∃ (id : Nat) (q : Int) (product : Product), id? = some id ∧ q? = some q ∧ 0 < q ∧
      db.products.find? (fun p => p.ID = id) = some product ∧ ¬ product.Quantity < q ∧
      (reduceProductQuantityHandler db id? q? ctx).1.products =
        saveRow Product.ID { product with Quantity := wrapInt (product.Quantity - q) }
          db.products := by
  unfold reduceProductQuantityHandler
  cases id? with
  | none => exact Or.inl rfl
  | some id =>
    cases q? with
    | none => exact Or.inl rfl
    | some q =>
      simp only
      by_cases hq : q ≤ 0
      · rw [if_pos hq]
        exact Or.inl rfl
      · rw [if_neg hq]
        have hv := verifyProductCompany_same (Option Product) db id ctx
        rcases hve : verifyProductCompany (Option Product) db id ctx with ⟨resp, db1⟩
        rw [hve] at hv
        cases resp with
        | some resp => exact Or.inl hv.products
        | none =>
          simp only
          rcases ReduceProductQuantity_cases db1 id q with ⟨err, he, hs⟩ | ⟨product, db2, hfind, hnot, hs, he⟩
          · rcases hre : ReduceProductQuantity db1 id q with ⟨e, db2⟩
            rw [hre] at he hs
            simp only at he
            subst he
            exact Or.inl (hs.trans hv).products
          · rw [he]
            simp only
            have hg := GetProductByID_same
              { db2 with
                products := saveRow Product.ID
                              { product with Quantity := wrapInt (product.Quantity - q) }
                              db2.products } id
            have hprod : db2.products = db.products := (hs.trans hv).products
            refine Or.inr ⟨id, q, product, rfl, rfl, by omega, ?_, hnot, ?_⟩
            · rw [← hv.products]; exact hfind
            · rcases hge : GetProductByID
                  { db2 with
                    products := saveRow Product.ID
                                  { product with Quantity := wrapInt (product.Quantity - q) }
                                  db2.products } id with ⟨r, db3⟩
              rw [hge] at hg
              have h3 := hg.products
              simp only at h3
              rw [hprod] at h3
              cases r with
              | error e => exact h3
              | ok pr => exact h3

/-- C30: for a product stored under `id`, when the database fails no statement,
`ReduceProductQuantity(id, q)` fails with "insufficient quantity" exactly when the
stored quantity is less than `q`, and then changes nothing; otherwise it returns no
error and the stored quantity becomes the old quantity minus `q` (a subtraction of
Go `int`s, exact whenever the difference is an `int`, as it is for every `q >= 0`),
the other products staying as they are.  `reduceProductQuantityHandler` answers 400
to a quantity that is not a number or is not positive and changes nothing; and
whatever the request and whatever the database does, a product whose quantity is
not negative does not have a negative quantity after the handler. -/
theorem C30_reduce_quantity (db : DB) (id : Nat) (p : Product)
    (hp : db.products.find? (fun x => decide (x.ID = id)) = some p) :
    (db.faults = [] → ∀ q : Int,
      ((ReduceProductQuantity db id q).1 = some "insufficient quantity" ↔ p.Quantity < q) ∧
      (p.Quantity < q → (ReduceProductQuantity db id q).2 = db) ∧
      (¬ p.Quantity < q →
        (ReduceProductQuantity db id q).1 = none ∧
        (ReduceProductQuantity db id q).2.products.find? (fun x => x.ID = id) =
          some { p with Quantity := wrapInt (p.Quantity - q) } ∧
        (∀ k : Nat, k ≠ id →
          (ReduceProductQuantity db id q).2.products.find? (fun x => x.ID = k) =
            db.products.find? (fun x => x.ID = k)) ∧
        (-9223372036854775808 ≤ p.Quantity - q → p.Quantity - q < 9223372036854775808 →
          wrapInt (p.Quantity - q) = p.Quantity - q) ∧
        (0 ≤ q → -9223372036854775808 ≤ p.Quantity → p.Quantity < 9223372036854775808 →
          wrapInt (p.Quantity - q) = p.Quantity - q))) ∧
    (∀ (ctx : Context) (id? : Option Nat) (q? : Option Int),
      (q? = none ∨ ∃ q, q? = some q ∧ q ≤ 0) →
      (reduceProductQuantityHandler db id? q? ctx).2.status = 400 ∧
      (reduceProductQuantityHandler db id? q? ctx).1 = db) ∧
    (0 ≤ p.Quantity → p.Quantity < 9223372036854775808 →
      ∀ (ctx : Context) (id? : Option Nat) (q? : Option Int) (p1 : Product),
      (reduceProductQuantityHandler db id? q? ctx).1.products.find? (fun x => x.ID = id) =
        some p1 → 0 ≤ p1.Quantity) := by
  have hpid : p.ID = id := by simpa using List.find?_some hp
  subst hpid
  refine ⟨?_, ?_, ?_⟩
  · intro hf q
    have hrun : ReduceProductQuantity db p.ID q =
        if p.Quantity < q then (some "insufficient quantity", db)
        else (none, { db with
          products := saveRow Product.ID { p with Quantity := wrapInt (p.Quantity - q) }
                        db.products }) := by
      unfold ReduceProductQuantity
      rw [DB.First_of_no_faults _ _ _ hf, hp]
      simp only
      by_cases hq : p.Quantity < q
      · rw [if_pos hq, if_pos hq]
      · rw [if_neg hq, if_neg hq, DB.Exec_of_no_faults _ _ hf]
    rw [hrun]
    refine ⟨?_, ?_, ?_⟩
    · by_cases hq : p.Quantity < q
      · rw [if_pos hq]; simp [hq]
      · rw [if_neg hq]; simp [hq]
    · intro hq
      rw [if_pos hq]
    · intro hq
      rw [if_neg hq]
      refine ⟨rfl, ?_, ?_, ?_, ?_⟩
      · exact find?_saveRow Product.ID { p with Quantity := wrapInt (p.Quantity - q) }
          db.products p hp
      · intro k hk
        exact find?_saveRow_ne Product.ID _ db.products k hk
      · intro h1 h2
        exact wrapInt_of_range _ h1 h2
      · intro h0 h1 h2
        exact wrapInt_of_range _ (by omega) (by omega)
  · intro ctx id? q? hq
    unfold reduceProductQuantityHandler
    cases id? with
    | none => exact ⟨rfl, rfl⟩
    | some id1 =>
      rcases hq with rfl | ⟨q, rfl, hq⟩
      · exact ⟨rfl, rfl⟩
      · simp only
        rw [if_pos hq]
        exact ⟨rfl, rfl⟩
  · intro h0 hmax ctx id? q? p1 hfind
    rcases reduceProductQuantityHandler_products db id? q? ctx with h | ⟨id1, q, product, _, _, hq, hprod, hnot, h⟩
    · rw [h, hp] at hfind
      have := Option.some.inj hfind
      rw [← this]; exact h0
    · rw [h] at hfind
      have hid1 : product.ID = id1 := by simpa using List.find?_some hprod
      by_cases hid : p.ID = id1
      · subst hid
        rw [hp] at hprod
        have hpp := Option.some.inj hprod
        subst hpp
        have hs : (saveRow Product.ID { p with Quantity := wrapInt (p.Quantity - q) }
            db.products).find? (fun x => decide (x.ID = p.ID)) =
            some { p with Quantity := wrapInt (p.Quantity - q) } :=
          find?_saveRow Product.ID { p with Quantity := wrapInt (p.Quantity - q) }
            db.products p hp
        rw [hs] at hfind
        have := Option.some.inj hfind
        rw [← this]
        show 0 ≤ wrapInt (p.Quantity - q)
        rw [wrapInt_of_range _ (by omega) (by omega)]
        omega
      · have hs := find?_saveRow_ne Product.ID
          { product with Quantity := wrapInt (product.Quantity - q) } db.products p.ID (by
            show p.ID ≠ product.ID
            rw [hid1]; exact hid)
        rw [hs, hp] at hfind
        have := Option.some.inj hfind
        rw [← this]; exact h0

/-- C30 at a concrete input: product 5 has the quantity 10; reducing it by 4 leaves
6, reducing it by 11 fails and changes nothing, and the handler answers 400 to a
quantity of 0. -/
theorem C30_reduce_quantity_witness :
    shopDB.products.find? (fun x => x.ID = 5) =
      some { ID := 5, Name := "Pen", Price := .finite "50", Currency := "USD", Quantity := 10,
             ImageURI := none, Attributes := "\x7b\x7d", CompanyID := 7 } ∧
    shopDB.faults = [] ∧
    (ReduceProductQuantity shopDB 5 4).1 = none ∧
    (ReduceProductQuantity shopDB 5 4).2.products.find? (fun x => x.ID = 5) =
      some { ID := 5, Name := "Pen", Price := .finite "50", Currency := "USD",
             Quantity := wrapInt (10 - 4), ImageURI := none, Attributes := "\x7b\x7d",
             CompanyID := 7 } ∧
    wrapInt (10 - 4) = 6 ∧
    (ReduceProductQuantity shopDB 5 11).1 = some "insufficient quantity" ∧
    (ReduceProductQuantity shopDB 5 11).2 = shopDB ∧
    (reduceProductQuantityHandler shopDB (some 5) (some 0) (contextOf 1 7 SuperAdmin)).2.status =
      400 :=
  ⟨rfl, rfl,
    (((C30_reduce_quantity shopDB 5 _ rfl).1 rfl 4).2.2 (by decide)).1,
    (((C30_reduce_quantity shopDB 5 _ rfl).1 rfl 4).2.2 (by decide)).2.1,
    by decide,
    (((C30_reduce_quantity shopDB 5 _ rfl).1 rfl 11).1).mpr (by decide),
    ((C30_reduce_quantity shopDB 5 _ rfl).1 rfl 11).2.1 (by decide),
    ((C30_reduce_quantity shopDB 5 _ rfl).2.1 (contextOf 1 7 SuperAdmin) (some 5) (some 0)
      (Or.inr ⟨0, rfl, by decide⟩)).1⟩

/-! ## The company check of the product handlers -/

theorem verifyProductCompany_cases (α : Type) (db : DB) (id : Nat) (ctx : Context) :
    (∀ resp, (verifyProductCompany α db id ctx).1 = some resp →
      resp.status = 403 ∨ resp.status = 404) ∧
    ((verifyProductCompany α db id ctx).1 = none →
      ∀ K, ctx.company_id = some (.uintPtr (some K)) →
        ∃ product, db.products.find? (fun p => decide (p.ID = id)) = some product ∧
          product.CompanyID = K) := by
  unfold verifyProductCompany
  split
  · next companyID hc =>
    rcases hg : GetProductByID db id with ⟨r, db1⟩
    cases r with
    | error e =>
      refine ⟨fun resp h => ?_, fun h => by simp at h⟩
      simp only [Option.some.injEq] at h
      rw [← h]; exact Or.inr rfl
    | ok product =>
      simp only
      by_cases hne : product.CompanyID ≠ companyID
      · rw [if_pos hne]
        refine ⟨fun resp h => ?_, fun h => by simp at h⟩
        simp only [Option.some.injEq] at h
        rw [← h]; exact Or.inl rfl
      · rw [if_neg hne]
        refine ⟨fun resp h => by simp at h, fun _ K hK => ?_⟩
        rw [hc] at hK
        have hK2 : companyID = K := by simpa using hK
        exact ⟨product, GetProductByID_ok db id product db1 hg, by
          rw [← hK2]; exact not_not.mp hne⟩
  · next hno =>
    refine ⟨fun resp h => by simp at h, fun _ K hK => ?_⟩
    exact absurd hK (hno K)

theorem verifyProductCompany_no_company (α : Type) (db : DB) (id : Nat) (ctx : Context)
    (h : ∀ K, ctx.company_id ≠ some (.uintPtr (some K))) :
    verifyProductCompany α db id ctx = (none, db) := by
  unfold verifyProductCompany
  split
  · next K hK => exact absurd hK (h K)
  · rfl

theorem verifyProductCompany_other (α : Type) (db : DB) (hf : db.faults = []) (id : Nat)
    (ctx : Context) (p : Product) (K : Nat)
    (hp : db.products.find? (fun x => decide (x.ID = id)) = some p)
    (hK : ctx.company_id = some (.uintPtr (some K))) (hne : K ≠ p.CompanyID) :
    verifyProductCompany α db id ctx = (some ⟨403, .error "access denied"⟩, db) := by
  unfold verifyProductCompany
  rw [hK]
  simp only
  rw [GetProductByID_of_no_faults db id hf, hp]
  simp only
  rw [if_pos (fun e => hne e.symm)]

theorem UpdateProductRequest.apply_product_ID (req : UpdateProductRequest) (product : Product) :
    (req.apply product).ID = product.ID := by
  obtain ⟨n, pr, c, co, q, i, a⟩ := req
  cases n <;> cases pr <;> cases c <;> cases co <;> cases q <;> cases i <;> cases a <;> rfl

theorem UpdateProductRequest.apply_CompanyID (req : UpdateProductRequest) (product : Product) :
    (req.apply product).CompanyID = req.CompanyID.getD product.CompanyID := by
  obtain ⟨n, pr, c, co, q, i, a⟩ := req
  cases n <;> cases pr <;> cases c <;> cases co <;> cases q <;> cases i <;> cases a <;> rfl

/-- Whatever the database does, `UpdateProduct` either returns an error and changes
no table, or finds the product and saves it with the fields of the request. -/
theorem UpdateProduct_cases (db : DB) (id : Nat) (req : UpdateProductRequest) :
    (∃ err, (UpdateProduct db id req).1 = .error err ∧
      (UpdateProduct db id req).2.sameTables db) ∨
    (∃ (product : Product) (db1 : DB),
      db.products.find? (fun p => decide (p.ID = id)) = some product ∧ db1.sameTables db ∧
      UpdateProduct db id req =
        (.ok (req.apply product),
          { db1 with products := saveRow Product.ID (req.apply product) db1.products })) := by
  unfold UpdateProduct
  have h1 := db.First_same db.products (fun p => p.ID = id)
  rcases hfe : db.First db.products (fun p => decide (p.ID = id)) with ⟨r, db1⟩
  rw [hfe] at h1
  cases r with
  | error e => cases e <;> exact Or.inl ⟨_, rfl, h1⟩
  | ok product =>
    simp only
    rcases db1.Exec_cases (fun d =>
        { d with products := saveRow Product.ID (req.apply product) d.products }) with
      ⟨msg, db2, he, hs⟩ | ⟨db2, he, hs⟩
    · rw [he]
      exact Or.inl ⟨_, rfl, hs.trans h1⟩
    · rw [he]
      exact Or.inr ⟨product, db2, db.First_ok _ _ _ _ hfe, hs.trans h1, rfl⟩

/-- Whatever the database does, `DeleteProduct` either returns an error and changes
no table, or finds the product and removes it. -/
theorem DeleteProduct_cases (db : DB) (id : Nat) :
    (∃ err, (DeleteProduct db id).1 = some err ∧ (DeleteProduct db id).2.sameTables db) ∨
    (∃ (product : Product) (db1 : DB),
      db.products.find? (fun p => decide (p.ID = id)) = some product ∧ db1.sameTables db ∧
      DeleteProduct db id =
        (none, { db1 with products := db1.products.filter (fun p => p.ID ≠ product.ID) })) := by
  unfold DeleteProduct
  have h1 := db.First_same db.products (fun p => p.ID = id)
  rcases hfe : db.First db.products (fun p => decide (p.ID = id)) with ⟨r, db1⟩
  rw [hfe] at h1
  cases r with
  | error e => cases e <;> exact Or.inl ⟨_, rfl, h1⟩
  | ok product =>
    simp only
    rcases db1.Exec_cases (fun d =>
        { d with products := d.products.filter (fun p => p.ID ≠ product.ID) }) with
      ⟨msg, db2, he, hs⟩ | ⟨db2, he, hs⟩
    · rw [he]
      exact Or.inl ⟨_, rfl, hs.trans h1⟩
    · rw [he]
      exact Or.inr ⟨product, db2, db.First_ok _ _ _ _ hfe, hs.trans h1, rfl⟩

theorem CreateNotification_products (db : DB) (req : CreateNotificationRequest) :
    (CreateNotification db req).2.products = db.products := by
  have h := congrArg DB.products (CreateNotification_cases db req).1
  exact h

/-- Whatever the database does, `updateProductHandler` either answers 400, 403 or 404
and leaves the products as they are, or answers 200 after saving the product with
the fields of the request, the company left out when the context carries one, in
which case the product is one of that company. -/
theorem updateProductHandler_cases (db : DB) (id : Nat) (req : UpdateProductRequest)
    (ctx : Context) :
    ((updateProductHandler db (some id) (.ok req) ctx).1.products = db.products ∧
      ((updateProductHandler db (some id) (.ok req) ctx).2.status = 400 ∨
       (updateProductHandler db (some id) (.ok req) ctx).2.status = 403 ∨
       (updateProductHandler db (some id) (.ok req) ctx).2.status = 404)) ∨
    (∃ (product : Product) (req1 : UpdateProductRequest),
      db.products.find? (fun p => decide (p.ID = id)) = some product ∧
      ((∃ K, ctx.company_id = some (.uintPtr (some K)) ∧ product.CompanyID = K ∧
          req1 = { req with CompanyID := none }) ∨
        ((∀ K, ctx.company_id ≠ some (.uintPtr (some K))) ∧ req1 = req)) ∧
      (updateProductHandler db (some id) (.ok req) ctx).1.products =
        saveRow Product.ID (req1.apply product) db.products ∧
      (updateProductHandler db (some id) (.ok req) ctx).2 = ⟨200, .value (req1.apply product)⟩) := by
  unfold updateProductHandler
  simp only
  have hv := verifyProductCompany_same Product db id ctx
  have hvc := verifyProductCompany_cases Product db id ctx
  rcases hve : verifyProductCompany Product db id ctx with ⟨resp, db1⟩
  rw [hve] at hv hvc
  simp only at hv hvc
  cases resp with
  | some resp =>
    simp only
    refine Or.inl ⟨hv.products, ?_⟩
    rcases hvc.1 resp rfl with h | h
    · exact Or.inr (Or.inl h)
    · exact Or.inr (Or.inr h)
  | none =>
    simp only
    have hg := GetProductByID_same db1 id
    generalize hreq : (match ctx.company_id with
      | some (.uintPtr (some _)) => { req with CompanyID := none }
      | _ => req : UpdateProductRequest) = req1
    have hreq1 : (∃ K, ctx.company_id = some (.uintPtr (some K)) ∧
          req1 = { req with CompanyID := none }) ∨
        ((∀ K, ctx.company_id ≠ some (.uintPtr (some K))) ∧ req1 = req) := by
      rw [← hreq]
      split
      · next K hK => exact Or.inl ⟨K, hK, rfl⟩
      · next hno => exact Or.inr ⟨fun K hK => hno K hK, rfl⟩
    rcases UpdateProduct_cases (GetProductByID db1 id).2 id req1 with
      ⟨err, he, hs⟩ | ⟨product, db2, hfind, hs, he⟩
    · rcases hue : UpdateProduct (GetProductByID db1 id).2 id req1 with ⟨r, db3⟩
      rw [hue] at he hs
      simp only at he
      subst he
      exact Or.inl ⟨((hs.trans hg).trans hv).products, Or.inl rfl⟩
    · rw [he]
      simp only
      have hprod : db2.products = db.products := ((hs.trans hg).trans hv).products
      have hfind2 : db.products.find? (fun p => decide (p.ID = id)) = some product := by
        rw [← hv.products, ← hg.products]; exact hfind
      refine Or.inr ⟨product, req1, hfind2, ?_, ?_, rfl⟩
      · rcases hreq1 with ⟨K, hK, hr⟩ | ⟨hno, hr⟩
        · obtain ⟨product0, hf0, hc0⟩ := hvc.2 rfl K hK
          rw [hfind2] at hf0
          have := Option.some.inj hf0
          subst this
          exact Or.inl ⟨K, hK, hc0, hr⟩
        · exact Or.inr ⟨hno, hr⟩
      · have hsave : DB.products
            { db2 with products := saveRow Product.ID (req1.apply product) db2.products } =
            saveRow Product.ID (req1.apply product) db.products := by
          simp only [hprod]
        cases req1.Quantity with
        | none => exact hsave
        | some quantity =>
          simp only
          split
          · split
            · rw [CreateNotification_products]; exact hsave
            · exact hsave
          · exact hsave

theorem verifyProductCompany_mismatch (α : Type) (db : DB) (id : Nat) (ctx : Context)
    (p : Product) (K : Nat) (hp : db.products.find? (fun x => decide (x.ID = id)) = some p)
    (hK : ctx.company_id = some (.uintPtr (some K))) (hne : K ≠ p.CompanyID) :
    ∃ resp db1, verifyProductCompany α db id ctx = (some resp, db1) ∧ db1.sameTables db ∧
      (resp.status = 403 ∨ resp.status = 404) := by
  have hv := verifyProductCompany_same α db id ctx
  have hvc := verifyProductCompany_cases α db id ctx
  rcases hve : verifyProductCompany α db id ctx with ⟨resp, db1⟩
  rw [hve] at hv hvc
  simp only at hv hvc
  cases resp with
  | some resp => exact ⟨resp, db1, rfl, hv, hvc.1 resp rfl⟩
  | none =>
    obtain ⟨product, hf0, hc0⟩ := hvc.2 rfl K hK
    rw [hp] at hf0
    have := Option.some.inj hf0
    subst this
    exact absurd hc0.symm hne

theorem find?_filter_ne {R : Type} (key : R → Nat) (rows : List R) (k : Nat) :
    (rows.filter (fun r => decide (key r ≠ k))).find? (fun r => decide (key r = k)) = none := by
  rw [List.find?_eq_none]
  intro r hr
  have := (List.mem_filter.mp hr).2
  simpa using this

theorem UpdateProduct_of_no_faults (db : DB) (hf : db.faults = []) (id : Nat)
    (req : UpdateProductRequest) (p : Product)
    (hp : db.products.find? (fun x => decide (x.ID = id)) = some p) :
    UpdateProduct db id req =
      (.ok (req.apply p), { db with products := saveRow Product.ID (req.apply p) db.products }) := by
  unfold UpdateProduct
  rw [DB.First_of_no_faults _ _ _ hf, hp]
  simp only
  rw [DB.Exec_of_no_faults _ _ hf]

theorem DeleteProduct_of_no_faults (db : DB) (hf : db.faults = []) (id : Nat) (p : Product)
    (hp : db.products.find? (fun x => decide (x.ID = id)) = some p) :
    DeleteProduct db id =
      (none, { db with products := db.products.filter (fun x => x.ID ≠ p.ID) }) := by
  unfold DeleteProduct
  rw [DB.First_of_no_faults _ _ _ hf, hp]
  simp only
  rw [DB.Exec_of_no_faults _ _ hf]

theorem ReduceProductQuantity_of_no_faults (db : DB) (hf : db.faults = []) (id : Nat) (q : Int)
    (p : Product) (hp : db.products.find? (fun x => decide (x.ID = id)) = some p)
    (hq : ¬ p.Quantity < q) :
    ReduceProductQuantity db id q =
      (none, { db with
        products := saveRow Product.ID { p with Quantity := wrapInt (p.Quantity - q) }
                      db.products }) := by
  unfold ReduceProductQuantity
  rw [DB.First_of_no_faults _ _ _ hf, hp]
  simp only
  rw [if_neg hq, DB.Exec_of_no_faults _ _ hf]

/-- The answer of `updateProductHandler` to a request without a company in its
context, when the database fails no statement. -/
theorem updateProductHandler_no_company (db : DB) (hf : db.faults = []) (id : Nat)
    (req : UpdateProductRequest) (ctx : Context) (p : Product)
    (hp : db.products.find? (fun x => decide (x.ID = id)) = some p)
    (hno : ∀ K, ctx.company_id ≠ some (.uintPtr (some K))) :
    (updateProductHandler db (some id) (.ok req) ctx).2 = ⟨200, .value (req.apply p)⟩ := by
  unfold updateProductHandler
  simp only
  rw [verifyProductCompany_no_company Product db id ctx hno]
  simp only
  rw [GetProductByID_of_no_faults db id hf, hp]
  simp only
  rw [UpdateProduct_of_no_faults db hf id req p hp]

/-- C25, where the code departs from it.  For a product `p` stored under `id`:
a caller whose context carries a company other than that of `p` is answered 403 by
`updateProductHandler`, `deleteProductHandler` and `reduceProductQuantityHandler`
(404 if the database fails the read) and the products stay as they are, and an
update by a caller whose context carries a company never changes the `CompanyID` of
`p`, whatever the body carries.  But a caller whose context carries no company (the
middleware stores a nil `*uint` for a user without a branch) passes all three
handlers without any check: when the database fails no statement, the update is
answered 200 and saves `p` with the fields of the body, its `companyId` included;
the delete is answered 200 and removes `p`; the reduction is answered 200 and
reduces the quantity of `p`, whatever the company of `p` is. -/
theorem C25_company_check (db : DB) (id : Nat) (p : Product)
    (hp : db.products.find? (fun x => decide (x.ID = id)) = some p) :
    (∀ (K : Nat) (ctx : Context), ctx.company_id = some (.uintPtr (some K)) → K ≠ p.CompanyID →
      (∀ req : UpdateProductRequest,
        (updateProductHandler db (some id) (.ok req) ctx).1.products = db.products ∧
        ((updateProductHandler db (some id) (.ok req) ctx).2.status = 403 ∨
          (updateProductHandler db (some id) (.ok req) ctx).2.status = 404) ∧
        (db.faults = [] → updateProductHandler db (some id) (.ok req) ctx =
          (db, ⟨403, .error "access denied"⟩))) ∧
      ((deleteProductHandler db (some id) ctx).1.products = db.products ∧
        ((deleteProductHandler db (some id) ctx).2.status = 403 ∨
          (deleteProductHandler db (some id) ctx).2.status = 404) ∧
        (db.faults = [] → deleteProductHandler db (some id) ctx =
          (db, ⟨403, .error "access denied"⟩))) ∧
      (∀ q : Int, 0 < q →
        (reduceProductQuantityHandler db (some id) (some q) ctx).1.products = db.products ∧
        ((reduceProductQuantityHandler db (some id) (some q) ctx).2.status = 403 ∨
          (reduceProductQuantityHandler db (some id) (some q) ctx).2.status = 404) ∧
        (db.faults = [] → reduceProductQuantityHandler db (some id) (some q) ctx =
          (db, ⟨403, .error "access denied"⟩)))) ∧
    (∀ (K : Nat) (ctx : Context) (req : UpdateProductRequest) (p1 : Product),
      ctx.company_id = some (.uintPtr (some K)) →
      (updateProductHandler db (some id) (.ok req) ctx).1.products.find?
        (fun x => decide (x.ID = id)) = some p1 →
      p1.CompanyID = p.CompanyID) ∧
    (db.faults = [] → ∀ ctx : Context, (∀ K, ctx.company_id ≠ some (.uintPtr (some K))) →
      (∀ req : UpdateProductRequest,
        (updateProductHandler db (some id) (.ok req) ctx).2 = ⟨200, .value (req.apply p)⟩ ∧
        (updateProductHandler db (some id) (.ok req) ctx).1.products.find?
          (fun x => decide (x.ID = id)) = some (req.apply p) ∧
        (∀ K2, req.CompanyID = some K2 → (req.apply p).CompanyID = K2)) ∧
      ((deleteProductHandler db (some id) ctx).2 =
          ⟨200, .message "product deleted successfully"⟩ ∧
        (deleteProductHandler db (some id) ctx).1.products.find?
          (fun x => decide (x.ID = id)) = none) ∧
      (∀ q : Int, 0 < q → q ≤ p.Quantity →
        (reduceProductQuantityHandler db (some id) (some q) ctx).2.status = 200 ∧
        (reduceProductQuantityHandler db (some id) (some q) ctx).1.products.find?
          (fun x => decide (x.ID = id)) =
          some { p with Quantity := wrapInt (p.Quantity - q) })) := by
  have hpid : p.ID = id := by simpa using List.find?_some hp
  subst hpid
  refine ⟨?_, ?_, ?_⟩
  · intro K ctx hK hne
    refine ⟨fun req => ?_, ?_, fun q hq => ?_⟩
    · obtain ⟨resp, db1, hv, hs, hst⟩ :=
        verifyProductCompany_mismatch Product db p.ID ctx p K hp hK hne
      refine ⟨?_, ?_, fun hf => ?_⟩
      · simp only [updateProductHandler, hv]
        exact hs.products
      · simp only [updateProductHandler, hv]
        exact hst
      · simp only [updateProductHandler,
          verifyProductCompany_other Product db hf p.ID ctx p K hp hK hne]
    · obtain ⟨resp, db1, hv, hs, hst⟩ :=
        verifyProductCompany_mismatch Unit db p.ID ctx p K hp hK hne
      refine ⟨?_, ?_, fun hf => ?_⟩
      · simp only [deleteProductHandler, hv]
        exact hs.products
      · simp only [deleteProductHandler, hv]
        exact hst
      · simp only [deleteProductHandler,
          verifyProductCompany_other Unit db hf p.ID ctx p K hp hK hne]
    · obtain ⟨resp, db1, hv, hs, hst⟩ :=
        verifyProductCompany_mismatch (Option Product) db p.ID ctx p K hp hK hne
      have hq2 : ¬ q ≤ 0 := by omega
      refine ⟨?_, ?_, fun hf => ?_⟩
      · simp only [reduceProductQuantityHandler, hv, if_neg hq2]
        exact hs.products
      · simp only [reduceProductQuantityHandler, hv, if_neg hq2]
        exact hst
      · simp only [reduceProductQuantityHandler, if_neg hq2,
          verifyProductCompany_other (Option Product) db hf p.ID ctx p K hp hK hne]
  · intro K ctx req p1 hK hfind
    rcases updateProductHandler_cases db p.ID req ctx with ⟨hprod, _⟩ |
      ⟨product, req1, hf0, hreq, hprod, _⟩
    · rw [hprod, hp] at hfind
      rw [← Option.some.inj hfind]
    · rw [hp] at hf0
      have := Option.some.inj hf0
      subst this
      rcases hreq with ⟨K1, _, _, hr⟩ | ⟨hno, _⟩
      · have hkey : (req1.apply p).ID = p.ID := UpdateProductRequest.apply_product_ID req1 p
        have hs := find?_saveRow Product.ID (req1.apply p) db.products p (by
          rw [hkey]; exact hp)
        rw [hkey] at hs
        rw [hprod, hs] at hfind
        rw [← Option.some.inj hfind, UpdateProductRequest.apply_CompanyID, hr]
        rfl
      · exact absurd hK (hno K)
  · intro hf ctx hno
    refine ⟨fun req => ?_, ?_, fun q hq hle => ?_⟩
    · have h2 := updateProductHandler_no_company db hf p.ID req ctx p hp hno
      refine ⟨h2, ?_, fun K2 hK2 => ?_⟩
      · rcases updateProductHandler_cases db p.ID req ctx with ⟨_, hst⟩ |
          ⟨product, req1, hf0, hreq, hprod, _⟩
        · rw [h2] at hst
          simp at hst
        · rw [hp] at hf0
          have := Option.some.inj hf0
          subst this
          rcases hreq with ⟨K1, hK1, _, _⟩ | ⟨_, hr⟩
          · exact absurd hK1 (hno K1)
          · subst hr
            have hkey : (req1.apply p).ID = p.ID := UpdateProductRequest.apply_product_ID req1 p
            have hs := find?_saveRow Product.ID (req1.apply p) db.products p (by
              rw [hkey]; exact hp)
            rw [hkey] at hs
            rw [hprod, hs]
      · rw [UpdateProductRequest.apply_CompanyID, hK2]
        rfl
    · have hrun : deleteProductHandler db (some p.ID) ctx =
          ({ db with products := db.products.filter (fun x => x.ID ≠ p.ID) },
            ⟨200, .message "product deleted successfully"⟩) := by
        simp only [deleteProductHandler, verifyProductCompany_no_company Unit db p.ID ctx hno,
          DeleteProduct_of_no_faults db hf p.ID p hp]
      rw [hrun]
      exact ⟨rfl, find?_filter_ne Product.ID db.products p.ID⟩
    · have hq2 : ¬ q ≤ 0 := by omega
      have hq3 : ¬ p.Quantity < q := by omega
      have hfaults : (DB.faults { db with
          products := saveRow Product.ID { p with Quantity := wrapInt (p.Quantity - q) }
                        db.products }) = [] := hf
      have hs : (saveRow Product.ID { p with Quantity := wrapInt (p.Quantity - q) }
          db.products).find? (fun x => decide (x.ID = p.ID)) =
          some { p with Quantity := wrapInt (p.Quantity - q) } :=
        find?_saveRow Product.ID { p with Quantity := wrapInt (p.Quantity - q) } db.products p hp
      have hrun : reduceProductQuantityHandler db (some p.ID) (some q) ctx =
          ({ db with
              products := saveRow Product.ID { p with Quantity := wrapInt (p.Quantity - q) }
                            db.products },
            ⟨200, .value (some { p with Quantity := wrapInt (p.Quantity - q) })⟩) := by
        simp only [reduceProductQuantityHandler, if_neg hq2,
          verifyProductCompany_no_company (Option Product) db p.ID ctx hno,
          ReduceProductQuantity_of_no_faults db hf p.ID q p hp hq3,
          GetProductByID_of_no_faults _ p.ID hfaults, hs]
      rw [hrun]
      exact ⟨rfl, hs⟩

/-- C25 at a concrete input: product 6 belongs to company 9.  User 2, of company 7,
is answered 403 by the update.  User 3, who has no branch and for whom the
middleware stores a nil company in the context, is answered 200: product 6 is saved
with the company 7 and the quantity 1 of the body. -/
theorem C25_company_check_witness :
    shopDB.products.find? (fun x => decide (x.ID = 6)) =
      some { ID := 6, Name := "Ink", Price := .finite "20", Currency := "USD", Quantity := 4,
             ImageURI := none, Attributes := "\x7b\x7d", CompanyID := 9 } ∧
    AuthMiddleware shopDB (some 2) = (some (contextOf 2 7 User), shopDB) ∧
    AuthMiddleware shopDB (some 3) = (some (contextNoCompany 3 User), shopDB) ∧
    updateProductHandler shopDB (some 6) (.ok moveRequest) (contextOf 2 7 User) =
      (shopDB, ⟨403, .error "access denied"⟩) ∧
    (updateProductHandler shopDB (some 6) (.ok moveRequest) (contextNoCompany 3 User)).2 =
      ⟨200, .value { ID := 6, Name := "Ink", Price := .finite "20", Currency := "USD",
                     Quantity := 1, ImageURI := none, Attributes := "\x7b\x7d",
                     CompanyID := 7 }⟩ ∧
    (updateProductHandler shopDB (some 6) (.ok moveRequest)
        (contextNoCompany 3 User)).1.products.find? (fun x => decide (x.ID = 6)) =
      some { ID := 6, Name := "Ink", Price := .finite "20", Currency := "USD", Quantity := 1,
             ImageURI := none, Attributes := "\x7b\x7d", CompanyID := 7 } :=
  ⟨rfl, rfl, rfl,
    (((C25_company_check shopDB 6 _ rfl).1 7 (contextOf 2 7 User) rfl (by decide)).1
      moveRequest).2.2 rfl,
    (((C25_company_check shopDB 6 _ rfl).2.2 rfl (contextNoCompany 3 User)
      (fun K h => by simp [contextNoCompany] at h)).1 moveRequest).1,
    (((C25_company_check shopDB 6 _ rfl).2.2 rfl (contextNoCompany 3 User)
      (fun K h => by simp [contextNoCompany] at h)).1 moveRequest).2.1⟩


/-! ## The total of an updated sale -/

theorem find?_map_columns (rows : List SaleRecord) (id : Nat) :
    (rows.map SaleRecord.columns).find? (fun s => decide (s.ID = id)) =
      (rows.find? (fun s => decide (s.ID = id))).map SaleRecord.columns := by
  induction rows with
  | nil => rfl
  | cons r rs ih =>
    rw [List.map_cons, List.find?_cons, List.find?_cons, ih]
    have : (SaleRecord.columns r).ID = r.ID := rfl
    rw [this]
    cases decide (r.ID = id) <;> rfl

theorem UpdateSaleRequest.apply_sale_ID (ops : Float64Ops) (req : UpdateSaleRequest)
    (sale : SaleRecord) : (req.apply ops sale).ID = sale.ID := by
  unfold UpdateSaleRequest.apply
  simp only
  split
  · rfl
  · split <;> rfl

theorem UpdateSale_of_no_faults (ops : Float64Ops) (db : DB) (hf : db.faults = []) (id : Nat)
    (req : UpdateSaleRequest) (old : SaleRecord)
    (hold : db.sales.find? (fun s => decide (s.ID = id)) = some old) :
    UpdateSale ops db id req =
      (.ok (req.apply ops old.columns),
        { db with sales := saveRow SaleRecord.ID (req.apply ops old.columns) db.sales }) := by
  unfold UpdateSale
  rw [DB.First_of_no_faults _ _ _ hf, find?_map_columns, hold]
  simp only [Option.map_some']
  rw [DB.Exec_of_no_faults _ _ hf]

/-- C27: for a sale stored under `id`, when the database fails no statement,
`UpdateSale` returns the updated sale and stores it under `id`, with this total: the
`TotalPrice` of the request when it carries one; otherwise, when it carries a
`UnitPrice`, a `Quantity` or `ExtraCosts`, the sum of the extra costs and the
product of the unit price and the quantity, each being the value the sale has after
the update (that of the request where given, the stored one otherwise; product and
sum are those of `float64`); and the stored total, unchanged, when the request
carries none of the four. -/
theorem C27_update_sale_total (ops : Float64Ops) (db : DB) (hf : db.faults = []) (id : Nat)
    (req : UpdateSaleRequest) (old : SaleRecord)
    (hold : db.sales.find? (fun s => decide (s.ID = id)) = some old) :
    ∃ new : SaleRecord,
      (UpdateSale ops db id req).1 = .ok new ∧
      (UpdateSale ops db id req).2.sales.find? (fun s => decide (s.ID = id)) = some new ∧
      new.UnitPrice = req.UnitPrice.getD old.UnitPrice ∧
      new.Quantity = req.Quantity.getD old.Quantity ∧
      new.ExtraCosts = req.ExtraCosts.getD old.ExtraCosts ∧
      (∀ totalPrice, req.TotalPrice = some totalPrice → new.TotalPrice = totalPrice) ∧
      (req.TotalPrice = none →
        (req.UnitPrice ≠ none ∨ req.Quantity ≠ none ∨ req.ExtraCosts ≠ none) →
        new.TotalPrice =
          ops.add (ops.mul new.UnitPrice (ops.ofInt new.Quantity)) new.ExtraCosts) ∧
      (req.TotalPrice = none → req.UnitPrice = none → req.Quantity = none →
        req.ExtraCosts = none → new.TotalPrice = old.TotalPrice) := by
  have hid : old.ID = id := by simpa using List.find?_some hold
  subst hid
  refine ⟨req.apply ops old.columns, ?_, ?_, ?_, ?_, ?_, ?_, ?_, ?_⟩
  · rw [UpdateSale_of_no_faults ops db hf old.ID req old hold]
  · rw [UpdateSale_of_no_faults ops db hf old.ID req old hold]
    have hkey : (req.apply ops old.columns).ID = old.ID := UpdateSaleRequest.apply_sale_ID ops req _
    have hs := find?_saveRow SaleRecord.ID (req.apply ops old.columns) db.sales old (by
      rw [hkey]; exact hold)
    rw [hkey] at hs
    exact hs
  · unfold UpdateSaleRequest.apply
    simp only
    split
    · rfl
    · split <;> rfl
  · unfold UpdateSaleRequest.apply
    simp only
    split
    · rfl
    · split <;> rfl
  · unfold UpdateSaleRequest.apply
    simp only
    split
    · rfl
    · split <;> rfl
  · intro totalPrice ht
    unfold UpdateSaleRequest.apply
    simp only [ht]
  · intro ht hany
    have hgetD : ∀ {α : Type} (o : Option α) (x : α), o.getD (o.getD x) = o.getD x := by
      intro α o x
      cases o <;> rfl
    unfold UpdateSaleRequest.apply
    simp only [ht]
    rw [if_pos hany]
    simp only [hgetD]
  · intro ht hu hq he
    unfold UpdateSaleRequest.apply
    simp only [ht, hu, hq, he]
    rfl

/-- C27 at a concrete input: sale 42 is stored with 3 units at 50 and the total 150;
a request that only sets the quantity to 4 makes the total 50 * 4 + 0. -/
theorem C27_update_sale_total_witness :
    salesDB.faults = [] ∧
    salesDB.sales.find? (fun s => decide (s.ID = 42)) = some sale42 ∧
    ∃ new : SaleRecord,
      (UpdateSale wholeOps salesDB 42 quantityRequest).1 = .ok new ∧
      (UpdateSale wholeOps salesDB 42 quantityRequest).2.sales.find?
        (fun s => decide (s.ID = 42)) = some new ∧
      new.Quantity = 4 ∧ new.UnitPrice = .finite "50" ∧ new.ExtraCosts = .finite "0" ∧
      new.TotalPrice = .finite "200" := by
  obtain ⟨new, h1, h2, h3, h4, h5, _, h7, _⟩ :=
    C27_update_sale_total wholeOps salesDB rfl 42 quantityRequest sale42 rfl
  refine ⟨rfl, rfl, new, h1, h2, h4, h3, h5, ?_⟩
  rw [h7 rfl (Or.inr (Or.inl (by decide))), h3, h4, h5]
  rfl

/-! ## `createSaleHandler` on the database -/

theorem GetCompanyIDFromBranch_same (db : DB) (branchID : Nat) :
    (GetCompanyIDFromBranch db branchID).2.sameTables db := by
  unfold GetCompanyIDFromBranch
  have h1 := db.First_same db.branches (fun b => b.ID = branchID)
  split
  · next _ db1 heq => rw [heq] at h1; exact h1
  · next _ db1 heq => rw [heq] at h1; exact h1

theorem GetCompanyIDFromSale_same (db : DB) (sale : SaleRecord) :
    (GetCompanyIDFromSale db sale).2.sameTables db := by
  unfold GetCompanyIDFromSale
  split
  · exact db.sameTables_refl
  · have h1 := GetUserByID_same db sale.SellerID
    split
    · next _ db1 heq => rw [heq] at h1; exact h1
    · next user db1 heq =>
      rw [heq] at h1
      split
      · exact h1
      · next branchID _ =>
        have h2 := GetCompanyIDFromBranch_same db1 branchID
        split
        · next _ db2 heq2 => rw [heq2] at h2; exact h2.trans h1
        · next _ db2 heq2 => rw [heq2] at h2; exact h2.trans h1

/-- `populateSeller` reads only, and sets only the fields `Seller` and `Branch`. -/
theorem populateSeller_spec (db : DB) (sale : SaleRecord) :
    (populateSeller db sale).2.sameTables db ∧
    (populateSeller db sale).1.columns = sale.columns := by
  unfold populateSeller
  split
  · exact ⟨db.sameTables_refl, rfl⟩
  · have h1 := GetUserByID_same db sale.SellerID
    split
    · next _ db1 heq => rw [heq] at h1; exact ⟨h1, rfl⟩
    · next user db1 heq =>
      rw [heq] at h1
      split
      · exact ⟨h1, rfl⟩
      · next branchID _ =>
        have h2 := db1.First_same db1.branches (fun b => b.ID = branchID)
        split
        · next _ db2 heq2 => rw [heq2] at h2; exact ⟨h2.trans h1, rfl⟩
        · next _ db2 heq2 => rw [heq2] at h2; exact ⟨h2.trans h1, rfl⟩

/-- Whatever the database does, `CreateSale` either returns an error and changes no
table, or appends one row to the sales, built from the request, and returns it with
`Seller` and `Branch` filled in; no other table changes. -/
theorem CreateSale_cases (db : DB) (now : String) (req : CreateSaleRequest) :
    (∃ err, (CreateSale db now req).1 = .error err ∧ (CreateSale db now req).2.sameTables db) ∨
    (∃ (sale : SaleRecord) (db1 : DB), CreateSale db now req = (.ok sale, db1) ∧
      sale.columns = { req.sale with ID := db.saleSeq + 1, CreatedAt := now } ∧
      db1.sales = db.sales ++ [sale.columns] ∧
      db1.users = db.users ∧ db1.branches = db.branches ∧ db1.companies = db.companies ∧
      db1.products = db.products ∧ db1.preferences = db.preferences ∧
      db1.notifications = db.notifications) := by
  unfold CreateSale
  rcases db.Exec_cases (fun d =>
      { d with sales := d.sales ++ [{ req.sale with ID := d.saleSeq + 1, CreatedAt := now }],
               saleSeq := d.saleSeq + 1 }) with ⟨msg, db1, he, hs⟩ | ⟨db1, he, hs⟩
  · rw [he]
    exact Or.inl ⟨_, rfl, hs⟩
  · rw [he]
    simp only
    have hp := populateSeller_spec
      { db1 with sales := db1.sales ++ [{ req.sale with ID := db1.saleSeq + 1, CreatedAt := now }],
                 saleSeq := db1.saleSeq + 1 }
      { req.sale with ID := db.saleSeq + 1, CreatedAt := now }
    have hseq : db1.saleSeq = db.saleSeq := by
      have h2 := congrArg DB.saleSeq hs
      exact h2
    refine Or.inr ⟨_, _, rfl, hp.2, ?_, ?_, ?_, ?_, ?_, ?_, ?_⟩
    · rw [hp.1.sales, hp.2]
      simp only [hs.sales, hseq]
      rfl
    · rw [hp.1.users]; exact hs.users
    · rw [hp.1.branches]; exact hs.branches
    · rw [hp.1.companies]; exact hs.companies
    · rw [hp.1.products]; exact hs.products
    · rw [hp.1.preferences]; exact hs.preferences
    · rw [hp.1.notifications]; exact hs.notifications

theorem CreateNotification_sales (db : DB) (req : CreateNotificationRequest) :
    (CreateNotification db req).2.sales = db.sales := by
  have h := congrArg DB.sales (CreateNotification_cases db req).1
  exact h

theorem saleEventOf_fields (sale : SaleRecord) (seller : Option UserModel) :
    (saleEventOf sale seller).Type_ = "new_sale" ∧
    (saleEventOf sale seller).SaleID = sale.ID ∧
    (saleEventOf sale seller).ProductName = sale.ProductName ∧
    (saleEventOf sale seller).Quantity = sale.Quantity ∧
    (saleEventOf sale seller).TotalPrice = sale.TotalPrice ∧
    (saleEventOf sale seller).Currency = sale.Currency ∧
    (saleEventOf sale seller).CreatedAt = sale.CreatedAt ∧
    (∀ b, sale.Branch = some b → b.Name ≠ "" → (saleEventOf sale seller).BranchName = b.Name) ∧
    ((∀ b, sale.Branch = some b → b.Name = "") →
      (saleEventOf sale seller).BranchName =
        match seller with
        | some u => u.Branch
        | none => "") := by
  refine ⟨rfl, rfl, rfl, rfl, rfl, rfl, rfl, ?_, ?_⟩
  · intro b hb hne
    simp [saleEventOf, hb, hne]
  · intro h
    unfold saleEventOf
    cases hb : sale.Branch with
    | none => rfl
    | some b => simp [h b hb]

/-- The two embeddings of `createSaleHandler` agree: on the registry and the answer,
the handler on the database is the handler over the service calls that the
database answers. -/
theorem createSaleHandlerDB_eq (ops : Float64Ops) (db : DB) (now : String) (s : State)
    (req : CreateSaleRequest) (ctx : Context) (u : Nat) (hu : ctx.user_id = some (.uint u)) :
    (match createSaleHandlerDB ops db now s (.ok req) ctx with
      | .ok r => .ok (r.registry, r.response)
      | .error p => .error p) =
    createSaleHandler (servicesOn ops db now { req with SellerID := u }) s (.ok req) ctx := by
  unfold createSaleHandlerDB createSaleHandler servicesOn
  simp only [hu]
  rcases hc : CreateSale db now { req with SellerID := u } with ⟨c, db1⟩
  cases c with
  | error err => rfl
  | ok sale =>
    simp only
    rcases hg : GetCompanyIDFromSale (CreateNotification db1 (saleNotification ops u sale)).2 sale
      with ⟨g, db3⟩
    cases g with
    | error err => rfl
    | ok K =>
      cases K with
      | none => rfl
      | some K =>
        simp only
        cases BroadcastSaleEvent s K (saleEventOf sale
          (match (GetUserByID db3 u).1 with
            | .ok u => some u
            | .error _ => none)) <;> rfl

/-- What `createSaleHandler` does for a caller with a user id, in a reachable state
of the registry: either `CreateSale` fails, the answer is 400 and no sale is stored;
or the sale is stored as one new row and the answer is 201 with it, and the handler
has made no call of `BroadcastSaleEvent`, or exactly one, as `GetCompanyIDFromSale`
decides. -/
theorem createSaleHandlerDB_cases (ops : Float64Ops) (db : DB) (now : String) (s : State)
    (hs : Reachable s) (req : CreateSaleRequest) (ctx : Context) (u : Nat)
    (hu : ctx.user_id = some (.uint u)) :
    (∃ (err : String) (db1 : DB),
      CreateSale db now { req with SellerID := u } = (.error err, db1) ∧
      createSaleHandlerDB ops db now s (.ok req) ctx = .ok ⟨db1, s, [], ⟨400, .error err⟩⟩ ∧
      db1.sales = db.sales) ∨
    (∃ (sale : SaleRecord) (db1 : DB) (r : CreateSaleResult),
      CreateSale db now { req with SellerID := u } = (.ok sale, db1) ∧
      createSaleHandlerDB ops db now s (.ok req) ctx = .ok r ∧
      r.response = ⟨201, .sale sale⟩ ∧
      r.db.sales = db.sales ++ [sale.columns] ∧
      sale.columns = { ({ req with SellerID := u } : CreateSaleRequest).sale with
                       ID := db.saleSeq + 1, CreatedAt := now } ∧
      ((∃ (K : Nat) (db3 : DB),
          GetCompanyIDFromSale (CreateNotification db1 (saleNotification ops u sale)).2 sale =
            (.ok (some K), db3) ∧
          r.broadcasts = [(K, saleEventOf sale
            (match (GetUserByID db3 u).1 with
              | .ok seller => some seller
              | .error _ => none))] ∧
          BroadcastSaleEvent s K (saleEventOf sale
            (match (GetUserByID db3 u).1 with
              | .ok seller => some seller
              | .error _ => none)) = .ok r.registry) ∨
        ((∀ (K : Nat), (GetCompanyIDFromSale
            (CreateNotification db1 (saleNotification ops u sale)).2 sale).1 ≠ .ok (some K)) ∧
          r.broadcasts = [] ∧ r.registry = s))) := by
  unfold createSaleHandlerDB
  simp only [hu]
  rcases CreateSale_cases db now { req with SellerID := u } with
    ⟨err, he, hsame⟩ | ⟨sale, db1, hc, hcol, hsales, _⟩
  · rcases hc : CreateSale db now { req with SellerID := u } with ⟨c, db1⟩
    rw [hc] at he hsame
    simp only at he
    subst he
    exact Or.inl ⟨err, db1, rfl, rfl, hsame.sales⟩
  · rw [hc]
    simp only
    have hn := CreateNotification_sales db1 (saleNotification ops u sale)
    have hg := GetCompanyIDFromSale_same
      (CreateNotification db1 (saleNotification ops u sale)).2 sale
    rcases hge : GetCompanyIDFromSale (CreateNotification db1 (saleNotification ops u sale)).2 sale
      with ⟨g, db3⟩
    rw [hge] at hg
    have hsales3 : db3.sales = db.sales ++ [sale.columns] := by
      rw [hg.sales, hn, hsales]
    have hno : ∀ g1 : Except String (Option Nat), (∀ K, g1 ≠ .ok (some K)) →
        (match (g1, db3) with
          | (.ok (some companyID), db3) =>
            match BroadcastSaleEvent s companyID (saleEventOf sale
              (match (GetUserByID db3 u).1 with
                | .ok u => some u
                | .error _ => none)) with
            | .error p => .error p
            | .ok s1 =>
              .ok ⟨(GetUserByID db3 u).2, s1, [(companyID, saleEventOf sale
                (match (GetUserByID db3 u).1 with
                  | .ok u => some u
                  | .error _ => none))], ⟨201, .sale sale⟩⟩
          | (_, db3) => .ok ⟨db3, s, [], ⟨201, .sale sale⟩⟩ : Except Panic CreateSaleResult) =
        .ok ⟨db3, s, [], ⟨201, .sale sale⟩⟩ := by
      intro g1 hg1
      cases g1 with
      | error e => rfl
      | ok K =>
        cases K with
        | none => rfl
        | some K => exact absurd rfl (hg1 K)
    by_cases hres : ∃ K, g = .ok (some K)
    · obtain ⟨K, hK⟩ := hres
      subst hK
      simp only
      obtain ⟨s1, hb⟩ := hs.inv.step_ok (.broadcast K (saleEventOf sale
        (match (GetUserByID db3 u).1 with
          | .ok u => some u
          | .error _ => none)))
      have hb2 : BroadcastSaleEvent s K (saleEventOf sale
          (match (GetUserByID db3 u).1 with
            | .ok u => some u
            | .error _ => none)) = .ok s1 := hb
      rw [hb2]
      refine Or.inr ⟨sale, db1, _, rfl, rfl, rfl, ?_, hcol, Or.inl ⟨K, db3, hge, rfl, hb2⟩⟩
      show (GetUserByID db3 u).2.sales = _
      rw [(GetUserByID_same db3 u).sales]
      exact hsales3
    · have hne : ∀ K, g ≠ .ok (some K) := fun K h => hres ⟨K, h⟩
      rw [hno g hne]
      exact Or.inr ⟨sale, db1, _, rfl, rfl, rfl, hsales3, hcol,
        Or.inr ⟨by rw [hge]; exact hne, rfl, rfl⟩⟩

/-- C22: for a create-sale request of an authenticated user `u`, in a reachable state
of the registry, `createSaleHandler` does the same whatever `sellerId` the body
carries, and either stores nothing and answers 400, or stores exactly one sale, the
one it answers 201 with, whose `SellerID` is `u`. -/
theorem C22_seller_is_caller (ops : Float64Ops) (db : DB) (now : String) (s : State)
    (hs : Reachable s) (req : CreateSaleRequest) (ctx : Context) (u : Nat)
    (hu : ctx.user_id = some (.uint u)) :
    (∀ sellerId : Nat,
      createSaleHandlerDB ops db now s (.ok { req with SellerID := sellerId }) ctx =
        createSaleHandlerDB ops db now s (.ok req) ctx) ∧
    ∃ r : CreateSaleResult, createSaleHandlerDB ops db now s (.ok req) ctx = .ok r ∧
      ((r.response.status = 400 ∧ r.db.sales = db.sales) ∨
        ∃ sale : SaleRecord, r.response = ⟨201, .sale sale⟩ ∧ sale.SellerID = u ∧
          r.db.sales = db.sales ++ [sale.columns] ∧ sale.columns.SellerID = u ∧
          sale.columns.ID = sale.ID) := by
  refine ⟨fun sellerId => ?_, ?_⟩
  · unfold createSaleHandlerDB
    simp only [hu]
  · rcases createSaleHandlerDB_cases ops db now s hs req ctx u hu with
      ⟨err, db1, _, hrun, hsales⟩ | ⟨sale, db1, r, _, hrun, hresp, hsales, hcol, _⟩
    · exact ⟨_, hrun, Or.inl ⟨rfl, hsales⟩⟩
    · have hseller : sale.columns.SellerID = u := by rw [hcol]; rfl
      exact ⟨r, hrun, Or.inr ⟨sale, hresp, hseller, hsales, hseller, rfl⟩⟩

/-- C22 at a concrete input: user 2 sends a request whose body names seller 99 (or
seller 5); the one sale stored has the seller 2. -/
theorem C22_seller_is_caller_witness :
    Reachable oneAdmin ∧ (contextOf 2 7 User).user_id = some (.uint 2) ∧
    saleRequest.SellerID = 99 ∧
    createSaleHandlerDB wholeOps shopDB testNow oneAdmin
        (.ok { saleRequest with SellerID := 5 }) (contextOf 2 7 User) =
      createSaleHandlerDB wholeOps shopDB testNow oneAdmin (.ok saleRequest)
        (contextOf 2 7 User) ∧
    (match createSaleHandlerDB wholeOps shopDB testNow oneAdmin (.ok saleRequest)
        (contextOf 2 7 User) with
      | .ok r => r.db.sales
      | .error _ => []) = [{ sale42 with SellerID := 2 }] ∧
    (match createSaleHandlerDB wholeOps shopDB testNow oneAdmin (.ok saleRequest)
        (contextOf 2 7 User) with
      | .ok r => r.response
      | .error _ => ⟨500, .error ""⟩) = ⟨201, .sale sale42Bob⟩ :=
  ⟨⟨[.register 1 7 SuperAdmin], rfl⟩, rfl, rfl,
    (C22_seller_is_caller wholeOps shopDB testNow oneAdmin ⟨[.register 1 7 SuperAdmin], rfl⟩
      saleRequest (contextOf 2 7 User) 2 rfl).1 5,
    rfl, rfl⟩

/-- C26: for a sale that `createSaleHandler` has stored for the caller `u`, in a
reachable state of the registry, the handler answers 201 and makes exactly one call
`BroadcastSaleEvent(K, ev)` when `GetCompanyIDFromSale` resolves the branch of the
seller to the company `K`, and none otherwise.  The event has the type `new_sale`
and the id, product name, quantity, total and currency of the sale, which is the
one row the handler has added to the stored sales; its branch name is the one
`CreateSale` filled into the sale when that is not empty, and otherwise the branch
name in the record of the seller that `GetUserByID` returns (empty when the seller
is not found).  `GetCompanyIDFromSale` resolves nothing when the sale has no seller
(id 0), when the seller cannot be read, when the seller has no branch, or when
`GetCompanyIDFromBranch` fails; otherwise its result is that of
`GetCompanyIDFromBranch` for the branch of the seller. -/
theorem C26_broadcast_of_created_sale (ops : Float64Ops) (db : DB) (now : String) (s : State)
    (hs : Reachable s) (req : CreateSaleRequest) (ctx : Context) (u : Nat)
    (hu : ctx.user_id = some (.uint u)) (sale : SaleRecord) (db1 : DB)
    (hcreate : CreateSale db now { req with SellerID := u } = (.ok sale, db1)) :
    ∃ r : CreateSaleResult, createSaleHandlerDB ops db now s (.ok req) ctx = .ok r ∧
      r.response = ⟨201, .sale sale⟩ ∧ sale.SellerID = u ∧
      r.db.sales = db.sales ++ [sale.columns] ∧
      (∀ (K : Nat) (db3 : DB),
        GetCompanyIDFromSale (CreateNotification db1 (saleNotification ops u sale)).2 sale =
          (.ok (some K), db3) →
        ∃ ev : SaleEvent, r.broadcasts = [(K, ev)] ∧ BroadcastSaleEvent s K ev = .ok r.registry ∧
          ev.Type_ = "new_sale" ∧ ev.SaleID = sale.ID ∧ ev.ProductName = sale.ProductName ∧
          ev.Quantity = sale.Quantity ∧ ev.TotalPrice = sale.TotalPrice ∧
          ev.Currency = sale.Currency ∧
          (∀ b, sale.Branch = some b → b.Name ≠ "" → ev.BranchName = b.Name) ∧
          ((∀ b, sale.Branch = some b → b.Name = "") →
            ev.BranchName =
              match (GetUserByID db3 u).1 with
              | .ok seller => seller.Branch
              | .error _ => "")) ∧
      ((∀ K : Nat, (GetCompanyIDFromSale
          (CreateNotification db1 (saleNotification ops u sale)).2 sale).1 ≠ .ok (some K)) →
        r.broadcasts = [] ∧ r.registry = s) ∧
      (∀ notified : DB,
        (sale.SellerID = 0 →
          (GetCompanyIDFromSale notified sale).1 = .error "sale has no seller") ∧
        (sale.SellerID ≠ 0 → ∀ (err : String) (db2 : DB),
          GetUserByID notified sale.SellerID = (.error err, db2) →
          (GetCompanyIDFromSale notified sale).1 = .error err) ∧
        (sale.SellerID ≠ 0 → ∀ (user : UserModel) (db2 : DB),
          GetUserByID notified sale.SellerID = (.ok user, db2) → user.BranchID = none →
          (GetCompanyIDFromSale notified sale).1 = .error "seller has no branch") ∧
        (sale.SellerID ≠ 0 → ∀ (user : UserModel) (db2 : DB) (b : Nat),
          GetUserByID notified sale.SellerID = (.ok user, db2) → user.BranchID = some b →
          GetCompanyIDFromSale notified sale = GetCompanyIDFromBranch db2 b)) := by
  rcases createSaleHandlerDB_cases ops db now s hs req ctx u hu with
    ⟨err, db1', hc, _⟩ | ⟨sale', db1', r, hc, hrun, hresp, hstored, hcol, hb⟩
  · rw [hcreate] at hc
    simp at hc
  · rw [hcreate] at hc
    have h1 : sale = sale' := Except.ok.inj (Prod.mk.inj hc).1
    have h2 : db1 = db1' := (Prod.mk.inj hc).2
    subst h1 h2
    have hseller : sale.SellerID = u := by
      have : sale.columns.SellerID = u := by rw [hcol]; rfl
      exact this
    refine ⟨r, hrun, hresp, hseller, hstored, ?_, ?_, ?_⟩
    · intro K db3 hg
      rcases hb with ⟨K', db3', hg', hbr, hreg⟩ | ⟨hno, _⟩
      · rw [hg] at hg'
        have hK : K = K' := by
          have := (Prod.mk.inj hg').1
          simpa using this
        have hdb : db3 = db3' := (Prod.mk.inj hg').2
        subst hK hdb
        have hf := saleEventOf_fields sale
          (match (GetUserByID db3 u).1 with
            | .ok seller => some seller
            | .error _ => none)
        refine ⟨_, hbr, hreg, hf.1, hf.2.1, hf.2.2.1, hf.2.2.2.1, hf.2.2.2.2.1,
          hf.2.2.2.2.2.1, hf.2.2.2.2.2.2.2.1, fun h => ?_⟩
        rw [hf.2.2.2.2.2.2.2.2 h]
        cases (GetUserByID db3 u).1 <;> rfl
      · rw [hg] at hno
        exact absurd rfl (hno K)
    · intro hno
      rcases hb with ⟨K', db3', hg', _, _⟩ | ⟨_, hbr, hreg⟩
      · rw [hg'] at hno
        exact absurd rfl (hno K')
      · exact ⟨hbr, hreg⟩
    · intro notified
      refine ⟨fun h0 => ?_, fun h0 err db2 hget => ?_, fun h0 user db2 hget hbr => ?_,
        fun h0 user db2 b hget hbr => ?_⟩
      · simp [GetCompanyIDFromSale, h0]
      · simp [GetCompanyIDFromSale, h0, hget]
      · simp [GetCompanyIDFromSale, h0, hget, hbr]
      · simp only [GetCompanyIDFromSale, h0, hget, hbr, if_false]
        rcases GetCompanyIDFromBranch db2 b with ⟨g, db3⟩
        cases g <;> rfl

/-- C26 at a concrete input: user 2, of branch 1 of company 7, creates a sale while
user 1 of company 7 listens; one event is broadcast to company 7, with the branch
name of the sale, and it lands in the queue of user 1. -/
theorem C26_broadcast_of_created_sale_witness :
    Reachable oneAdmin ∧ (contextOf 2 7 User).user_id = some (.uint 2) ∧
    CreateSale shopDB testNow { saleRequest with SellerID := 2 } =
      (.ok sale42Bob, shopDBAfterSale) ∧
    (GetCompanyIDFromSale
      (CreateNotification shopDBAfterSale (saleNotification wholeOps 2 sale42Bob)).2
      sale42Bob).1 = .ok (some 7) ∧
    (match createSaleHandlerDB wholeOps shopDB testNow oneAdmin (.ok saleRequest)
        (contextOf 2 7 User) with
      | .ok r => r.broadcasts
      | .error _ => []) = [(7, saleEvent42Bob)] ∧
    (match createSaleHandlerDB wholeOps shopDB testNow oneAdmin (.ok saleRequest)
        (contextOf 2 7 User) with
      | .ok r => (r.registry.queue 0).length
      | .error _ => 0) = 1 ∧
    ∃ r : CreateSaleResult,
      createSaleHandlerDB wholeOps shopDB testNow oneAdmin (.ok saleRequest)
        (contextOf 2 7 User) = .ok r ∧
      r.response = ⟨201, .sale sale42Bob⟩ ∧ sale42Bob.SellerID = 2 :=
  ⟨⟨[.register 1 7 SuperAdmin], rfl⟩, rfl, rfl, rfl, rfl, rfl,
    (C26_broadcast_of_created_sale wholeOps shopDB testNow oneAdmin
      ⟨[.register 1 7 SuperAdmin], rfl⟩ saleRequest (contextOf 2 7 User) 2 rfl sale42Bob
      shopDBAfterSale rfl).imp fun _ h => ⟨h.1, h.2.1, h.2.2.1⟩⟩

end Sale
